import Mathlib

/-!
# OpenTX Companion: persistent application settings (`companion/src/storage/appdata.{h,cpp}`)

A shallow embedding of the settings engine.  The backing store (Qt's `QSettings`) is an
external collaborator of the code; it is represented by a key/value list with the key
handling that `QSettings` documents (key normalisation, groups, removal of a key together
with its sub-keys).  `QVariant` is represented by a sum over the value types the
application stores.  Everything in `appdata.h` / `appdata.cpp` is transcribed on top of
that model, keeping the names of the source.
-/

namespace Companion

/-! ## Values: `QVariant` and the property types -/

/-- Modelled from the spec: `SimulatorOptions` is declared in `simulator.h`, which is not
among the sources; the spec calls it a structured "simulator options" value.  It is a
registered custom type with stream operators, and is represented here by the content it
streams.  `SimulatorOptions()` is `SimulatorOptions.ctor`. -/
structure SimulatorOptions where
  stream : List Nat
  deriving DecidableEq, Repr

/-- Default-constructed `SimulatorOptions()`. -/
def SimulatorOptions.ctor : SimulatorOptions := ⟨[]⟩

/-- The C++ types `T` that `PROPERTY4` is instantiated with in `appdata.h`. -/
inductive QMetaType where
  | bool
  | int
  | uint
  | qString
  | qStringList
  | qByteArray
  | simulatorOptions
  deriving DecidableEq, Repr

/-- The values of each C++ type: `int` and `unsigned` are integers (wrapped to 32 bits
where a conversion produces them), `QString` a string, `QByteArray` its characters. -/
abbrev QMetaType.T : QMetaType → Type
  | .bool => Bool
  | .int => Int
  | .uint => Nat
  | .qString => String
  | .qStringList => List String
  | .qByteArray => List Char
  | .simulatorOptions => SimulatorOptions

instance QMetaType.decEqT : (t : QMetaType) → DecidableEq t.T
  | .bool => inferInstanceAs (DecidableEq Bool)
  | .int => inferInstanceAs (DecidableEq Int)
  | .uint => inferInstanceAs (DecidableEq Nat)
  | .qString => inferInstanceAs (DecidableEq String)
  | .qStringList => inferInstanceAs (DecidableEq (List String))
  | .qByteArray => inferInstanceAs (DecidableEq (List Char))
  | .simulatorOptions => inferInstanceAs (DecidableEq SimulatorOptions)

/-- A `QVariant`: invalid, or a value of one of the stored types. -/
inductive QVariant where
  | invalid
  | bool (b : Bool)
  | int (i : Int)
  | uint (n : Nat)
  | qString (s : String)
  | qStringList (l : List String)
  | qByteArray (b : List Char)
  | simulatorOptions (o : SimulatorOptions)
  deriving DecidableEq, Repr

/-- `QVariant::fromValue<T>(v)`. -/
def QVariant.fromValue : (t : QMetaType) → t.T → QVariant
  | .bool, b => .bool b
  | .int, i => .int i
  | .uint, n => .uint n
  | .qString, s => .qString s
  | .qStringList, l => .qStringList l
  | .qByteArray, b => .qByteArray b
  | .simulatorOptions, o => .simulatorOptions o

/-- `QVariant::isValid()`. -/
def QVariant.isValid : QVariant → Bool
  | .invalid => false
  | _ => true

/-- Conversion of a 64 bit value to C++ `int` (two's complement truncation). -/
def wrapInt32 (x : Int) : Int := (x + 2 ^ 31) % 2 ^ 32 - 2 ^ 31

/-- Conversion of an integer to C++ `unsigned` (reduction modulo 2^32). -/
def wrapUInt32 (x : Int) : Nat := (x % 2 ^ 32).toNat

/-- Value of a non-empty run of decimal digits. -/
def digitsValue : List Char → Option Nat
  | [] => none
  | cs => if cs.all Char.isDigit then some (cs.foldl (fun n c => 10 * n + (c.toNat - 48)) 0) else none

/-- Strips white space at both ends, as the Qt number parsers do. -/
def trimmed (cs : List Char) : List Char :=
  ((cs.dropWhile Char.isWhitespace).reverse.dropWhile Char.isWhitespace).reverse

/-- `QString::toLongLong` in base 10: optional sign, decimal digits, 64 bit range. -/
def toLongLong (cs : List Char) : Option Int :=
  let r : Option Int :=
    match trimmed cs with
    | '-' :: ds => (digitsValue ds).map (fun n => - (n : Int))
    | '+' :: ds => (digitsValue ds).map (fun n => (n : Int))
    | ds => (digitsValue ds).map (fun n => (n : Int))
  match r with
  | some v => if - 2 ^ 63 ≤ v ∧ v < 2 ^ 63 then some v else none
  | none => none

/-- `QString::toULongLong` in base 10. -/
def toULongLong (cs : List Char) : Option Int :=
  let r : Option Int :=
    match trimmed cs with
    | '+' :: ds => (digitsValue ds).map (fun n => (n : Int))
    | ds => (digitsValue ds).map (fun n => (n : Int))
  match r with
  | some v => if v < 2 ^ 64 then some v else none
  | none => none

/-- `QVariant::toInt()`: numbers are truncated to `int`, text is parsed, anything else
gives 0. -/
def QVariant.toInt : QVariant → Int
  | .bool b => if b then 1 else 0
  | .int i => i
  | .uint n => wrapInt32 n
  | .qString s => wrapInt32 ((toLongLong s.data).getD 0)
  | .qByteArray b => wrapInt32 ((toLongLong b).getD 0)
  | _ => 0

/-- `QVariant::toUInt()`. -/
def QVariant.toUInt : QVariant → Nat
  | .bool b => if b then 1 else 0
  | .int i => wrapUInt32 i
  | .uint n => n
  | .qString s => wrapUInt32 ((toULongLong s.data).getD 0)
  | .qByteArray b => wrapUInt32 ((toULongLong b).getD 0)
  | _ => 0

/-- Text that `QVariant::toBool()` reads as false: empty, "0" or "false" after lower-casing. -/
def textIsFalse (cs : List Char) : Bool :=
  let low := cs.map Char.toLower
  low = [] || low = ['0'] || low = ['f', 'a', 'l', 's', 'e']

/-- `QVariant::toBool()`. -/
def QVariant.toBool : QVariant → Bool
  | .bool b => b
  | .int i => i ≠ 0
  | .uint n => n ≠ 0
  | .qString s => !textIsFalse s.data
  | .qByteArray b => !textIsFalse b
  | _ => false

/-- `QVariant::toString()`. -/
def QVariant.toQString : QVariant → String
  | .bool b => if b then "true" else "false"
  | .int i => toString i
  | .uint n => toString n
  | .qString s => s
  | .qStringList [s] => s
  | .qByteArray b => String.mk b
  | _ => ""

/-- `QVariant::toStringList()`. -/
def QVariant.toQStringList : QVariant → List String
  | .qString s => [s]
  | .qStringList l => l
  | _ => []

/-- `QVariant::toByteArray()`. -/
def QVariant.toQByteArray : QVariant → List Char
  | .bool b => if b then "true".data else "false".data
  | .int i => (toString i).data
  | .uint n => (toString n).data
  | .qString s => s.data
  | .qByteArray b => b
  | _ => []

/-- `QVariant::canConvert<T>()`: decided by the type held (and, for a string list asked
for as a string, by its having exactly one item), never by whether the text parses. -/
def QVariant.canConvert : QMetaType → QVariant → Bool
  | _, .invalid => false
  | .simulatorOptions, .simulatorOptions _ => true
  | .simulatorOptions, _ => false
  | _, .simulatorOptions _ => false
  | .qStringList, .qStringList _ => true
  | .qStringList, .qString _ => true
  | .qStringList, _ => false
  | .qString, .qStringList l => l.length = 1
  | _, .qStringList _ => false
  | _, _ => true

/-- `QVariant::value<T>()`: the held value converted to `T`. -/
def QVariant.value : (t : QMetaType) → QVariant → t.T
  | .bool, v => v.toBool
  | .int, v => v.toInt
  | .uint, v => v.toUInt
  | .qString, v => v.toQString
  | .qStringList, v => v.toQStringList
  | .qByteArray, v => v.toQByteArray
  | .simulatorOptions, .simulatorOptions o => o
  | .simulatorOptions, _ => SimulatorOptions.ctor

/-- Whether the variant holds a number in the sense of `QVariant` comparison. -/
def QVariant.isNumeric : QVariant → Bool
  | .bool _ => true
  | .int _ => true
  | .uint _ => true
  | _ => false

/-- Numeric content used when two numeric variants are compared. -/
def QVariant.number : QVariant → Int
  | .bool b => if b then 1 else 0
  | .int i => i
  | .uint n => n
  | _ => 0

/-- `QVariant::operator==`.  Two numeric variants are compared as numbers; two variants of
the same type by the equality of that type (for the custom type `SimulatorOptions`:
equality of content); otherwise the right-hand side is converted to the type of the
left-hand side when `canConvert` allows it. -/
def QVariant.eq (a b : QVariant) : Bool :=
  if a.isNumeric && b.isNumeric then a.number = b.number
  else
    match a, b with
    | .invalid, .invalid => true
    | .qString s, .qString s2 => s = s2
    | .qStringList l, .qStringList l2 => l = l2
    | .qByteArray x, .qByteArray y => x = y
    | .simulatorOptions o, .simulatorOptions o2 => o = o2
    | .qString s, v => v.canConvert .qString && s = v.toQString
    | .qStringList l, v => v.canConvert .qStringList && l = v.toQStringList
    | .qByteArray x, v => v.canConvert .qByteArray && x = v.toQByteArray
    | .bool x, v => v.canConvert .bool && x = v.toBool
    | .int x, v => v.canConvert .int && x = v.toInt
    | .uint x, v => v.canConvert .uint && x = v.toUInt
    | _, _ => false

/-! ## The backing store: `QSettings` -/

/-- Splits a key at every '/' and keeps the non-empty sections.  `cur` is the section being
read, in reverse. -/
def keySections : List Char → List Char → List (List Char)
  | [], cur => if cur = [] then [] else [cur.reverse]
  | c :: cs, cur =>
    if c = '/' then
      if cur = [] then keySections cs [] else cur.reverse :: keySections cs []
    else keySections cs (c :: cur)

/-- Joins sections with a single '/' between two of them. -/
def joinSections : List (List Char) → List Char
  | [] => []
  | [s] => s
  | s :: t :: rest => s ++ '/' :: joinSections (t :: rest)

/-- `QSettingsPrivate::normalizedKey`: leading and trailing slashes are dropped and a run of
slashes counts as one. -/
def normalizedKey (key : String) : String := String.mk (joinSections (keySections key.data []))

/-- A `QSettings` object: the groups opened with `beginGroup`, innermost first, and the
settings it gives access to (full key and value, first entry of a key counts). -/
structure QSettings where
  groupStack : List String
  map : List (String × QVariant)
  deriving DecidableEq, Repr

namespace QSettings

/-- A settings object as constructed (`QSettings(COMPANY, PRODUCT)`): no group is open. -/
def ofStore (m : List (String × QVariant)) : QSettings := ⟨[], m⟩

/-- `QSettings::group()`: the open groups joined by '/'. -/
def group (s : QSettings) : String :=
  String.mk (joinSections ((s.groupStack.reverse.filter (fun g => g ≠ "")).map String.data))

/-- The text put in front of every key: the current group and a '/', or nothing. -/
def groupPath (s : QSettings) : String :=
  if s.group = "" then "" else s.group ++ "/"

/-- `QSettingsPrivate::actualKey`. -/
def actualKey (s : QSettings) (key : String) : String := s.groupPath ++ normalizedKey key

/-- `QSettings::beginGroup`. -/
def beginGroup (s : QSettings) (name : String) : QSettings :=
  { s with groupStack := normalizedKey name :: s.groupStack }

/-- `QSettings::endGroup`; without an open group nothing happens. -/
def endGroup (s : QSettings) : QSettings :=
  { s with groupStack := s.groupStack.tail }

/-- `QSettings::contains`. -/
def contains (s : QSettings) (key : String) : Bool :=
  (s.map.lookup (s.actualKey key)).isSome

/-- `QSettings::value(key, defaultValue)`; an empty key gives an invalid variant. -/
def value (s : QSettings) (key : String) (defaultValue : QVariant) : QVariant :=
  if key = "" then .invalid
  else (s.map.lookup (s.actualKey key)).getD defaultValue

/-- Replaces the value of the first entry of `k`, or adds the entry. -/
def insert (k : String) (v : QVariant) : List (String × QVariant) → List (String × QVariant)
  | [] => [(k, v)]
  | e :: rest => if e.1 = k then (k, v) :: rest else e :: insert k v rest

/-- `QSettings::setValue`; an empty key is refused. -/
def setValue (s : QSettings) (key : String) (v : QVariant) : QSettings :=
  if key = "" then s
  else { s with map := insert (s.actualKey key) v s.map }

/-- Whether full key `k` is `theKey` or one of its sub-keys. -/
def isKeyOrSubKey (theKey k : String) : Bool :=
  k = theKey || (theKey ++ "/").data.isPrefixOf k.data

/-- The entries that are left when `theKey` and its sub-keys are removed. -/
def withoutKey (theKey : String) (m : List (String × QVariant)) : List (String × QVariant) :=
  m.filter (fun e => !isKeyOrSubKey theKey e.1)

/-- `QSettings::remove`: removes the setting `key` and all its sub-settings; with an empty
key, all settings of the current group (all settings, when no group is open). -/
def remove (s : QSettings) (key : String) : QSettings :=
  let n := normalizedKey key
  let theKey := if n = "" then s.group else s.groupPath ++ n
  if theKey = "" then { s with map := [] }
  else { s with map := withoutKey theKey s.map }

/-- `QSettings::allKeys` (no group open): every key once. -/
def allKeys (s : QSettings) : List String := (s.map.map Prod.fst).dedup

/-- `QSettings::clear`: removes all entries of the store the object is opened on. -/
def clear (s : QSettings) : QSettings := { s with map := [] }

end QSettings

/-- The stores on disk other than the one `g` is opened on, by organization and application
name, as `QSettings(organization, application)` opens them. -/
abbrev SettingsFiles := String → String → List (String × QVariant)

/-- The stores after the store of `organization` and `application` got the content `m`. -/
def SettingsFiles.write (files : SettingsFiles) (organization application : String)
    (m : List (String × QVariant)) : SettingsFiles :=
  fun o a => if o = organization ∧ a = application then m else files o a

/-- `QMap<int, QString>::insert`: the map is kept in the order of its keys and a key occurs
once. -/
def QMap.insert (k : Int) (v : String) : List (Int × String) → List (Int × String)
  | [] => [(k, v)]
  | e :: rest =>
    if e.1 = k then (k, v) :: rest
    else if k < e.1 then (k, v) :: e :: rest
    else e :: QMap.insert k v rest

/-- `QString::toInt()` in base 10: 0 when the text is not a number or does not fit `int`. -/
def QString.toInt (s : String) : Int :=
  match toLongLong s.data with
  | some v => if - 2 ^ 31 ≤ v ∧ v < 2 ^ 31 then v else 0
  | none => 0

/-! ## `CompStoreObj`: load / store / clear over the backing store -/

/-- `COMPANY`. -/
def COMPANY : String := "OpenTX"

/-- `PRODUCT`. -/
def PRODUCT : String := "Companion 2.2"

/-- `MAX_PROFILES`. -/
abbrev MAX_PROFILES : Nat := 15

/-- `MAX_JOYSTICKS`. -/
abbrev MAX_JOYSTICKS : Nat := 8

namespace CompStoreObj

/-- `CompStoreObj::clear(key, group)`.  `group` is `none` for a null `QString`. -/
def clear (key : String) (group : Option String) (m_settings : QSettings) : QSettings :=
  let g := group.getD ""
  let s := if g ≠ "" then m_settings.beginGroup g else m_settings
  let s := s.remove key
  if g ≠ "" then s.endGroup else s

/-- `CompStoreObj::pathForKey(key, group)`; `settingsPath` is the result of the virtual
`settingsPath()` of the object, `group` is `none` for a null `QString`. -/
def pathForKey (settingsPath : String) (key : String) (group : Option String) : String :=
  let path := match group with
    | none => settingsPath
    | some g => g
  let path := if path ≠ "" ∧ path.data.getLast? ≠ some '/' then path ++ "/" else path
  path ++ key

/-- `CompStoreObj::store<T>(newValue, key, group)`. -/
def store (settingsPath : String) (t : QMetaType) (newValue : t.T) (key : String)
    (group : Option String) (m_settings : QSettings) : QSettings :=
  m_settings.setValue (pathForKey settingsPath key group) (QVariant.fromValue t newValue)

/-- `CompStoreObj::load<T>(destValue, key, def, group)`: the new content of `destValue`. -/
def load (settingsPath : String) (t : QMetaType) (destValue : t.T) (key : String)
    (dflt : QVariant) (group : Option String) (m_settings : QSettings) : t.T :=
  let val := m_settings.value (pathForKey settingsPath key group) dflt
  if val.canConvert t then val.value t else destValue

/-- `CompStoreObj::getset<T>(value, key, def, group)`: `load`, then `store`. -/
def getset (settingsPath : String) (t : QMetaType) (value : t.T) (key : String)
    (dflt : QVariant) (group : Option String) (m_settings : QSettings) : t.T × QSettings :=
  let v := load settingsPath t value key dflt group m_settings
  (v, store settingsPath t v key group m_settings)

end CompStoreObj

/-! ## The `PROPERTY4` macro -/

namespace PROPERTY4

/-- The setter `void name(const type &val, bool store = true)` generated by `PROPERTY4`:
the new content of `_name` and the settings afterwards. -/
def setter (settingsPath : String) (t : QMetaType) (key : String) (dflt : t.T) (val : t.T)
    (store : Bool) (m_settings : QSettings) : t.T × QSettings :=
  if !store then (val, m_settings)
  else if (QVariant.fromValue t val).eq (QVariant.fromValue t dflt) then
    (val, CompStoreObj.clear key (some settingsPath) m_settings)
  else (val, CompStoreObj.store settingsPath t val key none m_settings)

/-- The member `void name_init()` generated by `PROPERTY4`: the new content of `_name`. -/
def init (settingsPath : String) (t : QMetaType) (key : String) (dflt : t.T) (cur : t.T)
    (m_settings : QSettings) : t.T :=
  CompStoreObj.load settingsPath t cur key (QVariant.fromValue t dflt) none m_settings

end PROPERTY4

/-! ## `class Profile` -/

/-- The properties declared in `class Profile`, in the order of declaration. -/
inductive ProfileField where
  | name | splashFile | fwName | fwType | sdPath | pBackupDir
  | channelOrder | defaultMode | volumeGain
  | renameFwFiles | burnFirmware | penableBackup
  | simulatorOptions
  | beeper | countryCode | display | haptic | speaker | stickPotCalib | timeStamp
  | trainerCalib | controlTypes | controlNames
  | gsStickMode | ppmMultiplier | vBatWarn | vBatMin | vBatMax
  | txCurrentCalibration | txVoltageCalibration
  deriving DecidableEq, Repr

namespace ProfileField

/-- The `type` argument of each property. -/
abbrev type : ProfileField → QMetaType
  | .channelOrder | .defaultMode | .volumeGain => .int
  | .renameFwFiles | .burnFirmware | .penableBackup => .bool
  | .simulatorOptions => .simulatorOptions
  | .gsStickMode | .ppmMultiplier | .vBatWarn | .vBatMin | .vBatMax => .int
  | .txCurrentCalibration | .txVoltageCalibration => .int
  | _ => .qString

/-- The `key` argument of each property. -/
def key : ProfileField → String
  | .name => "Name"
  | .splashFile => "SplashFileName"
  | .fwName => "fwName"
  | .fwType => "fwType"
  | .sdPath => "sdPath"
  | .pBackupDir => "pBackupDir"
  | .channelOrder => "default_channel_order"
  | .defaultMode => "default_mode"
  | .volumeGain => "volumeGain"
  | .renameFwFiles => "rename_firmware_files"
  | .burnFirmware => "burnFirmware"
  | .penableBackup => "penableBackup"
  | .simulatorOptions => "simulatorOptions"
  | .beeper => "Beeper"
  | .countryCode => "countryCode"
  | .display => "Display"
  | .haptic => "Haptic"
  | .speaker => "Speaker"
  | .stickPotCalib => "StickPotCalib"
  | .timeStamp => "TimeStamp"
  | .trainerCalib => "TrainerCalib"
  | .controlTypes => "ControlTypes"
  | .controlNames => "ControlNames"
  | .gsStickMode => "GSStickMode"
  | .ppmMultiplier => "PPM_Multiplier"
  | .vBatWarn => "vBatWarn"
  | .vBatMin => "VbatMin"
  | .vBatMax => "VbatMax"
  | .txCurrentCalibration => "currentCalib"
  | .txVoltageCalibration => "VbatCalib"

/-- The `dflt` argument of each property (`nameDefault()`). -/
def dflt : (f : ProfileField) → f.type.T
  | .name => ""
  | .splashFile => ""
  | .fwName => ""
  | .fwType => ""
  | .sdPath => ""
  | .pBackupDir => ""
  | .channelOrder => (0 : Int)
  | .defaultMode => (1 : Int)
  | .volumeGain => (10 : Int)
  | .renameFwFiles => false
  | .burnFirmware => false
  | .penableBackup => false
  | .simulatorOptions => SimulatorOptions.ctor
  | .beeper => ""
  | .countryCode => ""
  | .display => ""
  | .haptic => ""
  | .speaker => ""
  | .stickPotCalib => ""
  | .timeStamp => ""
  | .trainerCalib => ""
  | .controlTypes => ""
  | .controlNames => ""
  | .gsStickMode => (0 : Int)
  | .ppmMultiplier => (0 : Int)
  | .vBatWarn => (0 : Int)
  | .vBatMin => (0 : Int)
  | .vBatMax => (0 : Int)
  | .txCurrentCalibration => (0 : Int)
  | .txVoltageCalibration => (0 : Int)

end ProfileField

/-- A `Profile` object: its `index` and the member variable `_name` of every property. -/
structure Profile where
  index : Int
  value : (f : ProfileField) → f.type.T

namespace Profile

/-- `Profile::settingsPath()`: `QString("Profiles/profile%1/").arg(index)`. -/
def settingsPath (self : Profile) : String :=
  "Profiles/profile" ++ toString self.index ++ "/"

/-- The getter `name()` of property `f`. -/
def get (self : Profile) (f : ProfileField) : f.type.T := self.value f

/-- The setter `name(val, store)` of property `f`. -/
def set (f : ProfileField) (val : f.type.T) (store : Bool) (self : Profile)
    (m_settings : QSettings) : Profile × QSettings :=
  let r := PROPERTY4.setter self.settingsPath f.type f.key f.dflt val store m_settings
  ({ self with value := Function.update self.value f r.1 }, r.2)

/-- The member `nameReset(store)` of property `f`. -/
def fieldReset (f : ProfileField) (store : Bool) (self : Profile) (m_settings : QSettings) :
    Profile × QSettings :=
  self.set f f.dflt store m_settings

/-- The member `name_init()` of property `f`. -/
def fieldInit (f : ProfileField) (self : Profile) (m_settings : QSettings) : Profile :=
  let v := PROPERTY4.init self.settingsPath f.type f.key f.dflt (self.value f) m_settings
  { self with value := Function.update self.value f v }

/-- The properties copied by `Profile::operator=`, in the order of its statements. -/
def assignOrder : List ProfileField :=
  [.name, .fwName, .fwType, .sdPath, .pBackupDir, .splashFile,
   .channelOrder, .defaultMode, .volumeGain, .burnFirmware, .penableBackup, .renameFwFiles,
   .beeper, .countryCode, .display, .haptic, .speaker, .stickPotCalib, .trainerCalib,
   .controlTypes, .controlNames, .gsStickMode, .ppmMultiplier, .vBatWarn, .vBatMin, .vBatMax,
   .txCurrentCalibration, .txVoltageCalibration,
   .simulatorOptions]

/-- `Profile::operator=(rhs)`: every statement is `name(rhs.name())`. -/
def assign (self rhs : Profile) (m_settings : QSettings) : Profile × QSettings :=
  assignOrder.foldl (fun st f => st.1.set f (rhs.get f) true st.2) (self, m_settings)

/-- The properties initialised by `Profile::init`, in the order of its statements. -/
def initOrder : List ProfileField :=
  [.name, .fwName, .fwType, .sdPath, .pBackupDir, .splashFile,
   .channelOrder, .defaultMode, .volumeGain, .burnFirmware, .penableBackup, .renameFwFiles,
   .simulatorOptions,
   .beeper, .countryCode, .display, .haptic, .speaker, .stickPotCalib, .timeStamp,
   .trainerCalib, .controlTypes, .controlNames, .gsStickMode, .ppmMultiplier, .vBatWarn,
   .vBatMin, .vBatMax, .txCurrentCalibration, .txVoltageCalibration]

/-- `Profile::init(newIndex)`. -/
def init (newIndex : Int) (self : Profile) (m_settings : QSettings) : Profile :=
  initOrder.foldl (fun p f => p.fieldInit f m_settings) { self with index := newIndex }

/-- `Profile::remove()`. -/
def remove (self : Profile) (m_settings : QSettings) : Profile × QSettings :=
  let s := m_settings.remove self.settingsPath
  (self.init self.index s, s)

/-- `Profile::existsOnDisk()`. -/
def existsOnDisk (self : Profile) (m_settings : QSettings) : Bool :=
  m_settings.contains (self.settingsPath ++ "Name")

/-- The properties reset by `Profile::resetFwVariables`, in the order of its statements. -/
def fwVariables : List ProfileField :=
  [.beeper, .countryCode, .display, .haptic, .speaker, .stickPotCalib, .timeStamp,
   .trainerCalib, .controlTypes, .controlNames, .txCurrentCalibration, .gsStickMode,
   .ppmMultiplier, .txVoltageCalibration, .vBatWarn, .vBatMin, .vBatMax]

/-- `Profile::resetFwVariables()`. -/
def resetFwVariables (self : Profile) (m_settings : QSettings) : Profile × QSettings :=
  fwVariables.foldl (fun st f => st.1.fieldReset f true st.2) (self, m_settings)

end Profile

/-! ## `class JStickData` -/

/-- The properties declared in `class JStickData`. -/
inductive JStickField where
  | stick_axe | stick_min | stick_med | stick_max | stick_inv
  deriving DecidableEq, Repr

namespace JStickField

/-- Every property of `JStickData` is an `int`. -/
abbrev type : JStickField → QMetaType := fun _ => .int

/-- The `key` argument: `QString("stick%1_axe").arg(index)` and so on. -/
def key (index : Int) : JStickField → String
  | .stick_axe => "stick" ++ toString index ++ "_axe"
  | .stick_min => "stick" ++ toString index ++ "_min"
  | .stick_med => "stick" ++ toString index ++ "_med"
  | .stick_max => "stick" ++ toString index ++ "_max"
  | .stick_inv => "stick" ++ toString index ++ "_inv"

/-- The `dflt` argument of each property. -/
def dflt : (f : JStickField) → f.type.T
  | .stick_axe => (-1 : Int)
  | .stick_min => (-32767 : Int)
  | .stick_med => (0 : Int)
  | .stick_max => (32767 : Int)
  | .stick_inv => (0 : Int)

end JStickField

/-- A `JStickData` object. -/
structure JStickData where
  index : Int
  value : (f : JStickField) → f.type.T

namespace JStickData

/-- `JStickData::settingsPath()`. -/
def settingsPath (_self : JStickData) : String := "JsCalibration/"

/-- The getter of property `f`. -/
def get (self : JStickData) (f : JStickField) : f.type.T := self.value f

/-- The setter of property `f`. -/
def set (f : JStickField) (val : f.type.T) (store : Bool) (self : JStickData)
    (m_settings : QSettings) : JStickData × QSettings :=
  let r := PROPERTY4.setter self.settingsPath f.type (f.key self.index) f.dflt val store m_settings
  ({ self with value := Function.update self.value f r.1 }, r.2)

/-- The member `nameReset(store)` of property `f`. -/
def fieldReset (f : JStickField) (store : Bool) (self : JStickData) (m_settings : QSettings) :
    JStickData × QSettings :=
  self.set f f.dflt store m_settings

/-- The member `name_init()` of property `f`. -/
def fieldInit (f : JStickField) (self : JStickData) (m_settings : QSettings) : JStickData :=
  let v := PROPERTY4.init self.settingsPath f.type (f.key self.index) f.dflt (self.value f)
    m_settings
  { self with value := Function.update self.value f v }

/-- The order of the statements of `JStickData::init` and `JStickData::reset`. -/
def fieldOrder : List JStickField :=
  [.stick_axe, .stick_min, .stick_med, .stick_max, .stick_inv]

/-- `JStickData::init(newIndex)`. -/
def init (newIndex : Int) (self : JStickData) (m_settings : QSettings) : JStickData :=
  fieldOrder.foldl (fun j f => j.fieldInit f m_settings) { self with index := newIndex }

/-- `JStickData::reset()`. -/
def reset (self : JStickData) (m_settings : QSettings) : JStickData × QSettings :=
  fieldOrder.foldl (fun st f => st.1.fieldReset f true st.2) (self, m_settings)

/-- `JStickData::existsOnDisk()`. -/
def existsOnDisk (self : JStickData) (m_settings : QSettings) : Bool :=
  decide ((m_settings.value (self.settingsPath ++ ("stick" ++ toString self.index ++ "_axe"))
    (.int (-1))).toInt > -1)

end JStickData

/-! ## `class AppData` -/

/-- Values that `appdata.h` takes from outside the sources: `BRANCH_RELEASE_STABLE` of
`constants.h`, and the documents folder reported by `QStandardPaths::writableLocation`. -/
structure BuildEnv where
  BRANCH_RELEASE_STABLE : Nat
  documentsLocation : String

/-- The properties declared in `class AppData`, in the order of declaration. -/
inductive AppField where
  | recentFiles | mainWinGeo | mainWinState | modelEditGeo | mdiWinGeo | mdiWinState
  | compareWinGeo | armMcu | avrArguments | avrPort | avrdudeLocation | dfuArguments
  | dfuLocation | sambaLocation | sambaPort | backupDir | eepromDir | flashDir | imagesDir
  | logDir | libDir | snapshotDir | updatesDir | locale | gePath | mcu | programmer
  | appLogsDir | OpenTxBranch | newModelAction | embedSplashes | fwServerFails | iconSize
  | jsCtrl | historySize | generalEditTab | theme | warningId | jsSupport | showSplash
  | snapToClpbrd | autoCheckApp | autoCheckFw | enableBackup | backupOnFlash
  | outputDisplayDetails | checkHardwareCompatibility | removeModelSlots | maximized
  | tabbedMdi | appDebugLog | fwTraceLog | simuDbgFilters | backLight | simuLastProfId
  | simuSW
  deriving DecidableEq, Repr

namespace AppField

/-- The `type` argument of each property. -/
abbrev type : AppField → QMetaType
  | .recentFiles => .qStringList
  | .mainWinGeo => .qByteArray
  | .mainWinState => .qByteArray
  | .modelEditGeo => .qByteArray
  | .mdiWinGeo => .qByteArray
  | .mdiWinState => .qByteArray
  | .compareWinGeo => .qByteArray
  | .armMcu => .qString
  | .avrArguments => .qString
  | .avrPort => .qString
  | .avrdudeLocation => .qString
  | .dfuArguments => .qString
  | .dfuLocation => .qString
  | .sambaLocation => .qString
  | .sambaPort => .qString
  | .backupDir => .qString
  | .eepromDir => .qString
  | .flashDir => .qString
  | .imagesDir => .qString
  | .logDir => .qString
  | .libDir => .qString
  | .snapshotDir => .qString
  | .updatesDir => .qString
  | .locale => .qString
  | .gePath => .qString
  | .mcu => .qString
  | .programmer => .qString
  | .appLogsDir => .qString
  | .OpenTxBranch => .uint
  | .newModelAction => .uint
  | .embedSplashes => .int
  | .fwServerFails => .int
  | .iconSize => .int
  | .jsCtrl => .int
  | .historySize => .int
  | .generalEditTab => .int
  | .theme => .int
  | .warningId => .int
  | .jsSupport => .bool
  | .showSplash => .bool
  | .snapToClpbrd => .bool
  | .autoCheckApp => .bool
  | .autoCheckFw => .bool
  | .enableBackup => .bool
  | .backupOnFlash => .bool
  | .outputDisplayDetails => .bool
  | .checkHardwareCompatibility => .bool
  | .removeModelSlots => .bool
  | .maximized => .bool
  | .tabbedMdi => .bool
  | .appDebugLog => .bool
  | .fwTraceLog => .bool
  | .simuDbgFilters => .qStringList
  | .backLight => .int
  | .simuLastProfId => .int
  | .simuSW => .bool

/-- The `key` argument of each property. -/
def key : AppField → String
  | .recentFiles => "recentFileList"
  | .mainWinGeo => "mainWindowGeometry"
  | .mainWinState => "mainWindowState"
  | .modelEditGeo => "modelEditGeometry"
  | .mdiWinGeo => "mdiWinGeo"
  | .mdiWinState => "mdiWinState"
  | .compareWinGeo => "compareWinGeo"
  | .armMcu => "arm_mcu"
  | .avrArguments => "avr_arguments"
  | .avrPort => "avr_port"
  | .avrdudeLocation => "avrdudeLocation"
  | .dfuArguments => "dfu_arguments"
  | .dfuLocation => "dfu_location"
  | .sambaLocation => "samba_location"
  | .sambaPort => "samba_port"
  | .backupDir => "backupPath"
  | .eepromDir => "lastDir"
  | .flashDir => "lastFlashDir"
  | .imagesDir => "lastImagesDir"
  | .logDir => "lastLogDir"
  | .libDir => "libraryPath"
  | .snapshotDir => "snapshotpath"
  | .updatesDir => "lastUpdatesDir"
  | .locale => "locale"
  | .gePath => "gePath"
  | .mcu => "mcu"
  | .programmer => "programmer"
  | .appLogsDir => "appLogsDir"
  | .OpenTxBranch => "OpenTxBranch"
  | .newModelAction => "newModelAction"
  | .embedSplashes => "embedded_splashes"
  | .fwServerFails => "fwserver"
  | .iconSize => "icon_size"
  | .jsCtrl => "js_ctrl"
  | .historySize => "history_size"
  | .generalEditTab => "generalEditTab"
  | .theme => "theme"
  | .warningId => "warningId"
  | .jsSupport => "js_support"
  | .showSplash => "show_splash"
  | .snapToClpbrd => "snapshot_to_clipboard"
  | .autoCheckApp => "startup_check_companion"
  | .autoCheckFw => "startup_check_fw"
  | .enableBackup => "enableBackup"
  | .backupOnFlash => "backupOnFlash"
  | .outputDisplayDetails => "outputDisplayDetails"
  | .checkHardwareCompatibility => "checkHardwareCompatibility"
  | .removeModelSlots => "removeModelSlots"
  | .maximized => "maximized"
  | .tabbedMdi => "tabbedMdi"
  | .appDebugLog => "appDebugLog"
  | .fwTraceLog => "fwTraceLog"
  | .simuDbgFilters => "simuDbgFilters"
  | .backLight => "backLight"
  | .simuLastProfId => "simuLastProfId"
  | .simuSW => "simuSW"

/-- The `dflt` argument of each property (`nameDefault()`). -/
def dflt (env : BuildEnv) : (f : AppField) → f.type.T
  | .recentFiles => ([] : List String)
  | .mainWinGeo => ([] : List Char)
  | .mainWinState => ([] : List Char)
  | .modelEditGeo => ([] : List Char)
  | .mdiWinGeo => ([] : List Char)
  | .mdiWinState => ([] : List Char)
  | .compareWinGeo => ([] : List Char)
  | .armMcu => "at91sam3s4-9x"
  | .avrArguments => ""
  | .avrPort => ""
  | .avrdudeLocation => ""
  | .dfuArguments => "-a 0"
  | .dfuLocation => ""
  | .sambaLocation => ""
  | .sambaPort => "\\USBserial\\COM23"
  | .backupDir => ""
  | .eepromDir => ""
  | .flashDir => ""
  | .imagesDir => ""
  | .logDir => ""
  | .libDir => ""
  | .snapshotDir => ""
  | .updatesDir => ""
  | .locale => ""
  | .gePath => ""
  | .mcu => "m64"
  | .programmer => "usbasp"
  | .appLogsDir => env.documentsLocation ++ "/" ++ COMPANY ++ "/DebugLogs"
  | .OpenTxBranch => env.BRANCH_RELEASE_STABLE
  | .newModelAction => (1 : Nat)
  | .embedSplashes => (0 : Int)
  | .fwServerFails => (0 : Int)
  | .iconSize => (2 : Int)
  | .jsCtrl => (0 : Int)
  | .historySize => (10 : Int)
  | .generalEditTab => (0 : Int)
  | .theme => (1 : Int)
  | .warningId => (0 : Int)
  | .jsSupport => false
  | .showSplash => true
  | .snapToClpbrd => false
  | .autoCheckApp => true
  | .autoCheckFw => true
  | .enableBackup => false
  | .backupOnFlash => true
  | .outputDisplayDetails => false
  | .checkHardwareCompatibility => true
  | .removeModelSlots => true
  | .maximized => false
  | .tabbedMdi => false
  | .appDebugLog => false
  | .fwTraceLog => false
  | .simuDbgFilters => ([] : List String)
  | .backLight => (0 : Int)
  | .simuLastProfId => (-1 : Int)
  | .simuSW => true

end AppField

/-- The `AppData` object `g`: its settings object, the profile and joystick arrays, the
member variable of every property, and the remaining member variables. -/
structure AppData where
  m_settings : QSettings
  profile : Fin MAX_PROFILES → Profile
  joystick : Fin MAX_JOYSTICKS → JStickData
  value : (f : AppField) → f.type.T
  m_profileId : Int
  m_sessionId : Int
  firstUse : Bool
  upgradeFromVersion : String

namespace AppData

/-- `AppData` does not reimplement `settingsPath()`: the null string of `CompStoreObj`. -/
def settingsPath (_self : AppData) : String := ""

/-- `AppData::settingsVersionKey`. -/
def settingsVersionKey : String := "settings_version"

/-- The getter of property `f`. -/
def get (self : AppData) (f : AppField) : f.type.T := self.value f

/-- The setter `name(val, store)` of property `f`. -/
def set (env : BuildEnv) (f : AppField) (val : f.type.T) (store : Bool) (self : AppData) :
    AppData :=
  let r := PROPERTY4.setter self.settingsPath f.type f.key (f.dflt env) val store self.m_settings
  { self with value := Function.update self.value f r.1, m_settings := r.2 }

/-- The member `nameReset(store)` of property `f`. -/
def fieldReset (env : BuildEnv) (f : AppField) (store : Bool) (self : AppData) : AppData :=
  self.set env f (f.dflt env) store

/-- The getter `AppData::sessionId()`. -/
def sessionId (self : AppData) : Int := self.m_sessionId

/-- The setter `AppData::sessionId(int x)`. -/
def sessionIdSet (x : Int) (self : AppData) : AppData :=
  if x > -1 ∧ x < MAX_PROFILES then { self with m_sessionId := x } else self

/-- The getter `AppData::id()`. -/
def id (self : AppData) : Int := self.m_profileId

/-- The setter `AppData::id(int index)`. -/
def idSet (index : Int) (self : AppData) : AppData :=
  if index < 0 ∨ index ≥ MAX_PROFILES then self
  else
    let a := { self with m_profileId := index }
    let a := a.sessionIdSet a.m_profileId
    { a with m_settings :=
        CompStoreObj.store a.settingsPath .int a.m_profileId "profileId" none a.m_settings }

/-- `AppData::deprecatedSettings()`. -/
def deprecatedSettings : List String :=
  ["avrdude_location", "last_simulator",
   "companionBranch", "useCompanionNightlyBuilds", "useFirmwareNightlyBuilds"]

/-- First statement of `AppData::convertSettings`: the old flag "useWizard" becomes
"newModelAction" unless that key exists, and is removed. -/
def convertUseWizard (env : BuildEnv) (self : AppData) : AppData :=
  if self.m_settings.contains "useWizard" then
    let a :=
      if !self.m_settings.contains "newModelAction" then
        self.set env .newModelAction
          (if (self.m_settings.value "useWizard" .invalid).toBool then (1 : Nat) else 2) true
      else self
    { a with m_settings := a.m_settings.remove "useWizard" }
  else self

/-- Second statement of `AppData::convertSettings`: a stored "warningId" of 7 is reset. -/
def convertWarningId (env : BuildEnv) (self : AppData) : AppData :=
  if self.m_settings.contains "warningId"
      ∧ (self.m_settings.value "warningId" .invalid).toInt = 7 then
    self.fieldReset env .warningId true
  else self

/-- The loop of `AppData::convertSettings` over `deprecatedSettings()`. -/
def removeDeprecated (self : AppData) : AppData :=
  deprecatedSettings.foldl (fun b key => { b with m_settings := b.m_settings.remove key }) self

/-- `AppData::convertSettings(settings)`, for `settings` being `m_settings` as in the call
made by `AppData::init` (every settings object of the application is opened on the same
store): its three statements in order. -/
def convertSettings (env : BuildEnv) (self : AppData) : AppData :=
  removeDeprecated (convertWarningId env (convertUseWizard env self))

/-- The statement `g.profile[i] = g.profile[j]`. -/
def profileAssign (i j : Fin MAX_PROFILES) (self : AppData) : AppData :=
  let r := (self.profile i).assign (self.profile j) self.m_settings
  { self with profile := Function.update self.profile i r.1, m_settings := r.2 }

/-- The statement `g.profile[i].name(val, store)` for property `f`. -/
def profileSet (i : Fin MAX_PROFILES) (f : ProfileField) (val : f.type.T) (store : Bool)
    (self : AppData) : AppData :=
  let r := (self.profile i).set f val store self.m_settings
  { self with profile := Function.update self.profile i r.1, m_settings := r.2 }

/-- The member `name_init()` of property `f`. -/
def fieldInit (env : BuildEnv) (f : AppField) (self : AppData) : AppData :=
  let v := PROPERTY4.init self.settingsPath f.type f.key (f.dflt env) (self.value f)
    self.m_settings
  { self with value := Function.update self.value f v }

/-- The properties initialised by `AppData::init`, in the order of its statements. -/
def initOrder : List AppField :=
  [.recentFiles, .simuDbgFilters, .mainWinGeo, .mainWinState, .modelEditGeo, .mdiWinGeo,
   .mdiWinState, .compareWinGeo,
   .armMcu, .avrArguments, .avrPort, .avrdudeLocation, .dfuArguments, .dfuLocation, .locale,
   .mcu, .programmer, .sambaLocation, .sambaPort,
   .backupDir, .gePath, .eepromDir, .flashDir, .imagesDir, .logDir, .libDir, .snapshotDir,
   .updatesDir, .appLogsDir,
   .OpenTxBranch, .newModelAction, .backLight, .embedSplashes, .fwServerFails,
   .generalEditTab, .iconSize, .jsCtrl, .historySize, .theme, .warningId, .simuLastProfId,
   .enableBackup, .backupOnFlash, .outputDisplayDetails, .checkHardwareCompatibility,
   .removeModelSlots, .maximized, .simuSW, .tabbedMdi, .appDebugLog, .fwTraceLog, .jsSupport,
   .showSplash, .snapToClpbrd, .autoCheckApp, .autoCheckFw]

/-- `AppData::hasCurrentSettings()`. -/
def hasCurrentSettings (self : AppData) : Bool := self.m_settings.contains settingsVersionKey

/-- `AppData::isFirstUse()`. -/
def isFirstUse (self : AppData) : Bool := self.firstUse

/-- `AppData::previousVersion()`. -/
def previousVersion (self : AppData) : String := self.upgradeFromVersion

/-- The loop `for (int i=0; i<MAX_PROFILES; i++) profile[i].init( i );`. -/
def initProfiles (self : AppData) : AppData :=
  (List.finRange MAX_PROFILES).foldl
    (fun a i =>
      let p := (a.profile i).init ((i.val : Nat) : Int) a.m_settings
      { a with profile := Function.update a.profile i p })
    self

/-- The loop `for (int i=0; i<MAX_JOYSTICKS; i++) joystick[i].init( i );`. -/
def initJoysticks (self : AppData) : AppData :=
  (List.finRange MAX_JOYSTICKS).foldl
    (fun a i =>
      let j := (a.joystick i).init ((i.val : Nat) : Int) a.m_settings
      { a with joystick := Function.update a.joystick i j })
    self

/-- The statements `QString _tempString; getset(_tempString, settingsVersionKey, "220");` of
`AppData::init`. -/
def initVersion (self : AppData) : AppData :=
  let r := CompStoreObj.getset self.settingsPath .qString "" settingsVersionKey
    (QVariant.qString "220") none self.m_settings
  { self with m_settings := r.2 }

/-- The statements `load(m_profileId, "profileId", 0); sessionId(id());` of `AppData::init`. -/
def initProfileId (self : AppData) : AppData :=
  let v := CompStoreObj.load self.settingsPath .int self.m_profileId "profileId" (QVariant.int 0)
    none self.m_settings
  let a := { self with m_profileId := v }
  a.sessionIdSet a.id

/-- `AppData::init()`: its statements in order. -/
def init (env : BuildEnv) (self : AppData) : AppData :=
  let a := { self with firstUse := !self.hasCurrentSettings }
  let a := a.convertSettings env
  let a := a.initProfiles
  let a := a.initJoysticks
  let a := a.initVersion
  let a := a.initProfileId
  initOrder.foldl (fun b f => b.fieldInit env f) a

/-- `AppData::getActiveProfiles()`; the object `g` it reads is the object itself. -/
def getActiveProfiles (self : AppData) : List (Int × String) :=
  (List.finRange MAX_PROFILES).foldl
    (fun active i =>
      if (self.profile i).existsOnDisk self.m_settings then
        QMap.insert ((i.val : Nat) : Int) ((self.profile i).get .name) active
      else active)
    []

/-- `AppData::findPreviousVersionSettings(version)`: the result, the text left in `*version`
and the stores afterwards.  `fromSettings` holds the name of the variable it points to. -/
def findPreviousVersionSettings (_self : AppData) (files : SettingsFiles) :
    Bool × String × SettingsFiles :=
  let st0 : Option String × String × SettingsFiles := (none, "", files)
  let settings21 := QSettings.ofStore (st0.2.2 "OpenTX" "Companion 2.1")
  let st1 : Option String × String × SettingsFiles :=
    if settings21.contains settingsVersionKey then (some "settings21", "2.1", st0.2.2)
    else (st0.1, st0.2.1, st0.2.2.write "OpenTX" "Companion 2.1" settings21.clear.map)
  let settings20 := QSettings.ofStore (st1.2.2 "OpenTX" "Companion 2.0")
  let st2 : Option String × String × SettingsFiles :=
    if settings20.contains settingsVersionKey then
      if st1.1 = none then (some "settings20", "2.0", st1.2.2) else st1
    else (st1.1, st1.2.1, st1.2.2.write "OpenTX" "Companion 2.0" settings20.clear.map)
  let settings16 := QSettings.ofStore (st2.2.2 "OpenTX" "OpenTX Companion")
  let st3 : Option String × String × SettingsFiles :=
    if settings16.contains settingsVersionKey then
      if st2.1 = none then (some "settings16", "1.x", st2.2.2) else st2
    else (st2.1, st2.2.1, st2.2.2.write "OpenTX" "OpenTX Companion" settings16.clear.map)
  if st3.1 = none then (false, st3.2.1, st3.2.2) else (true, st3.2.1, st3.2.2)

/-- The list `excludeKeys` of `AppData::importSettings`; `WIN32` tells whether the macro of
that name is defined. -/
def excludeKeys (WIN32 : Bool) : List String :=
  let l := deprecatedSettings ++ ["compilation-server"]
  if WIN32 then
    l ++ ["avrdude_location", "avrdudeLocation", "dfu_location"] ++ ["Start Menu Folder", "."]
  else l

/-- The organization and application of the store a version label stands for in
`AppData::importSettings`, if it is a known label. -/
def importSource (fromVersion : String) : Option (String × String) :=
  if fromVersion = "2.1" then some ("OpenTX", "Companion 2.1")
  else if fromVersion = "2.0" then some ("OpenTX", "Companion 2.0")
  else if fromVersion = "1.x" then some ("OpenTX", "OpenTX Companion")
  else none

/-- `AppData::importSettings(fromVersion)`: the result and the object afterwards. -/
def importSettings (WIN32 : Bool) (fromVersion : String) (files : SettingsFiles)
    (self : AppData) : Bool × AppData :=
  let a := { self with upgradeFromVersion := "" }
  match importSource fromVersion with
  | none => (false, a)
  | some (fromCompany, fromProduct) =>
    let a := { a with upgradeFromVersion := fromVersion }
    let fromSettings := QSettings.ofStore (files fromCompany fromProduct)
    let s := fromSettings.allKeys.foldl
      (fun s key =>
        if (fromSettings.value key .invalid).isValid ∧ key ∉ excludeKeys WIN32 then
          s.setValue key (fromSettings.value key .invalid)
        else s)
      a.m_settings
    (true, { a with m_settings := s })

end AppData

/-! ## `class FwRevision` -/

namespace FwRevision

/-- `FwRevision::settingsPath()`. -/
def settingsPath : String := "FwRevisions/"

/-- `FwRevision::get(fwType)`. -/
def get (fwType : String) (m_settings : QSettings) : Int :=
  let result := CompStoreObj.load settingsPath .qString "" fwType (QVariant.qString "") none
    m_settings
  QString.toInt result

/-- `FwRevision::set(fwType, fwRevision)`: the call is
`store( tempString, tempString, fwType )`. -/
def set (fwType : String) (fwRevision : Int) (m_settings : QSettings) : QSettings :=
  let tempString := toString fwRevision
  CompStoreObj.store settingsPath .qString tempString tempString (some fwType) m_settings

/-- `FwRevision::remove(tag)`. -/
def remove (tag : String) (m_settings : QSettings) : QSettings :=
  CompStoreObj.clear tag (some settingsPath) m_settings

end FwRevision

/-! ## `AppData::getProfile`, `AppData::currentProfile` and sequences of calls -/

/-- `AppData::getProfile(index)`: `profile[index]` for a valid index, `profile[0]` otherwise. -/
def AppData.getProfile (index : Int) (self : AppData) : Profile :=
  if h : index > -1 ∧ index < MAX_PROFILES then
    self.profile ⟨index.toNat, by have := h.1; have := h.2; omega⟩
  else self.profile 0

/-- `AppData::currentProfile()`. -/
def AppData.currentProfile (self : AppData) : Profile := self.getProfile self.m_sessionId

/-- A call made on the object `g`: `init()`, `id(x)`, `sessionId(x)`, `importSettings` (with
the stores found on disk at that moment), the setter of a property of `AppData`, or the
setter of a property of one of its profiles. -/
inductive AppCall where
  | init
  | id (x : Int)
  | sessionId (x : Int)
  | importSettings (WIN32 : Bool) (fromVersion : String) (files : SettingsFiles)
  | set (f : AppField) (val : f.type.T) (store : Bool)
  | profileSet (i : Fin MAX_PROFILES) (f : ProfileField) (val : f.type.T) (store : Bool)

/-- The object after a call. -/
def AppCall.run (env : BuildEnv) : AppCall → AppData → AppData
  | .init, g => g.init env
  | .id x, g => g.idSet x
  | .sessionId x, g => g.sessionIdSet x
  | .importSettings w v files, g => (g.importSettings w v files).2
  | .set f val store, g => g.set env f val store
  | .profileSet i f val store, g => g.profileSet i f val store

/-- The object after a sequence of calls, first call first. -/
def AppCall.runAll (env : BuildEnv) (calls : List AppCall) (g : AppData) : AppData :=
  calls.foldl (fun a c => c.run env a) g

/-! ## Sequences of setter calls on one object -/

/-- The calls `name(val)` of `ops`, made in order on one `Profile` with `store = true`. -/
def Profile.setters (ops : List (Σ f : ProfileField, f.type.T)) (self : Profile)
    (m_settings : QSettings) : Profile × QSettings :=
  ops.foldl (fun st o => st.1.set o.1 o.2 true st.2) (self, m_settings)

/-- The calls `name(val)` of `ops`, made in order on one `JStickData` with `store = true`. -/
def JStickData.setters (ops : List (Σ f : JStickField, f.type.T)) (self : JStickData)
    (m_settings : QSettings) : JStickData × QSettings :=
  ops.foldl (fun st o => st.1.set o.1 o.2 true st.2) (self, m_settings)

/-! ## The objects as constructed -/

/-- Content of a member variable before its `name_init()` ran: the object `g` has static
storage, which is zero-initialised, and class-type members are default-constructed. -/
def QMetaType.zero : (t : QMetaType) → t.T
  | .bool => false
  | .int => (0 : Int)
  | .uint => (0 : Nat)
  | .qString => ""
  | .qStringList => []
  | .qByteArray => []
  | .simulatorOptions => SimulatorOptions.ctor

/-- The constructor `Profile()`: `index(-1)`. -/
def Profile.ctor : Profile := ⟨-1, fun f => f.type.zero⟩

/-- The constructor `JStickData()`: `index(-1)`. -/
def JStickData.ctor : JStickData := ⟨-1, fun f => f.type.zero⟩

/-- The constructor `AppData()`: `m_profileId(0)`, `m_sessionId(0)`, on a store with
content `m`. -/
def AppData.ctor (m : List (String × QVariant)) : AppData :=
  { m_settings := QSettings.ofStore m
    profile := fun _ => Profile.ctor
    joystick := fun _ => JStickData.ctor
    value := fun f => f.type.zero
    m_profileId := 0
    m_sessionId := 0
    firstUse := false
    upgradeFromVersion := "" }

/-! ## Shape of the settings paths and keys used by the three classes -/

/-- Sections of a normalised key: none is empty, none contains '/'. -/
def NormalSections (ss : List (List Char)) : Prop := ∀ s ∈ ss, s ≠ [] ∧ '/' ∉ s

/-- A settings path as the classes return it from `settingsPath()`: empty, or a normalised
group name followed by one '/'. -/
def IsGroupPath (P : String) : Prop :=
  P = "" ∨ ∃ ss, ss ≠ [] ∧ NormalSections ss ∧ P.data = joinSections ss ++ ['/']

/-- A key of one section: not empty and without '/'. -/
def IsPlainKey (K : String) : Prop := K.data ≠ [] ∧ '/' ∉ K.data

/-- The content of the store `fromSettings` that `AppData::importSettings` reads for a version
label; nothing for a label it does not know. -/
def AppData.importedStore (fromVersion : String) (files : SettingsFiles) :
    List (String × QVariant) :=
  match AppData.importSource fromVersion with
  | some (fromCompany, fromProduct) => files fromCompany fromProduct
  | none => []

/-- A key as a store holds it: not empty and normalised. -/
def IsStoredKey (k : String) : Prop := k ≠ "" ∧ normalizedKey k = k

instance IsStoredKey.decidable (k : String) : Decidable (IsStoredKey k) :=
  inferInstanceAs (Decidable (k ≠ "" ∧ normalizedKey k = k))

/-! # Theorems -/

/-! ## Decimal numbers contain no '/' -/

theorem digitChar_mod_ten_ne_slash (n : Nat) : Nat.digitChar (n % 10) ≠ '/' := by
  have h : ∀ m, m < 10 → Nat.digitChar m ≠ '/' := by decide
  exact h _ (Nat.mod_lt _ (by decide))

theorem toDigitsCore_noSlash : ∀ (fuel n : Nat) (acc : List Char), '/' ∉ acc →
    '/' ∉ Nat.toDigitsCore 10 fuel n acc := by
  intro fuel
  induction fuel with
  | zero => intro n acc h; simpa [Nat.toDigitsCore] using h
  | succ k ih =>
    intro n acc h
    have hd : '/' ∉ Nat.digitChar (n % 10) :: acc := by
      intro hm
      rcases List.mem_cons.mp hm with h1 | h1
      · exact digitChar_mod_ten_ne_slash _ h1.symm
      · exact h h1
    unfold Nat.toDigitsCore
    dsimp only
    split_ifs
    · exact hd
    · exact ih _ _ hd

theorem nat_toString_noSlash (n : Nat) : '/' ∉ (toString n).data := by
  show '/' ∉ (Nat.repr n).data
  unfold Nat.repr Nat.toDigits
  simp only [List.asString]
  exact toDigitsCore_noSlash _ _ _ (by simp)

theorem int_toString_noSlash (i : Int) : '/' ∉ (toString i).data := by
  cases i with
  | ofNat m => exact nat_toString_noSlash m
  | negSucc m =>
    show '/' ∉ ("-" ++ toString (Nat.succ m)).data
    rw [String.data_append]
    intro h
    rcases List.mem_append.mp h with h1 | h1
    · revert h1; decide
    · exact nat_toString_noSlash _ h1

/-! ## Key normalisation -/

theorem keySections_noSlash (a : List Char) : ∀ cur : List Char, '/' ∉ a →
    keySections a cur = if cur.reverse ++ a = [] then [] else [cur.reverse ++ a] := by
  induction a with
  | nil => intro cur _; simp [keySections]
  | cons c cs ih =>
    intro cur h
    have hc : c ≠ '/' := fun e => h (by simp [e])
    have hcs : '/' ∉ cs := fun e => h (List.mem_cons_of_mem _ e)
    rw [keySections, if_neg hc, ih _ hcs]
    simp

theorem keySections_append_slash (a b : List Char) : ∀ cur : List Char,
    keySections (a ++ '/' :: b) cur = keySections a cur ++ keySections b [] := by
  induction a with
  | nil =>
    intro cur
    by_cases hcur : cur = [] <;> simp [keySections, hcur]
  | cons c cs ih =>
    intro cur
    by_cases hc : c = '/'
    · by_cases hcur : cur = [] <;> simp [keySections, hc, hcur, ih]
    · simp [keySections, hc, ih]

theorem joinSections_cons (s : List Char) (ss : List (List Char)) (h : ss ≠ []) :
    joinSections (s :: ss) = s ++ '/' :: joinSections ss := by
  cases ss with
  | nil => exact absurd rfl h
  | cons t rest => rfl

theorem joinSections_snoc (ss : List (List Char)) (k : List Char) (h : ss ≠ []) :
    joinSections (ss ++ [k]) = joinSections ss ++ '/' :: k := by
  induction ss with
  | nil => exact absurd rfl h
  | cons s rest ih =>
    cases rest with
    | nil => rfl
    | cons t rest2 =>
      have h2 : (t :: rest2) ≠ [] := by simp
      rw [List.cons_append, joinSections_cons _ _ (by simp), ih h2, joinSections_cons _ _ h2]
      simp

theorem joinSections_ne_nil (ss : List (List Char)) (h : ss ≠ []) (hn : NormalSections ss) :
    joinSections ss ≠ [] := by
  cases ss with
  | nil => exact absurd rfl h
  | cons s rest =>
    have hs := (hn s (by simp)).1
    cases rest with
    | nil => simpa [joinSections] using hs
    | cons t r => simp [joinSections, hs]

theorem keySections_joinSections (ss : List (List Char)) (hn : NormalSections ss) :
    keySections (joinSections ss) [] = ss := by
  induction ss with
  | nil => rfl
  | cons s rest ih =>
    have hs := hn s (by simp)
    have hrest : NormalSections rest := fun x hx => hn x (List.mem_cons_of_mem _ hx)
    cases rest with
    | nil =>
      rw [joinSections, keySections_noSlash _ _ hs.2]
      simp [hs.1]
    | cons t r =>
      rw [joinSections, keySections_append_slash, keySections_noSlash _ _ hs.2, ih hrest]
      simp [hs.1]

theorem normalizedKey_of_sections (K : String) (ss : List (List Char)) (hn : NormalSections ss)
    (hK : K.data = joinSections ss) : normalizedKey K = K := by
  unfold normalizedKey
  rw [hK, keySections_joinSections ss hn, ← hK]

theorem normalizedKey_plain (K : String) (h : IsPlainKey K) : normalizedKey K = K := by
  apply normalizedKey_of_sections K [K.data]
  · intro s hs
    simp only [List.mem_singleton] at hs
    subst hs
    exact h
  · rfl

/-! ## The key/value list -/

theorem lookup_insert_self (k : String) (v : QVariant) (m : List (String × QVariant)) :
    (QSettings.insert k v m).lookup k = some v := by
  induction m with
  | nil => simp [QSettings.insert, List.lookup]
  | cons e rest ih =>
    obtain ⟨ek, ev⟩ := e
    by_cases h : ek = k
    · simp [QSettings.insert, h, List.lookup]
    · have h2 : (k == ek) = false := by simpa using fun e => h e.symm
      simp [QSettings.insert, h, List.lookup, h2, ih]

theorem lookup_insert_ne (k k2 : String) (v : QVariant) (m : List (String × QVariant))
    (hne : k2 ≠ k) : (QSettings.insert k v m).lookup k2 = m.lookup k2 := by
  induction m with
  | nil =>
    have h2 : (k2 == k) = false := by simpa using hne
    simp [QSettings.insert, List.lookup, h2]
  | cons e rest ih =>
    obtain ⟨ek, ev⟩ := e
    by_cases h : ek = k
    · subst h
      have h2 : (k2 == ek) = false := by simpa using hne
      simp [QSettings.insert, List.lookup, h2]
    · by_cases h3 : k2 = ek
      · subst h3
        simp [QSettings.insert, h, List.lookup]
      · have h2 : (k2 == ek) = false := by simpa using h3
        simp [QSettings.insert, h, List.lookup, h2, ih]

theorem lookup_filter_key (keep : String → Bool) (k : String) (m : List (String × QVariant)) :
    (m.filter (fun e => keep e.1)).lookup k = if keep k then m.lookup k else none := by
  induction m with
  | nil => simp [List.lookup]
  | cons e rest ih =>
    obtain ⟨ek, ev⟩ := e
    by_cases hk : keep ek
    · by_cases h3 : k = ek
      · subst h3
        simp [List.filter, hk, List.lookup]
      · have h2 : (k == ek) = false := by simpa using h3
        simp [List.filter, hk, List.lookup, h2, ih]
    · by_cases h3 : k = ek
      · subst h3
        simp [List.filter, hk, ih]
      · have h2 : (k == ek) = false := by simpa using h3
        simp [List.filter, hk, List.lookup, h2, ih]

/-! ## `CompStoreObj` on a settings object without open group -/

theorem string_ne_empty_of_data {K : String} (h : K.data ≠ []) : K ≠ "" := by
  intro e
  rw [e] at h
  exact h rfl

theorem group_ofStore (m : List (String × QVariant)) : (QSettings.ofStore m).group = "" := rfl

theorem groupPath_ofStore (m : List (String × QVariant)) :
    (QSettings.ofStore m).groupPath = "" := rfl

theorem actualKey_ofStore (m : List (String × QVariant)) (K : String) :
    (QSettings.ofStore m).actualKey K = normalizedKey K := by
  unfold QSettings.actualKey
  rw [groupPath_ofStore]
  apply String.ext
  simp

theorem groupPath_normalized (P : String) (h : IsGroupPath P) (hP : P ≠ "") :
    normalizedKey P ≠ "" ∧ normalizedKey P ++ "/" = P := by
  rcases h with h | ⟨ss, hss, hn, hd⟩
  · exact absurd h hP
  · have hk : normalizedKey P = String.mk (joinSections ss) := by
      unfold normalizedKey
      rw [hd]
      have : joinSections ss ++ ['/'] = joinSections ss ++ '/' :: [] := rfl
      rw [this, keySections_append_slash, keySections_joinSections ss hn]
      simp [keySections]
    rw [hk]
    constructor
    · exact string_ne_empty_of_data (joinSections_ne_nil ss hss hn)
    · apply String.ext
      rw [String.data_append, hd]

theorem path_append_key_normalized (P K : String) (hP : IsGroupPath P) (hK : IsPlainKey K) :
    normalizedKey (P ++ K) = P ++ K := by
  rcases hP with h | ⟨ss, hss, hn, hd⟩
  · subst h
    have : ("" : String) ++ K = K := by apply String.ext; simp
    rw [this]
    exact normalizedKey_plain K hK
  · apply normalizedKey_of_sections (P ++ K) (ss ++ [K.data])
    · intro s hs
      rcases List.mem_append.mp hs with h1 | h1
      · exact hn s h1
      · simp only [List.mem_singleton] at h1
        subst h1
        exact hK
    · rw [String.data_append, hd, joinSections_snoc ss _ hss]
      simp

theorem path_append_key_ne_empty (P K : String) (hK : IsPlainKey K) : P ++ K ≠ "" := by
  apply string_ne_empty_of_data
  rw [String.data_append]
  simp [hK.1]

theorem pathForKey_none (P K : String) (hP : IsGroupPath P) :
    CompStoreObj.pathForKey P K none = P ++ K := by
  unfold CompStoreObj.pathForKey
  rcases hP with h | ⟨ss, _, _, hd⟩
  · subst h
    simp
  · have : P.data.getLast? = some '/' := by rw [hd]; simp
    simp [this]

/-- `store` with the default group writes the value under `settingsPath() + key`. -/
theorem store_ofStore (P K : String) (hP : IsGroupPath P) (hK : IsPlainKey K) (t : QMetaType)
    (v : t.T) (m : List (String × QVariant)) :
    CompStoreObj.store P t v K none (QSettings.ofStore m)
      = QSettings.ofStore (QSettings.insert (P ++ K) (QVariant.fromValue t v) m) := by
  unfold CompStoreObj.store QSettings.setValue
  rw [pathForKey_none P K hP, if_neg (path_append_key_ne_empty P K hK), actualKey_ofStore,
    path_append_key_normalized P K hP hK]
  rfl

/-- `clear(key, settingsPath())` removes `settingsPath() + key` and its sub-keys. -/
theorem clear_ofStore (P K : String) (hP : IsGroupPath P) (hK : IsPlainKey K)
    (m : List (String × QVariant)) :
    CompStoreObj.clear K (some P) (QSettings.ofStore m)
      = QSettings.ofStore (m.filter (fun e => !QSettings.isKeyOrSubKey (P ++ K) e.1)) := by
  have hKn := normalizedKey_plain K hK
  have hKe : K ≠ "" := string_ne_empty_of_data hK.1
  by_cases hPe : P = ""
  · subst hPe
    have h0 : ("" : String) ++ K = K := by apply String.ext; simp
    simp only [CompStoreObj.clear, Option.getD_some, ne_eq, not_true_eq_false, if_false,
      QSettings.remove, hKn, hKe, groupPath_ofStore, h0]
    rfl
  · obtain ⟨hg1, hg2⟩ := groupPath_normalized P hP hPe
    have hgrp : (QSettings.beginGroup (QSettings.ofStore m) P).group = normalizedKey P := by
      simp only [QSettings.group, QSettings.beginGroup, QSettings.ofStore, List.reverse_cons,
        List.reverse_nil, List.nil_append]
      simp [List.filter, hg1, joinSections]
    have hgp : (QSettings.beginGroup (QSettings.ofStore m) P).groupPath = P := by
      unfold QSettings.groupPath
      rw [hgrp, if_neg hg1, hg2]
    have hne : P ++ K ≠ "" := path_append_key_ne_empty P K hK
    simp only [CompStoreObj.clear, Option.getD_some, ne_eq, hPe, not_false_eq_true, if_true,
      QSettings.remove, hKn, hKe, if_false, hgp, hne]
    rfl

/-- `load` with the default group reads the value under `settingsPath() + key`. -/
theorem load_ofStore (P K : String) (hP : IsGroupPath P) (hK : IsPlainKey K) (t : QMetaType)
    (cur : t.T) (d : QVariant) (m : List (String × QVariant)) :
    CompStoreObj.load P t cur K d none (QSettings.ofStore m)
      = if ((m.lookup (P ++ K)).getD d).canConvert t then ((m.lookup (P ++ K)).getD d).value t
        else cur := by
  unfold CompStoreObj.load QSettings.value
  rw [pathForKey_none P K hP, if_neg (path_append_key_ne_empty P K hK), actualKey_ofStore,
    path_append_key_normalized P K hP hK]
  rfl

theorem contains_ofStore (P K : String) (hP : IsGroupPath P) (hK : IsPlainKey K)
    (m : List (String × QVariant)) :
    (QSettings.ofStore m).contains (P ++ K) = (m.lookup (P ++ K)).isSome := by
  unfold QSettings.contains
  rw [actualKey_ofStore, path_append_key_normalized P K hP hK]
  rfl

theorem isKeyOrSubKey_self (k : String) : QSettings.isKeyOrSubKey k k = true := by
  simp [QSettings.isKeyOrSubKey]

/-! ## Paths and keys of the three classes -/

theorem isGroupPath_empty : IsGroupPath "" := Or.inl rfl

theorem profile_path_isGroupPath (p : Profile) : IsGroupPath p.settingsPath := by
  refine Or.inr ⟨["Profiles".data, "profile".data ++ (toString p.index).data], by simp, ?_, ?_⟩
  · intro s hs
    simp only [List.mem_cons, List.mem_singleton, List.not_mem_nil, or_false] at hs
    rcases hs with h | h
    · subst h; constructor <;> decide
    · subst h
      constructor
      · simp
      · intro hm
        rcases List.mem_append.mp hm with h1 | h1
        · revert h1; decide
        · exact int_toString_noSlash _ h1
  · simp [Profile.settingsPath, String.data_append, joinSections]

theorem profile_path_ne_empty (p : Profile) : p.settingsPath ≠ "" := by
  apply string_ne_empty_of_data
  simp [Profile.settingsPath, String.data_append]

theorem profile_key_plain (f : ProfileField) : IsPlainKey f.key := by
  cases f <;> exact ⟨by decide, by decide⟩

theorem jstick_path_isGroupPath (j : JStickData) : IsGroupPath j.settingsPath := by
  refine Or.inr ⟨["JsCalibration".data], by simp, ?_, ?_⟩
  · intro s hs
    simp only [List.mem_singleton] at hs
    subst hs
    constructor <;> decide
  · rfl

theorem stick_key_plain (index : Int) (suffix : String) (h : '/' ∉ suffix.data) :
    IsPlainKey ("stick" ++ toString index ++ suffix) := by
  constructor
  · simp [String.data_append]
  · rw [String.data_append, String.data_append]
    intro hm
    rcases List.mem_append.mp hm with h1 | h1
    · rcases List.mem_append.mp h1 with h2 | h2
      · revert h2; decide
      · exact int_toString_noSlash _ h2
    · exact h h1

theorem jstick_key_plain (index : Int) (f : JStickField) : IsPlainKey (f.key index) := by
  cases f <;> exact stick_key_plain index _ (by decide)

theorem app_key_plain (f : AppField) : IsPlainKey f.key := by
  cases f <;> exact ⟨by decide, by decide⟩

/-! ## The generated setter -/

theorem fromValue_eq (t : QMetaType) (a b : t.T) :
    (QVariant.fromValue t a).eq (QVariant.fromValue t b) = decide (a = b) := by
  cases t with
  | bool =>
    cases a <;> cases b <;> rfl
  | int =>
    simp [QVariant.fromValue, QVariant.eq, QVariant.isNumeric, QVariant.number]
  | uint =>
    simp [QVariant.fromValue, QVariant.eq, QVariant.isNumeric, QVariant.number]
  | qString =>
    simp [QVariant.fromValue, QVariant.eq, QVariant.isNumeric]
  | qStringList =>
    simp [QVariant.fromValue, QVariant.eq, QVariant.isNumeric]
  | qByteArray =>
    simp [QVariant.fromValue, QVariant.eq, QVariant.isNumeric]
  | simulatorOptions =>
    simp [QVariant.fromValue, QVariant.eq, QVariant.isNumeric]

theorem canConvert_fromValue (t : QMetaType) (a : t.T) :
    (QVariant.fromValue t a).canConvert t = true := by
  cases t <;> rfl

theorem value_fromValue (t : QMetaType) (a : t.T) :
    (QVariant.fromValue t a).value t = a := by
  cases t <;> rfl

/-- The setter called with the default value clears `settingsPath() + key`. -/
theorem setter_default (P K : String) (hP : IsGroupPath P) (hK : IsPlainKey K) (t : QMetaType)
    (D : t.T) (m : List (String × QVariant)) :
    PROPERTY4.setter P t K D D true (QSettings.ofStore m)
      = (D, QSettings.ofStore (m.filter (fun e => !QSettings.isKeyOrSubKey (P ++ K) e.1))) := by
  unfold PROPERTY4.setter
  rw [fromValue_eq, clear_ofStore P K hP hK]
  simp

/-- The setter called with another value stores it under `settingsPath() + key`. -/
theorem setter_other (P K : String) (hP : IsGroupPath P) (hK : IsPlainKey K) (t : QMetaType)
    (D V : t.T) (hV : V ≠ D) (m : List (String × QVariant)) :
    PROPERTY4.setter P t K D V true (QSettings.ofStore m)
      = (V, QSettings.ofStore (QSettings.insert (P ++ K) (QVariant.fromValue t V) m)) := by
  unfold PROPERTY4.setter
  rw [fromValue_eq, store_ofStore P K hP hK]
  simp [hV]

theorem setter_fst (P K : String) (t : QMetaType) (D V : t.T) (st : Bool) (s : QSettings) :
    (PROPERTY4.setter P t K D V st s).1 = V := by
  unfold PROPERTY4.setter
  split_ifs <;> rfl

theorem lookup_cleared (k : String) (m : List (String × QVariant)) :
    (m.filter (fun e => !QSettings.isKeyOrSubKey k e.1)).lookup k = none := by
  rw [lookup_filter_key (fun x => !QSettings.isKeyOrSubKey k x)]
  simp [isKeyOrSubKey_self]

/-! ## C1, C2: the default-omission rule -/

/-- C1 (default-omission law).  For every property generated by `PROPERTY4` in `AppData`,
`Profile` and `JStickData`, every in-memory state of the object and every content `m` of the
store: after the setter is called with the declared default (store = true) the getter
returns the default and `settingsPath() + key` is absent from the store, whatever was
stored before. -/
theorem default_omission_law (env : BuildEnv) (m : List (String × QVariant)) :
    (∀ (g : AppData) (f : AppField),
      let g1 := ({ g with m_settings := QSettings.ofStore m } : AppData).set env f (f.dflt env) true
      g1.get f = f.dflt env
        ∧ g1.m_settings.contains (g.settingsPath ++ f.key) = false
        ∧ g1.m_settings.map.lookup (g.settingsPath ++ f.key) = none)
    ∧ (∀ (p : Profile) (f : ProfileField),
      let r := p.set f f.dflt true (QSettings.ofStore m)
      r.1.get f = f.dflt
        ∧ r.2.contains (p.settingsPath ++ f.key) = false
        ∧ r.2.map.lookup (p.settingsPath ++ f.key) = none)
    ∧ (∀ (j : JStickData) (f : JStickField),
      let r := j.set f f.dflt true (QSettings.ofStore m)
      r.1.get f = f.dflt
        ∧ r.2.contains (j.settingsPath ++ f.key j.index) = false
        ∧ r.2.map.lookup (j.settingsPath ++ f.key j.index) = none) := by
  refine ⟨?_, ?_, ?_⟩
  · intro g f
    have hP : IsGroupPath (AppData.settingsPath g) := isGroupPath_empty
    have hK := app_key_plain f
    simp only [AppData.set, AppData.get, AppData.settingsPath,
      setter_default "" f.key isGroupPath_empty hK, Function.update_same]
    refine ⟨trivial, ?_, ?_⟩
    · rw [contains_ofStore "" f.key isGroupPath_empty hK]
      simp [QSettings.ofStore, lookup_cleared]
    · simp [QSettings.ofStore, lookup_cleared]
  · intro p f
    have hP := profile_path_isGroupPath p
    have hK := profile_key_plain f
    simp only [Profile.set, Profile.get, setter_default _ f.key hP hK, Function.update_same]
    refine ⟨trivial, ?_, ?_⟩
    · rw [contains_ofStore _ f.key hP hK]
      simp [QSettings.ofStore, lookup_cleared]
    · simp [QSettings.ofStore, lookup_cleared]
  · intro j f
    have hP := jstick_path_isGroupPath j
    have hK := jstick_key_plain j.index f
    simp only [JStickData.set, JStickData.get, setter_default _ _ hP hK, Function.update_same]
    refine ⟨trivial, ?_, ?_⟩
    · rw [contains_ofStore _ _ hP hK]
      simp [QSettings.ofStore, lookup_cleared]
    · simp [QSettings.ofStore, lookup_cleared]

/-- C2.  For every property generated by `PROPERTY4` in `AppData`, `Profile` and
`JStickData` and every value `V` other than the declared default: after the setter is called
with `V` (store = true) the getter returns `V` and `settingsPath() + key` is present in the
store and holds `V`. -/
theorem non_default_value_stored (env : BuildEnv) (m : List (String × QVariant)) :
    (∀ (g : AppData) (f : AppField) (V : f.type.T), V ≠ f.dflt env →
      let g1 := ({ g with m_settings := QSettings.ofStore m } : AppData).set env f V true
      g1.get f = V
        ∧ g1.m_settings.contains (g.settingsPath ++ f.key) = true
        ∧ g1.m_settings.map.lookup (g.settingsPath ++ f.key) = some (QVariant.fromValue f.type V))
    ∧ (∀ (p : Profile) (f : ProfileField) (V : f.type.T), V ≠ f.dflt →
      let r := p.set f V true (QSettings.ofStore m)
      r.1.get f = V
        ∧ r.2.contains (p.settingsPath ++ f.key) = true
        ∧ r.2.map.lookup (p.settingsPath ++ f.key) = some (QVariant.fromValue f.type V))
    ∧ (∀ (j : JStickData) (f : JStickField) (V : f.type.T), V ≠ f.dflt →
      let r := j.set f V true (QSettings.ofStore m)
      r.1.get f = V
        ∧ r.2.contains (j.settingsPath ++ f.key j.index) = true
        ∧ r.2.map.lookup (j.settingsPath ++ f.key j.index)
            = some (QVariant.fromValue f.type V)) := by
  refine ⟨?_, ?_, ?_⟩
  · intro g f V hV
    have hK := app_key_plain f
    simp only [AppData.set, AppData.get, AppData.settingsPath,
      setter_other "" f.key isGroupPath_empty hK f.type (f.dflt env) V hV, Function.update_same]
    refine ⟨trivial, ?_, ?_⟩
    · rw [contains_ofStore "" f.key isGroupPath_empty hK]
      simp [QSettings.ofStore, lookup_insert_self]
    · simp [QSettings.ofStore, lookup_insert_self]
  · intro p f V hV
    have hP := profile_path_isGroupPath p
    have hK := profile_key_plain f
    simp only [Profile.set, Profile.get, setter_other _ f.key hP hK f.type f.dflt V hV,
      Function.update_same]
    refine ⟨trivial, ?_, ?_⟩
    · rw [contains_ofStore _ f.key hP hK]
      simp [QSettings.ofStore, lookup_insert_self]
    · simp [QSettings.ofStore, lookup_insert_self]
  · intro j f V hV
    have hP := jstick_path_isGroupPath j
    have hK := jstick_key_plain j.index f
    simp only [JStickData.set, JStickData.get, setter_other _ _ hP hK f.type f.dflt V hV,
      Function.update_same]
    refine ⟨trivial, ?_, ?_⟩
    · rw [contains_ofStore _ _ hP hK]
      simp [QSettings.ofStore, lookup_insert_self]
    · simp [QSettings.ofStore, lookup_insert_self]

/-- Witness of C2: profile 3 named "Heli" on an empty store. -/
theorem non_default_value_stored_witness :
    ("Heli" : String) ≠ ProfileField.dflt .name
    ∧ (({ Profile.ctor with index := 3 } : Profile).set .name "Heli" true
          (QSettings.ofStore [])).1.get .name = "Heli"
    ∧ (({ Profile.ctor with index := 3 } : Profile).set .name "Heli" true
          (QSettings.ofStore [])).2.contains "Profiles/profile3/Name" = true
    ∧ (({ Profile.ctor with index := 3 } : Profile).set .name "Heli" true
          (QSettings.ofStore [])).2.map.lookup "Profiles/profile3/Name"
        = some (QVariant.qString "Heli") :=
  ⟨by decide,
   (non_default_value_stored ⟨0, ""⟩ []).2.1 { Profile.ctor with index := 3 } .name "Heli"
     (by decide)⟩

/-! ## Frame of the setter: only `settingsPath() + key` and its sub-keys change -/

theorem isKeyOrSubKey_false_of_not_under (theKey k : String)
    (h : theKey.data.isPrefixOf k.data = false) : QSettings.isKeyOrSubKey theKey k = false := by
  have hn : ¬ theKey.data <+: k.data := by
    intro hp
    rw [List.isPrefixOf_iff_prefix.mpr hp] at h
    exact Bool.noConfusion h
  unfold QSettings.isKeyOrSubKey
  rw [Bool.or_eq_false_iff]
  constructor
  · rw [decide_eq_false_iff_not]
    intro e
    subst e
    exact hn (List.prefix_refl _)
  · cases hb : (theKey ++ "/").data.isPrefixOf k.data with
    | false => rfl
    | true =>
      have hp := List.isPrefixOf_iff_prefix.mp hb
      rw [String.data_append] at hp
      exact absurd (( List.prefix_append _ _).trans hp) hn

theorem not_under_of_not_under_path (P K k : String) (h : P.data.isPrefixOf k.data = false) :
    (P ++ K).data.isPrefixOf k.data = false := by
  cases hb : (P ++ K).data.isPrefixOf k.data with
  | false => rfl
  | true =>
    have hp := List.isPrefixOf_iff_prefix.mp hb
    rw [String.data_append] at hp
    have h2 := List.isPrefixOf_iff_prefix.mpr (( List.prefix_append _ _).trans hp)
    rw [h2] at h
    exact Bool.noConfusion h

/-- Whatever the setter is called with, the settings object stays without open group and
every key that does not start with `settingsPath() + key` keeps its entry. -/
theorem setter_frame (P K : String) (hP : IsGroupPath P) (hK : IsPlainKey K) (t : QMetaType)
    (D V : t.T) (st : Bool) (m : List (String × QVariant)) :
    ∃ m2, (PROPERTY4.setter P t K D V st (QSettings.ofStore m)).2 = QSettings.ofStore m2
      ∧ ∀ k : String, (P ++ K).data.isPrefixOf k.data = false → m2.lookup k = m.lookup k := by
  cases st with
  | false => exact ⟨m, rfl, fun _ _ => rfl⟩
  | true =>
    by_cases hV : V = D
    · subst hV
      rw [setter_default P K hP hK]
      refine ⟨_, rfl, ?_⟩
      intro k hk
      rw [lookup_filter_key (fun x => !QSettings.isKeyOrSubKey (P ++ K) x),
        isKeyOrSubKey_false_of_not_under _ _ hk]
      rfl
    · rw [setter_other P K hP hK t D V hV]
      refine ⟨_, rfl, ?_⟩
      intro k hk
      apply lookup_insert_ne
      intro e
      subst e
      rw [List.isPrefixOf_iff_prefix.mpr (List.prefix_refl _)] at hk
      exact Bool.noConfusion hk

/-- A setter of `Profile` keeps the index and changes no key outside the profile's path. -/
theorem profile_set_frame (p : Profile) (f : ProfileField) (V : f.type.T) (st : Bool)
    (m : List (String × QVariant)) :
    ∃ m2, (p.set f V st (QSettings.ofStore m)).2 = QSettings.ofStore m2
      ∧ (p.set f V st (QSettings.ofStore m)).1.index = p.index
      ∧ ∀ k : String, p.settingsPath.data.isPrefixOf k.data = false →
          m2.lookup k = m.lookup k := by
  obtain ⟨m2, h1, h2⟩ := setter_frame p.settingsPath f.key (profile_path_isGroupPath p)
    (profile_key_plain f) f.type f.dflt V st m
  exact ⟨m2, h1, rfl, fun k hk => h2 k (not_under_of_not_under_path _ _ _ hk)⟩

/-- A sequence of setter calls on one `Profile` keeps the index and changes no key outside
the profile's path. -/
theorem profile_setters_frame (val : (f : ProfileField) → f.type.T) (fs : List ProfileField) :
    ∀ (p : Profile) (m : List (String × QVariant)),
    ∃ m2, (fs.foldl (fun st f => st.1.set f (val f) true st.2) (p, QSettings.ofStore m)).2
        = QSettings.ofStore m2
      ∧ (fs.foldl (fun st f => st.1.set f (val f) true st.2) (p, QSettings.ofStore m)).1.index
        = p.index
      ∧ ∀ k : String, p.settingsPath.data.isPrefixOf k.data = false →
          m2.lookup k = m.lookup k := by
  induction fs with
  | nil => intro p m; exact ⟨m, rfl, rfl, fun _ _ => rfl⟩
  | cons f rest ih =>
    intro p m
    obtain ⟨m1, h1, h2, h3⟩ := profile_set_frame p f (val f) true m
    obtain ⟨m2, g1, g2, g3⟩ := ih (p.set f (val f) true (QSettings.ofStore m)).1 m1
    have hpath : (p.set f (val f) true (QSettings.ofStore m)).1.settingsPath = p.settingsPath := by
      simp only [Profile.settingsPath, h2]
    have hstep : p.set f (val f) true (QSettings.ofStore m)
        = ((p.set f (val f) true (QSettings.ofStore m)).1, QSettings.ofStore m1) := by
      rw [← h1]
    rw [List.foldl_cons, hstep]
    refine ⟨m2, g1, g2.trans h2, ?_⟩
    intro k hk
    rw [g3 k (by rw [hpath]; exact hk), h3 k hk]

/-- `remove(settingsPath())` on a profile path removes the group key and its sub-keys. -/
theorem remove_path_ofStore (P : String) (hP : IsGroupPath P) (hPe : P ≠ "")
    (m : List (String × QVariant)) :
    (QSettings.ofStore m).remove P
      = QSettings.ofStore (m.filter (fun e => !QSettings.isKeyOrSubKey (normalizedKey P) e.1)) := by
  obtain ⟨hg1, _⟩ := groupPath_normalized P hP hPe
  have h0 : ("" : String) ++ normalizedKey P = normalizedKey P := by apply String.ext; simp
  simp only [QSettings.remove, hg1, if_false, groupPath_ofStore, h0]
  rfl

/-! ## C3: profiles do not share keys -/

theorem profile_paths_differ : ∀ i j : Fin 15, i ≠ j →
    ("Profiles/profile" ++ toString ((i.val : Nat) : Int) ++ "/").data.isPrefixOf
      ("Profiles/profile" ++ toString ((j.val : Nat) : Int) ++ "/").data = false := by
  decide

theorem profile_paths_differ_int (i j : Int) (hi : 0 ≤ i ∧ i < MAX_PROFILES)
    (hj : 0 ≤ j ∧ j < MAX_PROFILES) (hij : i ≠ j) :
    ¬ ("Profiles/profile" ++ toString i ++ "/").data <+:
      ("Profiles/profile" ++ toString j ++ "/").data := by
  have hM : ((MAX_PROFILES : Nat) : Int) = 15 := rfl
  have hi2 : i.toNat < 15 := by have := hi.1; have := hi.2; omega
  have hj2 : j.toNat < 15 := by have := hj.1; have := hj.2; omega
  have hie : ((i.toNat : Nat) : Int) = i := Int.toNat_of_nonneg hi.1
  have hje : ((j.toNat : Nat) : Int) = j := Int.toNat_of_nonneg hj.1
  have hne : (⟨i.toNat, hi2⟩ : Fin 15) ≠ ⟨j.toNat, hj2⟩ := by
    intro e
    have e2 : i.toNat = j.toNat := congrArg Fin.val e
    exact hij (by rw [← hie, ← hje, e2])
  have h := profile_paths_differ ⟨i.toNat, hi2⟩ ⟨j.toNat, hj2⟩ hne
  simp only [hie, hje] at h
  intro hp
  rw [List.isPrefixOf_iff_prefix.mpr hp] at h
  exact Bool.noConfusion h

/-- A key under the path of profile `j` is neither under the path of another profile `i`
nor the group key of profile `i`. -/
theorem profile_paths_disjoint (i j : Int) (hi : 0 ≤ i ∧ i < MAX_PROFILES)
    (hj : 0 ≤ j ∧ j < MAX_PROFILES) (hij : i ≠ j) (k : String)
    (hk : ("Profiles/profile" ++ toString j ++ "/").data <+: k.data) :
    ("Profiles/profile" ++ toString i ++ "/").data.isPrefixOf k.data = false
    ∧ QSettings.isKeyOrSubKey ("Profiles/profile" ++ toString i) k = false := by
  have h1 : ("Profiles/profile" ++ toString i ++ "/").data.isPrefixOf k.data = false := by
    cases hb : ("Profiles/profile" ++ toString i ++ "/").data.isPrefixOf k.data with
    | false => rfl
    | true =>
      have hp := List.isPrefixOf_iff_prefix.mp hb
      rcases ( List.prefix_or_prefix_of_prefix hp hk) with h | h
      · exact absurd h (profile_paths_differ_int i j hi hj hij)
      · exact absurd h (profile_paths_differ_int j i hj hi (Ne.symm hij))
  refine ⟨h1, ?_⟩
  unfold QSettings.isKeyOrSubKey
  rw [Bool.or_eq_false_iff]
  refine ⟨?_, h1⟩
  rw [decide_eq_false_iff_not]
  intro e
  subst e
  have h3 : ("Profiles/profile" ++ toString i).data
      <+: ("Profiles/profile" ++ toString i ++ "/").data := by
    rw [String.data_append ("Profiles/profile" ++ toString i)]
    exact ( List.prefix_append _ _)
  exact profile_paths_differ_int j i hj hi (Ne.symm hij) (hk.trans h3)

theorem profile_path_normalized (p : Profile) :
    normalizedKey p.settingsPath = "Profiles/profile" ++ toString p.index := by
  have h := (groupPath_normalized p.settingsPath (profile_path_isGroupPath p)
    (profile_path_ne_empty p)).2
  have h2 : (normalizedKey p.settingsPath).data ++ "/".data
      = ("Profiles/profile" ++ toString p.index).data ++ "/".data := by
    rw [← String.data_append, h, ← String.data_append]
    rfl
  exact String.ext (List.append_cancel_right h2)

/-- C3 (namespace isolation).  For profile indices `i ≠ j` in `[0, MAX_PROFILES)`, a profile
object with index `i`, every content `m` of the store and every key `k` under
"Profiles/profile<j>/": each mutating operation on the profile (any setter with any value,
any Reset, `resetFwVariables()`, `remove()`, assignment from any other profile) leaves the
entry of `k` as it was; so `remove()` on profile 1 removes no key of profiles 10 to 14. -/
theorem namespace_isolation (p : Profile) (j : Int) (hi : 0 ≤ p.index ∧ p.index < MAX_PROFILES)
    (hj : 0 ≤ j ∧ j < MAX_PROFILES) (hij : p.index ≠ j) (m : List (String × QVariant))
    (k : String) (hk : ("Profiles/profile" ++ toString j ++ "/").data <+: k.data) :
    (∀ (f : ProfileField) (V : f.type.T) (st : Bool),
        (p.set f V st (QSettings.ofStore m)).2.map.lookup k = m.lookup k)
    ∧ (∀ (f : ProfileField) (st : Bool),
        (p.fieldReset f st (QSettings.ofStore m)).2.map.lookup k = m.lookup k)
    ∧ (p.resetFwVariables (QSettings.ofStore m)).2.map.lookup k = m.lookup k
    ∧ (p.remove (QSettings.ofStore m)).2.map.lookup k = m.lookup k
    ∧ (∀ rhs : Profile, (p.assign rhs (QSettings.ofStore m)).2.map.lookup k = m.lookup k) := by
  obtain ⟨hd1, hd2⟩ := profile_paths_disjoint p.index j hi hj hij k hk
  have hset : ∀ (f : ProfileField) (V : f.type.T) (st : Bool),
      (p.set f V st (QSettings.ofStore m)).2.map.lookup k = m.lookup k := by
    intro f V st
    obtain ⟨m2, h1, _, h3⟩ := profile_set_frame p f V st m
    rw [h1]
    exact h3 k hd1
  refine ⟨hset, fun f st => hset f f.dflt st, ?_, ?_, ?_⟩
  · obtain ⟨m2, h1, _, h3⟩ := profile_setters_frame ProfileField.dflt Profile.fwVariables p m
    have : p.resetFwVariables (QSettings.ofStore m)
        = Profile.fwVariables.foldl (fun st f => st.1.set f (ProfileField.dflt f) true st.2)
            (p, QSettings.ofStore m) := rfl
    rw [this, h1]
    exact h3 k hd1
  · simp only [Profile.remove]
    rw [remove_path_ofStore _ (profile_path_isGroupPath p) (profile_path_ne_empty p),
      profile_path_normalized]
    simp only [QSettings.ofStore]
    rw [lookup_filter_key (fun x => !QSettings.isKeyOrSubKey ("Profiles/profile" ++ toString p.index) x),
      hd2]
    rfl
  · intro rhs
    obtain ⟨m2, h1, _, h3⟩ := profile_setters_frame rhs.value Profile.assignOrder p m
    have : p.assign rhs (QSettings.ofStore m)
        = Profile.assignOrder.foldl (fun st f => st.1.set f (rhs.value f) true st.2)
            (p, QSettings.ofStore m) := rfl
    rw [this, h1]
    exact h3 k hd1

/-- Witness of C3: `remove()` on profile 1 keeps the name stored for profile 10. -/
theorem namespace_isolation_witness :
    (({ Profile.ctor with index := 1 } : Profile).remove
        (QSettings.ofStore [("Profiles/profile10/Name", .qString "Ten"),
          ("Profiles/profile1/Name", .qString "One")])).2.map.lookup "Profiles/profile10/Name"
      = List.lookup "Profiles/profile10/Name"
          [("Profiles/profile10/Name", QVariant.qString "Ten"),
           ("Profiles/profile1/Name", QVariant.qString "One")] :=
  (namespace_isolation { Profile.ctor with index := 1 } 10 (by decide) (by decide) (by decide)
    [("Profiles/profile10/Name", .qString "Ten"), ("Profiles/profile1/Name", .qString "One")]
    "Profiles/profile10/Name" (List.isPrefixOf_iff_prefix.mp (by decide))).2.2.2.1

/-! ## C4, C5: `Profile::operator=` -/

theorem profile_set_value_same (p : Profile) (f : ProfileField) (V : f.type.T) (st : Bool)
    (s : QSettings) : (p.set f V st s).1.value f = V := by
  simp only [Profile.set, Function.update_same, setter_fst]

theorem profile_set_value_other (p : Profile) (f g : ProfileField) (V : g.type.T) (st : Bool)
    (s : QSettings) (h : f ≠ g) : (p.set g V st s).1.value f = p.value f := by
  simp only [Profile.set, Function.update_noteq h]

/-- After a sequence of setter calls `name(val.name())`, a property of the sequence holds
the value given to it and any other property is as before. -/
theorem profile_setters_value (val : (f : ProfileField) → f.type.T) (fs : List ProfileField)
    (f : ProfileField) : ∀ (p : Profile) (s : QSettings),
    (fs.foldl (fun st g => st.1.set g (val g) true st.2) (p, s)).1.value f
      = if f ∈ fs then val f else p.value f := by
  induction fs with
  | nil => intro p s; simp
  | cons g rest ih =>
    intro p s
    rw [List.foldl_cons, ih]
    by_cases hr : f ∈ rest
    · simp [hr]
    · by_cases hfg : f = g
      · subst hfg
        simp [hr, profile_set_value_same]
      · simp [hr, hfg, profile_set_value_other p f g (val g) true s hfg]

/-- What `operator=` does: every property named in it is copied, `timeStamp` is not. -/
theorem assign_copies_all_but_timeStamp (A B : Profile) (s : QSettings) :
    (∀ f : ProfileField, f ≠ .timeStamp → (A.assign B s).1.get f = B.get f)
    ∧ (A.assign B s).1.get .timeStamp = A.get .timeStamp := by
  have h : ∀ f : ProfileField, (A.assign B s).1.get f
      = if f ∈ Profile.assignOrder then B.value f else A.value f :=
    fun f => profile_setters_value B.value Profile.assignOrder f A s
  constructor
  · intro f hf
    rw [h f]
    have : f ∈ Profile.assignOrder := by
      revert hf
      cases f <;> decide
    simp [this, Profile.get]
  · rw [h]
    have : ProfileField.timeStamp ∉ Profile.assignOrder := by decide
    simp [this, Profile.get]

/-- C4 fails on the code: with `B.timeStamp() == "2017-01-01"` and `A.timeStamp() == ""`,
after `A = B` the field `timeStamp` of `A` still reads "" while that of `B` reads
"2017-01-01". -/
theorem assign_drops_timeStamp :
    (Profile.assign { Profile.ctor with index := 0 }
        { index := 1, value := Function.update Profile.ctor.value .timeStamp "2017-01-01" }
        (QSettings.ofStore [])).1.get .timeStamp = ""
    ∧ Profile.get
        { index := 1, value := Function.update Profile.ctor.value .timeStamp "2017-01-01" }
        .timeStamp = "2017-01-01" := by
  constructor
  · rw [(assign_copies_all_but_timeStamp _ _ _).2]
    rfl
  · rfl

/-- C5.  For two profile objects `A = g.profile[i]` and `B = g.profile[j]` of different
index and every content `m` of the store, the assignment `A = B` leaves the index of `A` and
the object `B` as they were and changes no key outside "Profiles/profile<A.index>/"; and a
setter called on `B` afterwards (any property, any value) leaves the object `A` as it
was. -/
theorem assign_frame (g : AppData) (i j : Fin MAX_PROFILES) (m : List (String × QVariant))
    (hij : (g.profile i).index ≠ (g.profile j).index) :
    let g1 := ({ g with m_settings := QSettings.ofStore m } : AppData).profileAssign i j
    (g1.profile i).index = (g.profile i).index
    ∧ g1.profile j = g.profile j
    ∧ (∀ k : String,
        ¬ ("Profiles/profile" ++ toString (g.profile i).index ++ "/").data <+: k.data →
        g1.m_settings.map.lookup k = m.lookup k)
    ∧ (∀ (f : ProfileField) (V : f.type.T) (st : Bool),
        (g1.profileSet j f V st).profile i = g1.profile i) := by
  have hne : i ≠ j := fun e => hij (by rw [e])
  obtain ⟨m2, h1, h2, h3⟩ :=
    profile_setters_frame (g.profile j).value Profile.assignOrder (g.profile i) m
  have hfold : (g.profile i).assign (g.profile j) (QSettings.ofStore m)
      = Profile.assignOrder.foldl
          (fun st f => st.1.set f ((g.profile j).value f) true st.2)
          (g.profile i, QSettings.ofStore m) := rfl
  simp only [AppData.profileAssign, AppData.profileSet, Function.update_same,
    Function.update_noteq hne, Function.update_noteq (Ne.symm hne), hfold, h1, h2]
  refine ⟨trivial, trivial, ?_, ?_⟩
  · intro k hk
    apply h3 k
    cases hb : (g.profile i).settingsPath.data.isPrefixOf k.data with
    | false => rfl
    | true => exact absurd (List.isPrefixOf_iff_prefix.mp hb) hk
  · intro f V st
    trivial

/-- Witness of C5: profile 0 is assigned profile 1 of the constructed array, once both are
initialised with their position, on an empty store. -/
theorem assign_frame_witness :
    let g : AppData := { AppData.ctor [] with
      profile := fun n => { Profile.ctor with index := (n.val : Int) } }
    let g1 := ({ g with m_settings := QSettings.ofStore [] } : AppData).profileAssign 0 1
    (g1.profile 0).index = (g.profile 0).index
    ∧ g1.profile 1 = g.profile 1
    ∧ (∀ k : String,
        ¬ ("Profiles/profile" ++ toString (g.profile 0).index ++ "/").data <+: k.data →
        g1.m_settings.map.lookup k = List.lookup k [])
    ∧ (∀ (f : ProfileField) (V : f.type.T) (st : Bool),
        (g1.profileSet 1 f V st).profile 0 = g1.profile 0) :=
  assign_frame
    { AppData.ctor [] with profile := fun n => { Profile.ctor with index := (n.val : Int) } }
    0 1 [] (by decide)

/-! ## C6, C7: `existsOnDisk` and `remove` -/

theorem profile_set_path (p : Profile) (f : ProfileField) (V : f.type.T) (st : Bool)
    (s : QSettings) : (p.set f V st s).1.settingsPath = p.settingsPath := rfl

/-- C6 fails as stated: the name setter called with the empty string, which is the declared
default of `name`, removes the key "Name", so `existsOnDisk()` is false afterwards (here for
profile 0 on a store that held a name for it). -/
theorem existsOnDisk_false_after_empty_name :
    (({ Profile.ctor with index := 0 } : Profile).set .name "" true
        (QSettings.ofStore [("Profiles/profile0/Name", .qString "Heli")])).1.existsOnDisk
      (({ Profile.ctor with index := 0 } : Profile).set .name "" true
        (QSettings.ofStore [("Profiles/profile0/Name", .qString "Heli")])).2 = false := by
  decide

/-- `existsOnDisk()` looks up "Name" under the path of the profile. -/
theorem profile_existsOnDisk_ofStore (p : Profile) (m : List (String × QVariant)) :
    p.existsOnDisk (QSettings.ofStore m)
      = (m.lookup (p.settingsPath ++ ProfileField.key .name)).isSome :=
  contains_ofStore _ _ (profile_path_isGroupPath p) (profile_key_plain .name) m

theorem profile_existsOnDisk_of_index (p q : Profile) (h : p.index = q.index) (s : QSettings) :
    p.existsOnDisk s = q.existsOnDisk s := by
  simp only [Profile.existsOnDisk, Profile.settingsPath, h]

/-- C6 as amended.  For every profile object (any index), every content `m` of the store and
every string `v`: immediately after the name is set to `v` with the name setter
(store = true), `existsOnDisk()` is true when `v` is not the empty string, and false when `v`
is the empty string. -/
theorem existsOnDisk_after_name (p : Profile) (m : List (String × QVariant)) (v : String) :
    (v ≠ "" → (p.set .name v true (QSettings.ofStore m)).1.existsOnDisk
        (p.set .name v true (QSettings.ofStore m)).2 = true)
    ∧ (v = "" → (p.set .name v true (QSettings.ofStore m)).1.existsOnDisk
        (p.set .name v true (QSettings.ofStore m)).2 = false) := by
  have hP := profile_path_isGroupPath p
  have hK := profile_key_plain .name
  have hidx : (p.set .name v true (QSettings.ofStore m)).1.index = p.index := rfl
  rw [profile_existsOnDisk_of_index _ p hidx]
  constructor
  · intro hv
    have hV : (v : (ProfileField.type .name).T) ≠ ProfileField.dflt .name := hv
    have e : (p.set .name v true (QSettings.ofStore m)).2
        = QSettings.ofStore (QSettings.insert (p.settingsPath ++ ProfileField.key .name)
            (QVariant.fromValue (ProfileField.type .name) v) m) := by
      simp only [Profile.set,
        setter_other _ _ hP hK (ProfileField.type .name) (ProfileField.dflt .name) v hV]
    rw [e, profile_existsOnDisk_ofStore, lookup_insert_self]
    rfl
  · intro hv
    subst hv
    have e : (p.set .name "" true (QSettings.ofStore m)).2
        = QSettings.ofStore (m.filter (fun e =>
            !QSettings.isKeyOrSubKey (p.settingsPath ++ ProfileField.key .name) e.1)) := by
      have := setter_default _ _ hP hK (ProfileField.type .name) (ProfileField.dflt .name) m
      simp only [Profile.set]
      exact congrArg Prod.snd this
    rw [e, profile_existsOnDisk_ofStore, lookup_cleared]
    rfl

/-- Witness of C6 as amended: profile 2 named "Heli" on an empty store. -/
theorem existsOnDisk_after_name_witness :
    ("Heli" : String) ≠ ""
    ∧ (({ Profile.ctor with index := 2 } : Profile).set .name "Heli" true
          (QSettings.ofStore [])).1.existsOnDisk
        (({ Profile.ctor with index := 2 } : Profile).set .name "Heli" true
          (QSettings.ofStore [])).2 = true :=
  ⟨by decide,
   (existsOnDisk_after_name { Profile.ctor with index := 2 } [] "Heli").1 (by decide)⟩

theorem profile_fieldInit_index (p : Profile) (f : ProfileField) (s : QSettings) :
    (p.fieldInit f s).index = p.index := rfl

/-- When no key of the profile is stored, `name_init()` sets the declared default. -/
theorem profile_fieldInit_absent (p : Profile) (f : ProfileField) (m : List (String × QVariant))
    (h : m.lookup (p.settingsPath ++ f.key) = none) :
    (p.fieldInit f (QSettings.ofStore m)).value f = f.dflt := by
  simp only [Profile.fieldInit, Function.update_same, PROPERTY4.init]
  rw [load_ofStore _ _ (profile_path_isGroupPath p) (profile_key_plain f), h]
  simp [canConvert_fromValue, value_fromValue]

theorem profile_fieldInit_other (p : Profile) (f g : ProfileField) (s : QSettings) (h : f ≠ g) :
    (p.fieldInit g s).value f = p.value f := by
  simp only [Profile.fieldInit, Function.update_noteq h]

/-- Running the `name_init()` members of `fs` on a store without keys of the profile leaves
the index and gives every property of `fs` its declared default. -/
theorem profile_init_absent (m : List (String × QVariant)) (idx : Int)
    (h : ∀ f : ProfileField, m.lookup ("Profiles/profile" ++ toString idx ++ "/" ++ f.key) = none)
    (fs : List ProfileField) : ∀ p : Profile, p.index = idx →
    (fs.foldl (fun q f => q.fieldInit f (QSettings.ofStore m)) p).index = idx
    ∧ ∀ f : ProfileField, (f ∈ fs ∨ p.value f = f.dflt) →
        (fs.foldl (fun q f => q.fieldInit f (QSettings.ofStore m)) p).value f = f.dflt := by
  induction fs with
  | nil =>
    intro p hp
    refine ⟨hp, ?_⟩
    intro f hf
    rcases hf with hf | hf
    · exact absurd hf (List.not_mem_nil _)
    · exact hf
  | cons g rest ih =>
    intro p hp
    have hp2 : (p.fieldInit g (QSettings.ofStore m)).index = idx := hp
    obtain ⟨i1, i2⟩ := ih (p.fieldInit g (QSettings.ofStore m)) hp2
    rw [List.foldl_cons]
    refine ⟨i1, ?_⟩
    intro f hf
    apply i2
    by_cases hfg : f = g
    · subst hfg
      right
      apply profile_fieldInit_absent
      have : p.settingsPath = "Profiles/profile" ++ toString idx ++ "/" := by
        rw [Profile.settingsPath, hp]
      rw [this]
      exact h f
    · rcases hf with hf | hf
      · rcases List.mem_cons.mp hf with h1 | h1
        · exact absurd h1 hfg
        · exact Or.inl h1
      · right
        rw [profile_fieldInit_other p f g _ hfg]
        exact hf

theorem lookup_removed_under (theKey k : String) (m : List (String × QVariant))
    (hk : (theKey ++ "/").data <+: k.data) :
    (m.filter (fun e => !QSettings.isKeyOrSubKey theKey e.1)).lookup k = none := by
  rw [lookup_filter_key (fun x => !QSettings.isKeyOrSubKey theKey x)]
  have : QSettings.isKeyOrSubKey theKey k = true := by
    unfold QSettings.isKeyOrSubKey
    rw [List.isPrefixOf_iff_prefix.mpr hk]
    simp
  simp [this]

/-- C7.  For every profile object (any index `N`) and every content `m` of the store,
immediately after `remove()`: `existsOnDisk()` is false, no key under "Profiles/profile<N>/"
is left in the store, every in-memory field equals its declared default, and the index is
still `N`. -/
theorem remove_clears_profile (p : Profile) (m : List (String × QVariant)) :
    (p.remove (QSettings.ofStore m)).1.existsOnDisk (p.remove (QSettings.ofStore m)).2 = false
    ∧ (∀ k : String, ("Profiles/profile" ++ toString p.index ++ "/").data <+: k.data →
        (p.remove (QSettings.ofStore m)).2.map.lookup k = none)
    ∧ (∀ f : ProfileField, (p.remove (QSettings.ofStore m)).1.get f = f.dflt)
    ∧ (p.remove (QSettings.ofStore m)).1.index = p.index := by
  have hP := profile_path_isGroupPath p
  have hrem := remove_path_ofStore p.settingsPath hP (profile_path_ne_empty p) m
  rw [profile_path_normalized] at hrem
  have hgone : ∀ k : String, ("Profiles/profile" ++ toString p.index ++ "/").data <+: k.data →
      (m.filter (fun e => !QSettings.isKeyOrSubKey ("Profiles/profile" ++ toString p.index)
        e.1)).lookup k = none :=
    fun k hk => lookup_removed_under _ k m hk
  have habs : ∀ f : ProfileField,
      (m.filter (fun e => !QSettings.isKeyOrSubKey ("Profiles/profile" ++ toString p.index)
        e.1)).lookup ("Profiles/profile" ++ toString p.index ++ "/" ++ f.key) = none := by
    intro f
    apply hgone
    rw [String.data_append ("Profiles/profile" ++ toString p.index ++ "/")]
    exact ( List.prefix_append _ _)
  obtain ⟨i1, i2⟩ := profile_init_absent _ p.index habs Profile.initOrder
    { p with index := p.index } rfl
  have hall : ∀ f : ProfileField, f ∈ Profile.initOrder := by
    intro f
    cases f <;> decide
  have h2 : (p.remove (QSettings.ofStore m)).2
      = QSettings.ofStore (m.filter (fun e =>
          !QSettings.isKeyOrSubKey ("Profiles/profile" ++ toString p.index) e.1)) := hrem
  have h1 : (p.remove (QSettings.ofStore m)).1
      = Profile.initOrder.foldl (fun q f => q.fieldInit f (QSettings.ofStore (m.filter (fun e =>
          !QSettings.isKeyOrSubKey ("Profiles/profile" ++ toString p.index) e.1))))
          { p with index := p.index } := by
    simp only [Profile.remove, hrem]
    rfl
  have hidx : (p.remove (QSettings.ofStore m)).1.index = p.index := by rw [h1]; exact i1
  refine ⟨?_, ?_, ?_, hidx⟩
  · rw [profile_existsOnDisk_of_index _ p hidx, h2, profile_existsOnDisk_ofStore]
    have := habs .name
    rw [Profile.settingsPath, this]
    rfl
  · intro k hk
    rw [h2]
    exact hgone k hk
  · intro f
    rw [h1]
    exact i2 f (Or.inl (hall f))

/-! ## C8, C9: persisted and session profile id -/

theorem empty_append (K : String) : ("" : String) ++ K = K := by
  apply String.ext
  simp

theorem isPlainKey_profileId : IsPlainKey "profileId" := ⟨by decide, by decide⟩

/-- C8.  For every index `i` with `0 ≤ i < MAX_PROFILES`, every in-memory state and every
content `m` of the store: after `id(i)` both `id()` and `sessionId()` return `i` and the
store holds `i` under the key "profileId". -/
theorem id_sets_both (g : AppData) (m : List (String × QVariant)) (i : Int)
    (hi : 0 ≤ i ∧ i < MAX_PROFILES) :
    let g1 := ({ g with m_settings := QSettings.ofStore m } : AppData).idSet i
    g1.id = i ∧ g1.sessionId = i
      ∧ g1.m_settings.map.lookup "profileId" = some (QVariant.int i)
      ∧ g1.m_settings.value "profileId" .invalid = QVariant.int i := by
  have h1 : ¬ (i < 0 ∨ i ≥ (MAX_PROFILES : Nat)) := by
    intro h
    rcases h with h | h
    · exact absurd hi.1 (not_le.mpr h)
    · exact absurd hi.2 (not_lt.mpr h)
  have h2 : i > -1 ∧ i < (MAX_PROFILES : Nat) := ⟨by have := hi.1; omega, hi.2⟩
  have hst := store_ofStore "" "profileId" isGroupPath_empty isPlainKey_profileId .int i m
  rw [empty_append] at hst
  simp only [AppData.idSet, if_neg h1, AppData.sessionIdSet, if_pos h2, AppData.id,
    AppData.sessionId, AppData.settingsPath, hst]
  refine ⟨trivial, trivial, ?_, ?_⟩
  · exact lookup_insert_self _ _ _
  · have hv : (QSettings.ofStore (QSettings.insert "profileId" (QVariant.fromValue .int i) m)).value
        "profileId" .invalid
        = ((QSettings.insert "profileId" (QVariant.fromValue .int i) m).lookup "profileId").getD
            .invalid := by
      unfold QSettings.value
      rw [if_neg (by decide), actualKey_ofStore, normalizedKey_plain _ isPlainKey_profileId]
      rfl
    rw [hv, lookup_insert_self]
    rfl

/-- Witness of C8: `id(4)` on the constructed object with an empty store. -/
theorem id_sets_both_witness :
    let g1 := ({ AppData.ctor [] with m_settings := QSettings.ofStore [] } : AppData).idSet 4
    g1.id = 4 ∧ g1.sessionId = 4
      ∧ g1.m_settings.map.lookup "profileId" = some (QVariant.int 4)
      ∧ g1.m_settings.value "profileId" .invalid = QVariant.int 4 :=
  id_sets_both (AppData.ctor []) [] 4 (by decide)

/-- C9.  For every integer `x` and every state, `sessionId(x)` leaves the persisted profile
id and the store as they were; and for `x` outside `[0, MAX_PROFILES)` both `sessionId(x)`
and `id(x)` leave the whole object, with persisted id, session id and store, as it was. -/
theorem out_of_range_ids_ignored (g : AppData) (x : Int) :
    ((g.sessionIdSet x).id = g.id ∧ (g.sessionIdSet x).m_settings = g.m_settings)
    ∧ (x < 0 ∨ (MAX_PROFILES : Int) ≤ x → g.sessionIdSet x = g ∧ g.idSet x = g) := by
  constructor
  · unfold AppData.sessionIdSet
    split_ifs <;> exact ⟨rfl, rfl⟩
  · intro hx
    have h1 : ¬ (x > -1 ∧ x < (MAX_PROFILES : Nat)) := by
      intro h
      rcases hx with hx | hx
      · have := h.1; omega
      · exact absurd h.2 (not_lt.mpr hx)
    have h2 : x < 0 ∨ x ≥ (MAX_PROFILES : Nat) := hx
    constructor
    · unfold AppData.sessionIdSet
      rw [if_neg h1]
    · unfold AppData.idSet
      rw [if_pos h2]

/-- Witness of C9: `sessionId(15)` and `id(15)` on the constructed object. -/
theorem out_of_range_ids_ignored_witness :
    (AppData.ctor []).sessionIdSet 15 = AppData.ctor []
    ∧ (AppData.ctor []).idSet 15 = AppData.ctor [] :=
  (out_of_range_ids_ignored (AppData.ctor []) 15).2 (by decide)

/-! ## C10: `convertSettings` is idempotent -/

theorem remove_plain_ofStore (K : String) (hK : IsPlainKey K) (m : List (String × QVariant)) :
    (QSettings.ofStore m).remove K = QSettings.ofStore (QSettings.withoutKey K m) := by
  have h := clear_ofStore "" K isGroupPath_empty hK m
  rw [empty_append] at h
  exact h

theorem contains_plain_ofStore (K : String) (hK : IsPlainKey K) (m : List (String × QVariant)) :
    (QSettings.ofStore m).contains K = (m.lookup K).isSome := by
  have h := contains_ofStore "" K isGroupPath_empty hK m
  rw [empty_append] at h
  exact h

theorem value_plain_ofStore (K : String) (hK : IsPlainKey K) (d : QVariant)
    (m : List (String × QVariant)) :
    (QSettings.ofStore m).value K d = (m.lookup K).getD d := by
  unfold QSettings.value
  rw [if_neg (string_ne_empty_of_data hK.1), actualKey_ofStore, normalizedKey_plain K hK]
  rfl

theorem lookup_withoutKey (theKey k : String) (m : List (String × QVariant)) :
    (QSettings.withoutKey theKey m).lookup k
      = if QSettings.isKeyOrSubKey theKey k then none else m.lookup k := by
  unfold QSettings.withoutKey
  rw [lookup_filter_key (fun x => !QSettings.isKeyOrSubKey theKey x)]
  cases QSettings.isKeyOrSubKey theKey k <;> rfl

theorem lookup_withoutKey_none (theKey k : String) (m : List (String × QVariant))
    (h : m.lookup k = none) : (QSettings.withoutKey theKey m).lookup k = none := by
  rw [lookup_withoutKey]
  split_ifs
  · rfl
  · exact h

/-- The setter of an `AppData` property on a store without open group. -/
theorem app_set_ofStore (env : BuildEnv) (a : AppData) (m : List (String × QVariant))
    (ha : a.m_settings = QSettings.ofStore m) (f : AppField) (V : f.type.T) :
    ∃ m2, a.set env f V true
        = { a with value := Function.update a.value f V, m_settings := QSettings.ofStore m2 }
      ∧ m2.lookup f.key = (if V = f.dflt env then none else some (QVariant.fromValue f.type V))
      ∧ ∀ k : String, QSettings.isKeyOrSubKey f.key k = false → m2.lookup k = m.lookup k := by
  have hK := app_key_plain f
  by_cases hV : V = f.dflt env
  · subst hV
    refine ⟨QSettings.withoutKey f.key m, ?_, ?_, ?_⟩
    · have h := setter_default "" f.key isGroupPath_empty hK f.type (f.dflt env) m
      rw [empty_append] at h
      simp only [AppData.set, AppData.settingsPath, ha, h]
      rfl
    · rw [if_pos rfl, lookup_withoutKey, isKeyOrSubKey_self]
      rfl
    · intro k hk
      rw [lookup_withoutKey, hk]
      rfl
  · refine ⟨QSettings.insert f.key (QVariant.fromValue f.type V) m, ?_, ?_, ?_⟩
    · have h := setter_other "" f.key isGroupPath_empty hK f.type (f.dflt env) V hV m
      rw [empty_append] at h
      simp only [AppData.set, AppData.settingsPath, ha, h]
    · rw [if_neg hV, lookup_insert_self]
    · intro k hk
      apply lookup_insert_ne
      intro e
      subst e
      rw [isKeyOrSubKey_self] at hk
      exact Bool.noConfusion hk

theorem isPlainKey_useWizard : IsPlainKey "useWizard" := ⟨by decide, by decide⟩

theorem isPlainKey_newModelAction : IsPlainKey "newModelAction" := ⟨by decide, by decide⟩

theorem isPlainKey_warningId : IsPlainKey "warningId" := ⟨by decide, by decide⟩

/-- The first statement leaves a store without "useWizard". -/
theorem convertUseWizard_ofStore (env : BuildEnv) (a : AppData) (m : List (String × QVariant))
    (ha : a.m_settings = QSettings.ofStore m) :
    ∃ v m2, AppData.convertUseWizard env a = { a with value := v, m_settings := QSettings.ofStore m2 }
      ∧ m2.lookup "useWizard" = none := by
  unfold AppData.convertUseWizard
  rw [ha, contains_plain_ofStore _ isPlainKey_useWizard,
    contains_plain_ofStore _ isPlainKey_newModelAction]
  cases hw : (m.lookup "useWizard").isSome with
  | false =>
    refine ⟨a.value, m, ?_, ?_⟩
    · simp only [Bool.false_eq_true, if_false]
      rw [← ha]
    · cases hl : m.lookup "useWizard" with
      | none => rfl
      | some x => rw [hl] at hw; exact Bool.noConfusion hw
  | true =>
    cases hn : (m.lookup "newModelAction").isSome with
    | true =>
      refine ⟨a.value, QSettings.withoutKey "useWizard" m, ?_, ?_⟩
      · simp [ha, remove_plain_ofStore _ isPlainKey_useWizard]
      · rw [lookup_withoutKey, isKeyOrSubKey_self]
        rfl
    | false =>
      obtain ⟨m1, h1, _, _⟩ := app_set_ofStore env a m ha .newModelAction
        (if ((QSettings.ofStore m).value "useWizard" .invalid).toBool then (1 : Nat) else 2)
      refine ⟨Function.update a.value .newModelAction
        (if ((QSettings.ofStore m).value "useWizard" .invalid).toBool then (1 : Nat) else 2),
        QSettings.withoutKey "useWizard" m1, ?_, ?_⟩
      · simp only [Bool.not_false, if_true]
        rw [h1]
        simp only [remove_plain_ofStore _ isPlainKey_useWizard]
      · rw [lookup_withoutKey, isKeyOrSubKey_self]
        rfl

/-- Once "useWizard" is gone the first statement does nothing. -/
theorem convertUseWizard_fixed (env : BuildEnv) (a : AppData) (m : List (String × QVariant))
    (ha : a.m_settings = QSettings.ofStore m) (h : m.lookup "useWizard" = none) :
    AppData.convertUseWizard env a = a := by
  unfold AppData.convertUseWizard
  rw [ha, contains_plain_ofStore _ isPlainKey_useWizard, h]
  simp

/-- The second statement leaves a store in which "warningId" is not 7, and brings back no
key. -/
theorem convertWarningId_ofStore (env : BuildEnv) (a : AppData) (m : List (String × QVariant))
    (ha : a.m_settings = QSettings.ofStore m) :
    ∃ v m2, AppData.convertWarningId env a = { a with value := v, m_settings := QSettings.ofStore m2 }
      ∧ (∀ k : String, m.lookup k = none → m2.lookup k = none)
      ∧ ¬ ((m2.lookup "warningId").isSome = true
            ∧ ((m2.lookup "warningId").getD .invalid).toInt = 7) := by
  unfold AppData.convertWarningId
  rw [ha, contains_plain_ofStore _ isPlainKey_warningId,
    value_plain_ofStore _ isPlainKey_warningId]
  by_cases hc : (m.lookup "warningId").isSome = true
      ∧ ((m.lookup "warningId").getD .invalid).toInt = 7
  · rw [if_pos hc]
    obtain ⟨m1, h1, h2, h3⟩ := app_set_ofStore env a m ha .warningId (AppField.dflt env .warningId)
    refine ⟨_, m1, h1, ?_, ?_⟩
    · intro k hk
      by_cases hs : QSettings.isKeyOrSubKey (AppField.key .warningId) k = true
      · have hh := setter_default "" (AppField.key .warningId) isGroupPath_empty
          (app_key_plain .warningId) (AppField.type .warningId) (AppField.dflt env .warningId) m
        rw [empty_append] at hh
        have e1 : a.set env .warningId (AppField.dflt env .warningId) true
            = { a with value := Function.update a.value .warningId (AppField.dflt env .warningId),
                       m_settings := QSettings.ofStore
                        (QSettings.withoutKey (AppField.key .warningId) m) } := by
          simp only [AppData.set, AppData.settingsPath, ha, hh]
          rfl
        have e2 : QSettings.ofStore m1
            = QSettings.ofStore (QSettings.withoutKey (AppField.key .warningId) m) := by
          have := congrArg AppData.m_settings (h1.symm.trans e1)
          exact this
        have e3 : m1 = QSettings.withoutKey (AppField.key .warningId) m :=
          congrArg QSettings.map e2
        rw [e3]
        exact lookup_withoutKey_none _ _ _ hk
      · have hs2 : QSettings.isKeyOrSubKey (AppField.key .warningId) k = false := by
          cases hb : QSettings.isKeyOrSubKey (AppField.key .warningId) k with
          | false => rfl
          | true => exact absurd hb hs
        rw [h3 k hs2]
        exact hk
    · intro hcon
      have hk : AppField.key .warningId = "warningId" := rfl
      rw [hk, if_pos rfl] at h2
      rw [h2] at hcon
      exact Bool.noConfusion hcon.1
  · rw [if_neg hc]
    refine ⟨a.value, m, ?_, fun _ h => h, hc⟩
    rw [← ha]

/-- When "warningId" is not 7 the second statement does nothing. -/
theorem convertWarningId_fixed (env : BuildEnv) (a : AppData) (m : List (String × QVariant))
    (ha : a.m_settings = QSettings.ofStore m)
    (h : ¬ ((m.lookup "warningId").isSome = true
            ∧ ((m.lookup "warningId").getD .invalid).toInt = 7)) :
    AppData.convertWarningId env a = a := by
  unfold AppData.convertWarningId
  rw [ha, contains_plain_ofStore _ isPlainKey_warningId,
    value_plain_ofStore _ isPlainKey_warningId, if_neg h]

theorem deprecated_keys_plain : ∀ key ∈ AppData.deprecatedSettings, IsPlainKey key := by
  intro key hk
  simp only [AppData.deprecatedSettings, List.mem_cons, List.mem_singleton, List.not_mem_nil,
    or_false] at hk
  rcases hk with h | h | h | h | h <;> subst h <;> exact ⟨by decide, by decide⟩

/-- Removing a list of plain keys, one `remove` after the other. -/
theorem removeKeys_ofStore (keys : List String) (hk : ∀ key ∈ keys, IsPlainKey key) :
    ∀ (a : AppData) (m : List (String × QVariant)), a.m_settings = QSettings.ofStore m →
    keys.foldl (fun b key => ({ b with m_settings := b.m_settings.remove key } : AppData)) a
      = { a with m_settings :=
            QSettings.ofStore (keys.foldl (fun mm key => QSettings.withoutKey key mm) m) } := by
  induction keys with
  | nil =>
    intro a m ha
    simp only [List.foldl_nil]
    rw [← ha]
  | cons key rest ih =>
    intro a m ha
    have hrest : ∀ k ∈ rest, IsPlainKey k := fun k h => hk k (List.mem_cons_of_mem _ h)
    rw [List.foldl_cons, List.foldl_cons,
      ih hrest { a with m_settings := a.m_settings.remove key } (QSettings.withoutKey key m)
        (by rw [ha]; exact remove_plain_ofStore key (hk key (by simp)) m)]

theorem lookup_removeKeys_none (keys : List String) (k : String) :
    ∀ m : List (String × QVariant), m.lookup k = none →
    (keys.foldl (fun mm key => QSettings.withoutKey key mm) m).lookup k = none := by
  induction keys with
  | nil => intro m h; exact h
  | cons key rest ih =>
    intro m h
    rw [List.foldl_cons]
    exact ih _ (lookup_withoutKey_none key k m h)

theorem lookup_removeKeys_other (keys : List String) (k : String)
    (hk : ∀ key ∈ keys, QSettings.isKeyOrSubKey key k = false) :
    ∀ m : List (String × QVariant),
    (keys.foldl (fun mm key => QSettings.withoutKey key mm) m).lookup k = m.lookup k := by
  induction keys with
  | nil => intro m; rfl
  | cons key rest ih =>
    intro m
    rw [List.foldl_cons, ih (fun x hx => hk x (List.mem_cons_of_mem _ hx)), lookup_withoutKey,
      hk key (by simp)]
    rfl

theorem mem_removeKeys (keys : List String) (e : String × QVariant) :
    ∀ m : List (String × QVariant),
    e ∈ keys.foldl (fun mm key => QSettings.withoutKey key mm) m →
    ∀ key ∈ keys, QSettings.isKeyOrSubKey key e.1 = false := by
  induction keys with
  | nil => intro m _ key hkey; exact absurd hkey (List.not_mem_nil _)
  | cons k0 rest ih =>
    intro m he key hkey
    rw [List.foldl_cons] at he
    rcases List.mem_cons.mp hkey with h | h
    · subst h
      have hsub : ∀ (ks : List String) (mm : List (String × QVariant)),
          e ∈ ks.foldl (fun mm key => QSettings.withoutKey key mm) mm → e ∈ mm := by
        intro ks
        induction ks with
        | nil => intro mm h; exact h
        | cons k1 r1 ih1 =>
          intro mm h
          rw [List.foldl_cons] at h
          have := ih1 _ h
          exact (List.mem_filter.mp this).1
      have h1 := hsub rest _ he
      have h2 := (List.mem_filter.mp h1).2
      simpa using h2
    · exact ih _ he key h

theorem removeKeys_fixed (keys : List String) : ∀ m : List (String × QVariant),
    (∀ key ∈ keys, QSettings.withoutKey key m = m) →
    keys.foldl (fun mm key => QSettings.withoutKey key mm) m = m := by
  induction keys with
  | nil => intro m _; rfl
  | cons key rest ih =>
    intro m h
    rw [List.foldl_cons, h key (by simp)]
    exact ih m (fun x hx => h x (List.mem_cons_of_mem _ hx))

theorem removeKeys_idem (keys : List String) (m : List (String × QVariant)) :
    keys.foldl (fun mm key => QSettings.withoutKey key mm)
        (keys.foldl (fun mm key => QSettings.withoutKey key mm) m)
      = keys.foldl (fun mm key => QSettings.withoutKey key mm) m := by
  apply removeKeys_fixed
  intro key hkey
  unfold QSettings.withoutKey
  rw [List.filter_eq_self]
  intro e he
  have := mem_removeKeys keys e m he key hkey
  simp [this]

/-- C10.  For every in-memory state and every content `m` of the store, running
`convertSettings` twice in a row gives the same object, with the same store and the same
in-memory `newModelAction` and `warningId`, as running it once. -/
theorem convertSettings_idempotent (env : BuildEnv) (g : AppData)
    (m : List (String × QVariant)) :
    AppData.convertSettings env
        (AppData.convertSettings env { g with m_settings := QSettings.ofStore m })
      = AppData.convertSettings env { g with m_settings := QSettings.ofStore m } := by
  obtain ⟨v1, m1, e1, p1⟩ :=
    convertUseWizard_ofStore env { g with m_settings := QSettings.ofStore m } m rfl
  obtain ⟨v2, m2, e2, p2, q2⟩ := convertWarningId_ofStore env
    { g with value := v1, m_settings := QSettings.ofStore m1 } m1 rfl
  obtain ⟨m3, hm3⟩ : ∃ m3, m3
      = AppData.deprecatedSettings.foldl (fun mm key => QSettings.withoutKey key mm) m2 :=
    ⟨_, rfl⟩
  have e3 := removeKeys_ofStore AppData.deprecatedSettings deprecated_keys_plain
    { g with value := v2, m_settings := QSettings.ofStore m2 } m2 rfl
  rw [← hm3] at e3
  have hrun : AppData.convertSettings env { g with m_settings := QSettings.ofStore m }
      = { g with value := v2, m_settings := QSettings.ofStore m3 } := by
    unfold AppData.convertSettings AppData.removeDeprecated
    rw [e1]
    rw [e2]
    exact e3
  rw [hrun]
  have hw : m3.lookup "useWizard" = none := by
    rw [hm3]
    exact lookup_removeKeys_none _ _ _ (p2 _ p1)
  have hid : m3.lookup "warningId" = m2.lookup "warningId" := by
    rw [hm3]
    apply lookup_removeKeys_other
    decide
  have hfix : AppData.deprecatedSettings.foldl (fun mm key => QSettings.withoutKey key mm) m3
      = m3 := by
    rw [hm3]
    exact removeKeys_idem _ _
  unfold AppData.convertSettings AppData.removeDeprecated
  rw [convertUseWizard_fixed env _ m3 rfl hw,
    convertWarningId_fixed env _ m3 rfl (by rw [hid]; exact q2),
    removeKeys_ofStore AppData.deprecatedSettings deprecated_keys_plain _ m3 rfl, hfix]

/-! ## C11: what `convertSettings` leaves in the store -/

theorem isSome_false_iff_none {α : Type} (o : Option α) : o.isSome = false ↔ o = none := by
  cases o <;> simp

/-- The first statement of `convertSettings`: "useWizard" is gone, "newModelAction" is
translated from it when it was absent, and no other key changes. -/
theorem convertUseWizard_spec (env : BuildEnv) (a : AppData) (m : List (String × QVariant))
    (ha : a.m_settings = QSettings.ofStore m) :
    ∃ v m1, AppData.convertUseWizard env a
        = { a with value := v, m_settings := QSettings.ofStore m1 }
      ∧ m1.lookup "useWizard" = none
      ∧ m1.lookup "newModelAction"
          = (if (m.lookup "useWizard").isSome = true ∧ m.lookup "newModelAction" = none then
              (if ((m.lookup "useWizard").getD .invalid).toBool then none
               else some (QVariant.uint 2))
             else m.lookup "newModelAction")
      ∧ (∀ k : String, QSettings.isKeyOrSubKey "useWizard" k = false →
          QSettings.isKeyOrSubKey "newModelAction" k = false → m1.lookup k = m.lookup k) := by
  unfold AppData.convertUseWizard
  rw [ha, contains_plain_ofStore _ isPlainKey_useWizard,
    contains_plain_ofStore _ isPlainKey_newModelAction,
    value_plain_ofStore _ isPlainKey_useWizard]
  have hun : QSettings.isKeyOrSubKey "useWizard" "newModelAction" = false := by decide
  cases hw : (m.lookup "useWizard").isSome with
  | false =>
    refine ⟨a.value, m, ?_, (isSome_false_iff_none _).mp hw, ?_, fun _ _ _ => rfl⟩
    · simp only [Bool.false_eq_true, if_false]
      rw [← ha]
    · simp
  | true =>
    cases hn : (m.lookup "newModelAction").isSome with
    | true =>
      have hn2 : m.lookup "newModelAction" ≠ none := by
        intro e
        rw [e] at hn
        exact Bool.noConfusion hn
      refine ⟨a.value, QSettings.withoutKey "useWizard" m, ?_, ?_, ?_, ?_⟩
      · simp [ha, remove_plain_ofStore _ isPlainKey_useWizard]
      · rw [lookup_withoutKey, isKeyOrSubKey_self]
        rfl
      · rw [lookup_withoutKey, hun]
        simp [hn2]
      · intro k hk _
        rw [lookup_withoutKey, hk]
        rfl
    | false =>
      have hn2 : m.lookup "newModelAction" = none := (isSome_false_iff_none _).mp hn
      obtain ⟨m1, h1, h2, h3⟩ := app_set_ofStore env a m ha .newModelAction
        (if ((m.lookup "useWizard").getD .invalid).toBool then (1 : Nat) else 2)
      refine ⟨Function.update a.value .newModelAction
        (if ((m.lookup "useWizard").getD .invalid).toBool then (1 : Nat) else 2),
        QSettings.withoutKey "useWizard" m1, ?_, ?_, ?_, ?_⟩
      · simp only [Bool.not_false, if_true]
        rw [h1]
        simp only [remove_plain_ofStore _ isPlainKey_useWizard]
      · rw [lookup_withoutKey, isKeyOrSubKey_self]
        rfl
      · have hk : AppField.key .newModelAction = "newModelAction" := rfl
        have hd : AppField.dflt env .newModelAction = (1 : Nat) := rfl
        rw [lookup_withoutKey, hun, ← hk]
        simp only [Bool.false_eq_true, if_false]
        rw [h2, hd, hk]
        cases ((m.lookup "useWizard").getD .invalid).toBool <;> simp [hn2, QVariant.fromValue]
      · intro k hk1 hk2
        rw [lookup_withoutKey, hk1]
        exact h3 k hk2

/-- The second statement of `convertSettings`: no key comes back and only "warningId" and
its sub-keys can change. -/
theorem convertWarningId_spec (env : BuildEnv) (a : AppData) (m : List (String × QVariant))
    (ha : a.m_settings = QSettings.ofStore m) :
    ∃ v m2, AppData.convertWarningId env a
        = { a with value := v, m_settings := QSettings.ofStore m2 }
      ∧ (∀ k : String, m.lookup k = none → m2.lookup k = none)
      ∧ (∀ k : String, QSettings.isKeyOrSubKey "warningId" k = false →
          m2.lookup k = m.lookup k) := by
  unfold AppData.convertWarningId
  rw [ha, contains_plain_ofStore _ isPlainKey_warningId,
    value_plain_ofStore _ isPlainKey_warningId]
  by_cases hc : (m.lookup "warningId").isSome = true
      ∧ ((m.lookup "warningId").getD .invalid).toInt = 7
  · rw [if_pos hc]
    have hK := app_key_plain .warningId
    have hh := setter_default "" (AppField.key .warningId) isGroupPath_empty hK
      (AppField.type .warningId) (AppField.dflt env .warningId) m
    rw [empty_append] at hh
    refine ⟨Function.update a.value .warningId (AppField.dflt env .warningId),
      QSettings.withoutKey "warningId" m, ?_, ?_, ?_⟩
    · simp only [AppData.fieldReset, AppData.set, AppData.settingsPath, ha, hh]
      rfl
    · intro k hk
      exact lookup_withoutKey_none _ _ _ hk
    · intro k hk
      rw [lookup_withoutKey, hk]
      rfl
  · rw [if_neg hc]
    refine ⟨a.value, m, ?_, fun _ h => h, fun _ _ => rfl⟩
    rw [← ha]

theorem lookup_removeKeys_removed (keys : List String) (key : String) (hkey : key ∈ keys) :
    ∀ m : List (String × QVariant),
    (keys.foldl (fun mm k => QSettings.withoutKey k mm) m).lookup key = none := by
  induction keys with
  | nil => exact absurd hkey (List.not_mem_nil _)
  | cons k0 rest ih =>
    intro m
    rw [List.foldl_cons]
    rcases List.mem_cons.mp hkey with h | h
    · subst h
      apply lookup_removeKeys_none
      rw [lookup_withoutKey, isKeyOrSubKey_self]
      rfl
    · exact ih h _

/-- The whole of `convertSettings` on a store with content `m`. -/
theorem convertSettings_spec (env : BuildEnv) (a : AppData) (m : List (String × QVariant))
    (ha : a.m_settings = QSettings.ofStore m) :
    ∃ v m3, AppData.convertSettings env a
        = { a with value := v, m_settings := QSettings.ofStore m3 }
      ∧ (∀ key ∈ AppData.deprecatedSettings, m3.lookup key = none)
      ∧ m3.lookup "useWizard" = none
      ∧ m3.lookup "newModelAction"
          = (if (m.lookup "useWizard").isSome = true ∧ m.lookup "newModelAction" = none then
              (if ((m.lookup "useWizard").getD .invalid).toBool then none
               else some (QVariant.uint 2))
             else m.lookup "newModelAction")
      ∧ (∀ k : String,
          (∀ X ∈ ["useWizard", "newModelAction", "warningId"] ++ AppData.deprecatedSettings,
            QSettings.isKeyOrSubKey X k = false) → m3.lookup k = m.lookup k) := by
  obtain ⟨v1, m1, e1, p1, q1, f1⟩ := convertUseWizard_spec env a m ha
  obtain ⟨v2, m2, e2, p2, f2⟩ := convertWarningId_spec env
    { a with value := v1, m_settings := QSettings.ofStore m1 } m1 rfl
  have e3 := removeKeys_ofStore AppData.deprecatedSettings deprecated_keys_plain
    { a with value := v2, m_settings := QSettings.ofStore m2 } m2 rfl
  refine ⟨v2, AppData.deprecatedSettings.foldl (fun mm key => QSettings.withoutKey key mm) m2,
    ?_, ?_, ?_, ?_, ?_⟩
  · unfold AppData.convertSettings AppData.removeDeprecated
    rw [e1, e2]
    exact e3
  · intro key hkey
    exact lookup_removeKeys_removed _ key hkey m2
  · exact lookup_removeKeys_none _ _ _ (p2 _ p1)
  · rw [lookup_removeKeys_other _ _ (by decide), f2 _ (by decide), q1]
  · intro k hk
    rw [lookup_removeKeys_other _ _ (fun X hX => hk X (List.mem_append_right _ hX)),
      f2 k (hk _ (by simp)), f1 k (hk _ (by simp)) (hk _ (by simp))]

/-- C11.  For every in-memory state and every content `m` of the store, after
`convertSettings`: none of the keys of `deprecatedSettings()` and not "useWizard" is present;
if "useWizard" was present and "newModelAction" absent, the effective "newModelAction"
(stored value, or the default 1 when the key is absent) is 1 when "useWizard" read as true
and 2 when it read as false; and a "newModelAction" that was present keeps its stored
value. -/
theorem convertSettings_result (env : BuildEnv) (g : AppData) (m : List (String × QVariant)) :
    let g1 := AppData.convertSettings env { g with m_settings := QSettings.ofStore m }
    (∀ key ∈ AppData.deprecatedSettings, g1.m_settings.contains key = false)
    ∧ g1.m_settings.contains "useWizard" = false
    ∧ ((m.lookup "useWizard").isSome = true → m.lookup "newModelAction" = none →
        g1.m_settings.value "newModelAction"
            (QVariant.fromValue .uint (AppField.dflt env .newModelAction))
          = QVariant.uint (if ((m.lookup "useWizard").getD .invalid).toBool then 1 else 2))
    ∧ (∀ v : QVariant, m.lookup "newModelAction" = some v →
        g1.m_settings.map.lookup "newModelAction" = some v) := by
  obtain ⟨v, m3, e, hdep, hwiz, hnma, _⟩ :=
    convertSettings_spec env { g with m_settings := QSettings.ofStore m } m rfl
  simp only [e]
  refine ⟨?_, ?_, ?_, ?_⟩
  · intro key hkey
    rw [contains_plain_ofStore _ (deprecated_keys_plain key hkey), hdep key hkey]
    rfl
  · rw [contains_plain_ofStore _ isPlainKey_useWizard, hwiz]
    rfl
  · intro h1 h2
    rw [value_plain_ofStore _ isPlainKey_newModelAction, hnma, if_pos ⟨h1, h2⟩]
    cases ((m.lookup "useWizard").getD .invalid).toBool <;> rfl
  · intro v0 hv
    show m3.lookup "newModelAction" = some v0
    rw [hnma, hv]
    simp

/-- Witness of C11: a store that holds "useWizard" = false and no "newModelAction". -/
theorem convertSettings_result_witness :
    (AppData.convertSettings ⟨0, ""⟩
        { AppData.ctor [] with
          m_settings := QSettings.ofStore [("useWizard", .bool false)] }).m_settings.value
        "newModelAction"
        (QVariant.fromValue .uint (AppField.dflt ⟨0, ""⟩ .newModelAction))
      = QVariant.uint
          (if ((List.lookup "useWizard" [("useWizard", QVariant.bool false)]).getD
            .invalid).toBool then 1 else 2) :=
  (convertSettings_result ⟨0, ""⟩ (AppData.ctor []) [("useWizard", .bool false)]).2.2.1
    (by decide) (by decide)

/-! ## C12, C13, C14: `importSettings` -/

theorem setValue_stored_ofStore (k : String) (hk : IsStoredKey k) (v : QVariant)
    (m : List (String × QVariant)) :
    (QSettings.ofStore m).setValue k v = QSettings.ofStore (QSettings.insert k v m) := by
  unfold QSettings.setValue
  rw [if_neg hk.1, actualKey_ofStore, hk.2]
  rfl

theorem value_stored_ofStore (k : String) (hk : IsStoredKey k) (d : QVariant)
    (m : List (String × QVariant)) :
    (QSettings.ofStore m).value k d = (m.lookup k).getD d := by
  unfold QSettings.value
  rw [if_neg hk.1, actualKey_ofStore, hk.2]
  rfl

theorem lookup_isSome_iff_mem_keys (k : String) (m : List (String × QVariant)) :
    (m.lookup k).isSome = true ↔ k ∈ m.map Prod.fst := by
  induction m with
  | nil => simp [List.lookup]
  | cons e rest ih =>
    obtain ⟨ek, ev⟩ := e
    by_cases h : k = ek
    · subst h
      simp [List.lookup]
    · have h2 : (k == ek) = false := by simpa using h
      simp [List.lookup, h2, ih, h]

theorem mem_allKeys_iff (k : String) (m : List (String × QVariant)) :
    k ∈ (QSettings.ofStore m).allKeys ↔ (m.lookup k).isSome = true := by
  unfold QSettings.allKeys
  rw [List.mem_dedup, lookup_isSome_iff_mem_keys]
  rfl

/-- The copying loop of `importSettings` over a list `ks` of stored keys. -/
theorem import_loop (src : List (String × QVariant)) (ex : List String) (ks : List String)
    (hks : ∀ k ∈ ks, IsStoredKey k) : ∀ m : List (String × QVariant),
    ∃ m2, ks.foldl
        (fun s key =>
          if ((QSettings.ofStore src).value key .invalid).isValid ∧ key ∉ ex then
            s.setValue key ((QSettings.ofStore src).value key .invalid)
          else s)
        (QSettings.ofStore m) = QSettings.ofStore m2
      ∧ ∀ k : String, m2.lookup k
          = if k ∈ ks ∧ ((src.lookup k).getD .invalid).isValid = true ∧ k ∉ ex then
              some ((src.lookup k).getD .invalid)
            else m.lookup k := by
  induction ks with
  | nil =>
    intro m
    exact ⟨m, rfl, fun k => by simp⟩
  | cons key rest ih =>
    intro m
    have hkey : IsStoredKey key := hks key (by simp)
    have hrest : ∀ k ∈ rest, IsStoredKey k := fun k h => hks k (List.mem_cons_of_mem _ h)
    rw [List.foldl_cons, value_stored_ofStore key hkey]
    by_cases hc : ((src.lookup key).getD .invalid).isValid = true ∧ key ∉ ex
    · rw [if_pos hc, setValue_stored_ofStore key hkey]
      obtain ⟨m2, e2, l2⟩ := ih hrest (QSettings.insert key ((src.lookup key).getD .invalid) m)
      refine ⟨m2, e2, ?_⟩
      intro k
      rw [l2 k]
      by_cases hk : k = key
      · subst hk
        simp [hc.1, hc.2, lookup_insert_self]
      · simp [hk, lookup_insert_ne _ _ _ _ hk]
    · rw [if_neg hc]
      obtain ⟨m2, e2, l2⟩ := ih hrest m
      refine ⟨m2, e2, ?_⟩
      intro k
      rw [l2 k]
      by_cases hk : k = key
      · subst hk
        by_cases hr : k ∈ rest
        · simp [hr]
        · have hc2 : ¬ (((src.lookup k).getD .invalid).isValid = true ∧ k ∉ ex) := hc
          simp only [hr, false_and, if_false, List.mem_cons, true_or, true_and]
          rw [if_neg hc2]
      · simp [hk]

theorem importSource_cases (L : String) (h : L = "2.1" ∨ L = "2.0" ∨ L = "1.x") :
    ∃ c p, AppData.importSource L = some (c, p) := by
  rcases h with h | h | h <;> subst h
  · exact ⟨_, _, rfl⟩
  · exact ⟨_, _, rfl⟩
  · exact ⟨_, _, rfl⟩

/-- What `importSettings` does for a known version label, when the keys of the store it
reads are stored keys: the entry of `k` afterwards is the valid value the source holds for
`k` if `k` is not excluded, and the entry it had before otherwise. -/
theorem importSettings_spec (WIN32 : Bool) (L : String) (files : SettingsFiles) (g : AppData)
    (m : List (String × QVariant)) (hL : L = "2.1" ∨ L = "2.0" ∨ L = "1.x")
    (hsrc : ∀ e ∈ AppData.importedStore L files, IsStoredKey e.1) :
    (AppData.importSettings WIN32 L files { g with m_settings := QSettings.ofStore m }).1 = true
    ∧ (AppData.importSettings WIN32 L files
        { g with m_settings := QSettings.ofStore m }).2.previousVersion = L
    ∧ ∀ k : String,
        (AppData.importSettings WIN32 L files
          { g with m_settings := QSettings.ofStore m }).2.m_settings.map.lookup k
        = if (((AppData.importedStore L files).lookup k).isSome = true
              ∧ (((AppData.importedStore L files).lookup k).getD .invalid).isValid = true
              ∧ k ∉ AppData.excludeKeys WIN32) then
            some (((AppData.importedStore L files).lookup k).getD .invalid)
          else m.lookup k := by
  obtain ⟨c, p, hcp⟩ := importSource_cases L hL
  have hst : AppData.importedStore L files = files c p := by
    unfold AppData.importedStore
    rw [hcp]
  rw [hst] at hsrc ⊢
  have hks : ∀ k ∈ (QSettings.ofStore (files c p)).allKeys, IsStoredKey k := by
    intro k hk
    rw [mem_allKeys_iff, lookup_isSome_iff_mem_keys] at hk
    obtain ⟨e, he, hek⟩ := List.mem_map.mp hk
    rw [← hek]
    exact hsrc e he
  obtain ⟨m2, e2, l2⟩ := import_loop (files c p) (AppData.excludeKeys WIN32)
    (QSettings.ofStore (files c p)).allKeys hks m
  simp only [AppData.importSettings, hcp, e2, AppData.previousVersion]
  refine ⟨trivial, trivial, ?_⟩
  intro k
  show m2.lookup k = _
  rw [l2 k]
  by_cases hk : k ∈ (QSettings.ofStore (files c p)).allKeys
  · have hk2 := (mem_allKeys_iff k (files c p)).mp hk
    simp only [hk, hk2, true_and]
  · have hk2 : ¬ ((files c p).lookup k).isSome = true := fun h =>
      hk ((mem_allKeys_iff k (files c p)).mpr h)
    simp [hk, hk2]

theorem deprecated_excluded (WIN32 : Bool) (d : String) (hd : d ∈ AppData.deprecatedSettings) :
    d ∈ AppData.excludeKeys WIN32 := by
  unfold AppData.excludeKeys
  cases WIN32
  · exact List.mem_append_left _ hd
  · simp only [if_true]
    exact List.mem_append_left _ (List.mem_append_left _ (List.mem_append_left _ hd))

/-- C12 fails as stated: the import removes nothing from the destination.  With a prior store
holding the deprecated key "avrdude_location" and the valid key "mcu", and a destination that
already holds "avrdude_location", the destination still holds "avrdude_location" (with its
old value) after `importSettings("2.1")`. -/
theorem import_keeps_deprecated_key_of_destination :
    (AppData.importSettings false "2.1"
        (fun _ _ => [("avrdude_location", .qString "x"), ("mcu", .qString "m128")])
        (AppData.ctor [("avrdude_location", .qString "old")])).1 = true
    ∧ (AppData.importSettings false "2.1"
        (fun _ _ => [("avrdude_location", .qString "x"), ("mcu", .qString "m128")])
        (AppData.ctor [("avrdude_location", .qString "old")])).2.m_settings.contains
          "avrdude_location" = true
    ∧ (AppData.importSettings false "2.1"
        (fun _ _ => [("avrdude_location", .qString "x"), ("mcu", .qString "m128")])
        (AppData.ctor [("avrdude_location", .qString "old")])).2.m_settings.map
        = [("avrdude_location", .qString "old"), ("mcu", .qString "m128")] := by
  decide

/-- C12 as amended.  For a known version label whose prior store (with stored keys) holds a
deprecated key `d` and a key `k` with a valid value `v` that is not excluded, and for every
content `m` of the destination: after `importSettings` the destination holds `v` under `k`,
and the deprecated key is not imported: the destination has under `d` what it had before
(nothing, if `d` was absent before). -/
theorem import_valid_key_not_deprecated (WIN32 : Bool) (L : String) (files : SettingsFiles)
    (g : AppData) (m : List (String × QVariant)) (hL : L = "2.1" ∨ L = "2.0" ∨ L = "1.x")
    (hsrc : ∀ e ∈ AppData.importedStore L files, IsStoredKey e.1)
    (d k : String) (v : QVariant) (hd : d ∈ AppData.deprecatedSettings)
    (_hds : ((AppData.importedStore L files).lookup d).isSome = true)
    (hk : (AppData.importedStore L files).lookup k = some v) (hv : v.isValid = true)
    (hke : k ∉ AppData.excludeKeys WIN32) :
    (AppData.importSettings WIN32 L files
        { g with m_settings := QSettings.ofStore m }).2.m_settings.map.lookup k = some v
    ∧ (AppData.importSettings WIN32 L files
        { g with m_settings := QSettings.ofStore m }).2.m_settings.map.lookup d = m.lookup d
    ∧ (m.lookup d = none →
        (AppData.importSettings WIN32 L files
          { g with m_settings := QSettings.ofStore m }).2.m_settings.contains d = false) := by
  obtain ⟨_, _, h⟩ := importSettings_spec WIN32 L files g m hL hsrc
  have hdl : (AppData.importSettings WIN32 L files
      { g with m_settings := QSettings.ofStore m }).2.m_settings.map.lookup d = m.lookup d := by
    rw [h d]
    have := deprecated_excluded WIN32 d hd
    simp [this]
  refine ⟨?_, hdl, ?_⟩
  · rw [h k, hk]
    simp [hv, hke]
  · intro hm
    have hg : (AppData.importSettings WIN32 L files
        { g with m_settings := QSettings.ofStore m }).2.m_settings
        = QSettings.ofStore (AppData.importSettings WIN32 L files
            { g with m_settings := QSettings.ofStore m }).2.m_settings.map := by
      obtain ⟨c, p, hcp⟩ := importSource_cases L hL
      have hks : ∀ k ∈ (QSettings.ofStore (files c p)).allKeys, IsStoredKey k := by
        intro k hk
        rw [mem_allKeys_iff, lookup_isSome_iff_mem_keys] at hk
        obtain ⟨e, he, hek⟩ := List.mem_map.mp hk
        rw [← hek]
        apply hsrc e
        unfold AppData.importedStore
        rw [hcp]
        exact he
      obtain ⟨m2, e2, _⟩ := import_loop (files c p) (AppData.excludeKeys WIN32)
        (QSettings.ofStore (files c p)).allKeys hks m
      simp only [AppData.importSettings, hcp, e2]
      rfl
    rw [hg, contains_plain_ofStore _ (deprecated_keys_plain d hd), hdl, hm]
    rfl

/-- Witness of C12 as amended: the prior store of version 2.1 holds "avrdude_location" and
"mcu", the destination is empty. -/
theorem import_valid_key_not_deprecated_witness :
    (AppData.importSettings false "2.1"
        (fun _ _ => [("avrdude_location", .qString "x"), ("mcu", .qString "m128")])
        { AppData.ctor [] with m_settings := QSettings.ofStore [] }).2.m_settings.map.lookup
          "mcu" = some (QVariant.qString "m128")
    ∧ (AppData.importSettings false "2.1"
        (fun _ _ => [("avrdude_location", .qString "x"), ("mcu", .qString "m128")])
        { AppData.ctor [] with m_settings := QSettings.ofStore [] }).2.m_settings.map.lookup
          "avrdude_location" = List.lookup "avrdude_location" []
    ∧ (List.lookup "avrdude_location" ([] : List (String × QVariant)) = none →
        (AppData.importSettings false "2.1"
          (fun _ _ => [("avrdude_location", .qString "x"), ("mcu", .qString "m128")])
          { AppData.ctor [] with m_settings := QSettings.ofStore [] }).2.m_settings.contains
            "avrdude_location" = false) :=
  import_valid_key_not_deprecated false "2.1"
    (fun _ _ => [("avrdude_location", .qString "x"), ("mcu", .qString "m128")])
    (AppData.ctor []) [] (by decide) (by decide) "avrdude_location" "mcu" (.qString "m128")
    (by decide) (by decide) (by decide) (by decide) (by decide)

/-- C13 fails as stated: built with `WIN32` defined, the exclusion list is longer than the
deprecated keys plus "compilation-server".  The key "dfu_location" of the prior store has a
valid value and is not one of those, yet the destination does not hold it after
`importSettings("2.1")`. -/
theorem import_win32_excludes_more :
    "dfu_location" ∉ AppData.deprecatedSettings ++ ["compilation-server"]
    ∧ (AppData.importSettings true "2.1" (fun _ _ => [("dfu_location", .qString "/opt/dfu")])
        (AppData.ctor [])).1 = true
    ∧ (AppData.importSettings true "2.1" (fun _ _ => [("dfu_location", .qString "/opt/dfu")])
        (AppData.ctor [])).2.m_settings.map.lookup "dfu_location" = none := by
  decide

/-- C13 as amended.  For every known version label, every prior store (with stored keys) and
every content `m` of the destination: `importSettings` returns true, `previousVersion()` is
the label, the destination holds the source's value for every source key with a valid value
that is not in the exclusion list, and every key that is excluded or not a source key keeps
the entry it had.  The exclusion list is the deprecated keys plus "compilation-server", and
with `WIN32` defined also "avrdude_location", "avrdudeLocation", "dfu_location",
"Start Menu Folder" and ".". -/
theorem importSettings_copies (WIN32 : Bool) (L : String) (files : SettingsFiles)
    (g : AppData) (m : List (String × QVariant)) (hL : L = "2.1" ∨ L = "2.0" ∨ L = "1.x")
    (hsrc : ∀ e ∈ AppData.importedStore L files, IsStoredKey e.1) :
    (AppData.importSettings WIN32 L files { g with m_settings := QSettings.ofStore m }).1 = true
    ∧ (AppData.importSettings WIN32 L files
        { g with m_settings := QSettings.ofStore m }).2.previousVersion = L
    ∧ (∀ (k : String) (v : QVariant), (AppData.importedStore L files).lookup k = some v →
        v.isValid = true → k ∉ AppData.excludeKeys WIN32 →
        (AppData.importSettings WIN32 L files
          { g with m_settings := QSettings.ofStore m }).2.m_settings.map.lookup k = some v)
    ∧ (∀ k : String, k ∈ AppData.excludeKeys WIN32 ∨ (AppData.importedStore L files).lookup k = none →
        (AppData.importSettings WIN32 L files
          { g with m_settings := QSettings.ofStore m }).2.m_settings.map.lookup k = m.lookup k)
    ∧ AppData.excludeKeys false
        = ["avrdude_location", "last_simulator", "companionBranch", "useCompanionNightlyBuilds",
           "useFirmwareNightlyBuilds", "compilation-server"]
    ∧ AppData.excludeKeys true
        = ["avrdude_location", "last_simulator", "companionBranch", "useCompanionNightlyBuilds",
           "useFirmwareNightlyBuilds", "compilation-server", "avrdude_location",
           "avrdudeLocation", "dfu_location", "Start Menu Folder", "."] := by
  obtain ⟨h1, h2, h⟩ := importSettings_spec WIN32 L files g m hL hsrc
  refine ⟨h1, h2, ?_, ?_, rfl, rfl⟩
  · intro k v hk hv hke
    rw [h k, hk]
    simp [hv, hke]
  · intro k hk
    rw [h k]
    rcases hk with hk | hk
    · simp [hk]
    · simp [hk]

/-- Witness of C13 as amended: version 2.0 with a prior store holding "mcu". -/
theorem importSettings_copies_witness :
    (AppData.importSettings false "2.0" (fun _ _ => [("mcu", .qString "m128")])
        { AppData.ctor [] with m_settings := QSettings.ofStore [] }).1 = true
    ∧ (AppData.importSettings false "2.0" (fun _ _ => [("mcu", .qString "m128")])
        { AppData.ctor [] with m_settings := QSettings.ofStore [] }).2.previousVersion = "2.0" :=
  ⟨(importSettings_copies false "2.0" (fun _ _ => [("mcu", .qString "m128")]) (AppData.ctor [])
      [] (by decide) (by decide)).1,
   (importSettings_copies false "2.0" (fun _ _ => [("mcu", .qString "m128")]) (AppData.ctor [])
      [] (by decide) (by decide)).2.1⟩

/-- C14.  For every version label other than "2.1", "2.0" and "1.x", every state and every
prior stores: `importSettings` returns false, leaves the store as it was, and
`previousVersion()` is empty afterwards. -/
theorem importSettings_unknown_label (WIN32 : Bool) (L : String) (files : SettingsFiles)
    (g : AppData) (hL : L ≠ "2.1" ∧ L ≠ "2.0" ∧ L ≠ "1.x") :
    (AppData.importSettings WIN32 L files g).1 = false
    ∧ (AppData.importSettings WIN32 L files g).2.m_settings = g.m_settings
    ∧ (AppData.importSettings WIN32 L files g).2.previousVersion = "" := by
  have h : AppData.importSource L = none := by
    unfold AppData.importSource
    rw [if_neg hL.1, if_neg hL.2.1, if_neg hL.2.2]
  simp only [AppData.importSettings, h, AppData.previousVersion]
  exact ⟨trivial, trivial, trivial⟩

/-- Witness of C14: the label "2.2" on an object that remembers an earlier import. -/
theorem importSettings_unknown_label_witness :
    (AppData.importSettings false "2.2" (fun _ _ => [("mcu", .qString "m128")])
        { AppData.ctor [] with upgradeFromVersion := "2.1" }).1 = false
    ∧ (AppData.importSettings false "2.2" (fun _ _ => [("mcu", .qString "m128")])
        { AppData.ctor [] with upgradeFromVersion := "2.1" }).2.m_settings
        = ({ AppData.ctor [] with upgradeFromVersion := "2.1" } : AppData).m_settings
    ∧ (AppData.importSettings false "2.2" (fun _ _ => [("mcu", .qString "m128")])
        { AppData.ctor [] with upgradeFromVersion := "2.1" }).2.previousVersion = "" :=
  importSettings_unknown_label false "2.2" (fun _ _ => [("mcu", .qString "m128")])
    { AppData.ctor [] with upgradeFromVersion := "2.1" } (by decide)

/-! ## C15, C16: `findPreviousVersionSettings` -/

theorem write_apply (files : SettingsFiles) (o a o2 a2 : String)
    (m : List (String × QVariant)) :
    (files.write o a m) o2 a2 = if o2 = o ∧ a2 = a then m else files o2 a2 := rfl

theorem clear_map (s : QSettings) : s.clear.map = [] := rfl

/-- The probe, case by case: `b21`, `b20` and `b16` tell whether the store of version 2.1,
2.0 and 1.x holds the version marker. -/
theorem findPreviousVersionSettings_cases (g : AppData) (files : SettingsFiles)
    (b21 b20 b16 : Bool)
    (h21 : (QSettings.ofStore (files "OpenTX" "Companion 2.1")).contains "settings_version" = b21)
    (h20 : (QSettings.ofStore (files "OpenTX" "Companion 2.0")).contains "settings_version" = b20)
    (h16 : (QSettings.ofStore (files "OpenTX" "OpenTX Companion")).contains "settings_version"
      = b16) :
    AppData.findPreviousVersionSettings g files
      = (b21 || b20 || b16,
         if b21 then "2.1" else if b20 then "2.0" else if b16 then "1.x" else "",
         fun o a =>
           if o = "OpenTX" ∧ a = "Companion 2.1" ∧ b21 = false then []
           else if o = "OpenTX" ∧ a = "Companion 2.0" ∧ b20 = false then []
           else if o = "OpenTX" ∧ a = "OpenTX Companion" ∧ b16 = false then []
           else files o a) := by
  have e1 : ¬ ("Companion 2.0" = "Companion 2.1") := by decide
  have e2 : ¬ ("OpenTX Companion" = "Companion 2.1") := by decide
  have e3 : ¬ ("OpenTX Companion" = "Companion 2.0") := by decide
  have k : AppData.settingsVersionKey = "settings_version" := rfl
  unfold AppData.findPreviousVersionSettings
  simp only [k, h21]
  cases b21
  · simp only [Bool.false_eq_true, if_false, write_apply, e1, e2, and_false, h20, clear_map]
    cases b20
    · simp only [Bool.false_eq_true, if_false, write_apply, e1, e2, e3, and_false, h16,
        clear_map]
      cases b16
      · simp only [Bool.false_eq_true, if_false, if_true, Bool.or_self, and_true]
        first
          | done
          | (refine Prod.ext rfl (Prod.ext rfl ?_)
             funext o a
             by_cases ho : o = "OpenTX" <;> by_cases ha1 : a = "Companion 2.1" <;>
               by_cases ha2 : a = "Companion 2.0" <;>
               by_cases ha3 : a = "OpenTX Companion" <;> simp_all [write_apply])
      · simp only [if_true, Bool.false_eq_true, if_false, Bool.or_true, Bool.false_or,
          and_true, and_false, reduceCtorEq]
        first
          | done
          | (refine Prod.ext rfl (Prod.ext rfl ?_)
             funext o a
             by_cases ho : o = "OpenTX" <;> by_cases ha1 : a = "Companion 2.1" <;>
               by_cases ha2 : a = "Companion 2.0" <;>
               by_cases ha3 : a = "OpenTX Companion" <;> simp_all [write_apply])
    · simp only [if_true, write_apply, e1, e2, e3, and_false, if_false, h16, clear_map]
      cases b16
      · simp only [Bool.false_eq_true, if_false, if_true, Bool.or_true, Bool.or_false,
          Bool.false_or, and_true, and_false, reduceCtorEq]
        first
          | done
          | (refine Prod.ext rfl (Prod.ext rfl ?_)
             funext o a
             by_cases ho : o = "OpenTX" <;> by_cases ha1 : a = "Companion 2.1" <;>
               by_cases ha2 : a = "Companion 2.0" <;>
               by_cases ha3 : a = "OpenTX Companion" <;> simp_all [write_apply])
      · simp only [Bool.false_eq_true, if_false, if_true, Bool.or_true, Bool.or_false,
          Bool.false_or, and_true, and_false, reduceCtorEq]
        first
          | done
          | (refine Prod.ext rfl (Prod.ext rfl ?_)
             funext o a
             by_cases ho : o = "OpenTX" <;> by_cases ha1 : a = "Companion 2.1" <;>
               by_cases ha2 : a = "Companion 2.0" <;>
               by_cases ha3 : a = "OpenTX Companion" <;> simp_all [write_apply])
  · simp only [if_true, h20]
    cases b20
    · simp only [Bool.false_eq_true, if_false, write_apply, e1, e2, e3, and_false, h16,
        clear_map]
      cases b16
      · simp only [Bool.false_eq_true, if_false, if_true, Bool.or_true, Bool.or_false,
          Bool.true_or, and_true, and_false, reduceCtorEq]
        first
          | done
          | (refine Prod.ext rfl (Prod.ext rfl ?_)
             funext o a
             by_cases ho : o = "OpenTX" <;> by_cases ha1 : a = "Companion 2.1" <;>
               by_cases ha2 : a = "Companion 2.0" <;>
               by_cases ha3 : a = "OpenTX Companion" <;> simp_all [write_apply])
      · simp only [Bool.false_eq_true, if_false, if_true, Bool.or_true, Bool.or_false,
          Bool.true_or, and_true, and_false, reduceCtorEq]
        first
          | done
          | (refine Prod.ext rfl (Prod.ext rfl ?_)
             funext o a
             by_cases ho : o = "OpenTX" <;> by_cases ha1 : a = "Companion 2.1" <;>
               by_cases ha2 : a = "Companion 2.0" <;>
               by_cases ha3 : a = "OpenTX Companion" <;> simp_all [write_apply])
    · simp only [if_true, reduceCtorEq, if_false, h16]
      cases b16
      · simp only [Bool.false_eq_true, if_false, if_true, Bool.or_true, Bool.or_false,
          Bool.true_or, and_true, and_false, reduceCtorEq, write_apply, clear_map]
        first
          | done
          | (refine Prod.ext rfl (Prod.ext rfl ?_)
             funext o a
             by_cases ho : o = "OpenTX" <;> by_cases ha1 : a = "Companion 2.1" <;>
               by_cases ha2 : a = "Companion 2.0" <;>
               by_cases ha3 : a = "OpenTX Companion" <;> simp_all [write_apply])
      · simp only [Bool.false_eq_true, if_false, if_true, Bool.or_true, Bool.or_false,
          Bool.true_or, and_true, and_false, reduceCtorEq]

/-- C15.  `findPreviousVersionSettings` reports the first of the stores "Companion 2.1",
"Companion 2.0", "OpenTX Companion" that holds "settings_version": true with "2.1" whenever
the 2.1 store has the marker, "2.0" when 2.1 has none and 2.0 has it, "1.x" when only the 1.x
store has it; and false with an empty version exactly when none of the three has it. -/
theorem findPreviousVersionSettings_first_match (g : AppData) (files : SettingsFiles) :
    ((QSettings.ofStore (files "OpenTX" "Companion 2.1")).contains "settings_version" = true →
      (AppData.findPreviousVersionSettings g files).1 = true
      ∧ (AppData.findPreviousVersionSettings g files).2.1 = "2.1")
    ∧ ((QSettings.ofStore (files "OpenTX" "Companion 2.1")).contains "settings_version" = false →
      (QSettings.ofStore (files "OpenTX" "Companion 2.0")).contains "settings_version" = true →
      (AppData.findPreviousVersionSettings g files).1 = true
      ∧ (AppData.findPreviousVersionSettings g files).2.1 = "2.0")
    ∧ ((QSettings.ofStore (files "OpenTX" "Companion 2.1")).contains "settings_version" = false →
      (QSettings.ofStore (files "OpenTX" "Companion 2.0")).contains "settings_version" = false →
      (QSettings.ofStore (files "OpenTX" "OpenTX Companion")).contains "settings_version"
        = true →
      (AppData.findPreviousVersionSettings g files).1 = true
      ∧ (AppData.findPreviousVersionSettings g files).2.1 = "1.x")
    ∧ (((AppData.findPreviousVersionSettings g files).1 = false
        ∧ (AppData.findPreviousVersionSettings g files).2.1 = "")
      ↔ ((QSettings.ofStore (files "OpenTX" "Companion 2.1")).contains "settings_version"
          = false
        ∧ (QSettings.ofStore (files "OpenTX" "Companion 2.0")).contains "settings_version"
          = false
        ∧ (QSettings.ofStore (files "OpenTX" "OpenTX Companion")).contains "settings_version"
          = false)) := by
  have h := findPreviousVersionSettings_cases g files _ _ _ rfl rfl rfl
  rw [h]
  refine ⟨?_, ?_, ?_, ?_⟩
  · intro h1
    simp [h1]
  · intro h1 h2
    simp [h1, h2]
  · intro h1 h2 h3
    simp [h1, h2, h3]
  · constructor
    · intro hr
      have h2 := hr.1
      simp only [Bool.or_eq_false_iff] at h2
      exact ⟨h2.1.1, h2.1.2, h2.2⟩
    · intro hn
      simp [hn.1, hn.2.1, hn.2.2]

/-- Witness of C15: only the stores of 2.0 and 1.x hold the marker. -/
theorem findPreviousVersionSettings_first_match_witness :
    (AppData.findPreviousVersionSettings (AppData.ctor [])
        (fun _ a => if a = "Companion 2.1" then [("mcu", .qString "m64")]
          else [("settings_version", .qString "200")])).1 = true
    ∧ (AppData.findPreviousVersionSettings (AppData.ctor [])
        (fun _ a => if a = "Companion 2.1" then [("mcu", .qString "m64")]
          else [("settings_version", .qString "200")])).2.1 = "2.0" :=
  (findPreviousVersionSettings_first_match (AppData.ctor [])
    (fun _ a => if a = "Companion 2.1" then [("mcu", .qString "m64")]
      else [("settings_version", .qString "200")])).2.1 (by decide) (by decide)

/-- C16 fails as stated: a probed store without the version marker is cleared.  With prior
stores that hold "mcu" and no marker, the probe returns false and the store of version 2.1
is empty afterwards. -/
theorem findPreviousVersionSettings_clears_store :
    (QSettings.ofStore [("mcu", QVariant.qString "m64")]).contains "settings_version" = false
    ∧ (AppData.findPreviousVersionSettings (AppData.ctor [])
        (fun _ _ => [("mcu", .qString "m64")])).1 = false
    ∧ (AppData.findPreviousVersionSettings (AppData.ctor [])
        (fun _ _ => [("mcu", .qString "m64")])).2.2 "OpenTX" "Companion 2.1" = []
    ∧ (fun (_ _ : String) => [("mcu", QVariant.qString "m64")]) "OpenTX" "Companion 2.1"
        ≠ [] := by
  decide

/-- C16 as amended.  When none of the three prior stores holds the version marker,
`findPreviousVersionSettings` returns false with an empty version, every store other than
the three probed ones, the current store of `COMPANY` and `PRODUCT` among them, holds what
it held before, and each of the three probed stores is cleared. -/
theorem findPreviousVersionSettings_nothing_found (g : AppData) (files : SettingsFiles)
    (h21 : (QSettings.ofStore (files "OpenTX" "Companion 2.1")).contains "settings_version"
      = false)
    (h20 : (QSettings.ofStore (files "OpenTX" "Companion 2.0")).contains "settings_version"
      = false)
    (h16 : (QSettings.ofStore (files "OpenTX" "OpenTX Companion")).contains "settings_version"
      = false) :
    (AppData.findPreviousVersionSettings g files).1 = false
    ∧ (AppData.findPreviousVersionSettings g files).2.1 = ""
    ∧ (AppData.findPreviousVersionSettings g files).2.2 COMPANY PRODUCT = files COMPANY PRODUCT
    ∧ (∀ o a : String,
        ¬ (o = "OpenTX" ∧ (a = "Companion 2.1" ∨ a = "Companion 2.0" ∨ a = "OpenTX Companion")) →
        (AppData.findPreviousVersionSettings g files).2.2 o a = files o a)
    ∧ (AppData.findPreviousVersionSettings g files).2.2 "OpenTX" "Companion 2.1" = []
    ∧ (AppData.findPreviousVersionSettings g files).2.2 "OpenTX" "Companion 2.0" = []
    ∧ (AppData.findPreviousVersionSettings g files).2.2 "OpenTX" "OpenTX Companion" = [] := by
  rw [findPreviousVersionSettings_cases g files false false false h21 h20 h16]
  refine ⟨rfl, rfl, ?_, ?_, ?_, ?_, ?_⟩
  · have e1 : ¬ (PRODUCT = "Companion 2.1") := by decide
    have e2 : ¬ (PRODUCT = "Companion 2.0") := by decide
    have e3 : ¬ (PRODUCT = "OpenTX Companion") := by decide
    simp [e1, e2, e3]
  · intro o a hoa
    by_cases ho : o = "OpenTX" <;> by_cases ha1 : a = "Companion 2.1" <;>
      by_cases ha2 : a = "Companion 2.0" <;> by_cases ha3 : a = "OpenTX Companion" <;>
      simp_all
  · simp
  · simp
  · simp

/-- Witness of C16 as amended: all stores hold "mcu" and no marker. -/
theorem findPreviousVersionSettings_nothing_found_witness :
    (AppData.findPreviousVersionSettings (AppData.ctor [])
        (fun _ _ => [("mcu", .qString "m64")])).1 = false
    ∧ (AppData.findPreviousVersionSettings (AppData.ctor [])
        (fun _ _ => [("mcu", .qString "m64")])).2.1 = ""
    ∧ (AppData.findPreviousVersionSettings (AppData.ctor [])
        (fun _ _ => [("mcu", .qString "m64")])).2.2 COMPANY PRODUCT
        = [("mcu", QVariant.qString "m64")] :=
  ⟨(findPreviousVersionSettings_nothing_found (AppData.ctor [])
      (fun _ _ => [("mcu", .qString "m64")]) (by decide) (by decide) (by decide)).1,
   (findPreviousVersionSettings_nothing_found (AppData.ctor [])
      (fun _ _ => [("mcu", .qString "m64")]) (by decide) (by decide) (by decide)).2.1,
   (findPreviousVersionSettings_nothing_found (AppData.ctor [])
      (fun _ _ => [("mcu", .qString "m64")]) (by decide) (by decide) (by decide)).2.2.1⟩

/-! ## C17, C18: `init` and `getActiveProfiles` -/

theorem app_fieldInits_keep (env : BuildEnv) (fs : List AppField) : ∀ a : AppData,
    (fs.foldl (fun b f => b.fieldInit env f) a).m_settings = a.m_settings
    ∧ (fs.foldl (fun b f => b.fieldInit env f) a).profile = a.profile
    ∧ (fs.foldl (fun b f => b.fieldInit env f) a).firstUse = a.firstUse := by
  induction fs with
  | nil => intro a; exact ⟨rfl, rfl, rfl⟩
  | cons f rest ih =>
    intro a
    rw [List.foldl_cons]
    exact ih (a.fieldInit env f)

theorem initProfileId_keep (a : AppData) :
    a.initProfileId.m_settings = a.m_settings ∧ a.initProfileId.profile = a.profile
    ∧ a.initProfileId.firstUse = a.firstUse := by
  unfold AppData.initProfileId AppData.sessionIdSet
  dsimp only
  split_ifs <;> exact ⟨rfl, rfl, rfl⟩

theorem initVersion_keep (a : AppData) :
    a.initVersion.profile = a.profile ∧ a.initVersion.firstUse = a.firstUse :=
  ⟨rfl, rfl⟩

theorem initJoysticks_keep_list (l : List (Fin MAX_JOYSTICKS)) : ∀ a : AppData,
    (l.foldl
      (fun a i =>
        let j := (a.joystick i).init ((i.val : Nat) : Int) a.m_settings
        ({ a with joystick := Function.update a.joystick i j } : AppData)) a).m_settings
      = a.m_settings
    ∧ (l.foldl
      (fun a i =>
        let j := (a.joystick i).init ((i.val : Nat) : Int) a.m_settings
        ({ a with joystick := Function.update a.joystick i j } : AppData)) a).profile
      = a.profile
    ∧ (l.foldl
      (fun a i =>
        let j := (a.joystick i).init ((i.val : Nat) : Int) a.m_settings
        ({ a with joystick := Function.update a.joystick i j } : AppData)) a).firstUse
      = a.firstUse := by
  induction l with
  | nil => intro a; exact ⟨rfl, rfl, rfl⟩
  | cons i rest ih =>
    intro a
    rw [List.foldl_cons]
    exact ih _

theorem initJoysticks_keep (a : AppData) :
    a.initJoysticks.m_settings = a.m_settings ∧ a.initJoysticks.profile = a.profile
    ∧ a.initJoysticks.firstUse = a.firstUse :=
  initJoysticks_keep_list _ a

theorem initProfiles_list (l : List (Fin MAX_PROFILES)) (hl : l.Nodup) : ∀ a : AppData,
    (l.foldl
      (fun a i =>
        let p := (a.profile i).init ((i.val : Nat) : Int) a.m_settings
        ({ a with profile := Function.update a.profile i p } : AppData)) a).m_settings
      = a.m_settings
    ∧ (l.foldl
      (fun a i =>
        let p := (a.profile i).init ((i.val : Nat) : Int) a.m_settings
        ({ a with profile := Function.update a.profile i p } : AppData)) a).firstUse
      = a.firstUse
    ∧ ∀ j : Fin MAX_PROFILES, (l.foldl
      (fun a i =>
        let p := (a.profile i).init ((i.val : Nat) : Int) a.m_settings
        ({ a with profile := Function.update a.profile i p } : AppData)) a).profile j
      = if j ∈ l then (a.profile j).init ((j.val : Nat) : Int) a.m_settings
        else a.profile j := by
  induction l with
  | nil => intro a; exact ⟨rfl, rfl, fun j => by simp⟩
  | cons i rest ih =>
    intro a
    have hnd := List.nodup_cons.mp hl
    have hp : ∃ p : Profile, p = (a.profile i).init ((i.val : Nat) : Int) a.m_settings :=
      ⟨_, rfl⟩
    obtain ⟨p, hp⟩ := hp
    obtain ⟨h1, h2, h3⟩ := ih hnd.2 { a with profile := Function.update a.profile i p }
    rw [hp] at h1 h2 h3
    rw [List.foldl_cons]
    refine ⟨h1, h2, ?_⟩
    intro j
    rw [h3 j]
    by_cases hj : j ∈ rest
    · have hji : j ≠ i := fun e => hnd.1 (e ▸ hj)
      simp [hj, Function.update_noteq hji]
    · by_cases hji : j = i
      · subst hji
        simp [hj]
      · simp [hj, hji, Function.update_noteq hji]

theorem initProfiles_spec (a : AppData) :
    a.initProfiles.m_settings = a.m_settings ∧ a.initProfiles.firstUse = a.firstUse
    ∧ ∀ j : Fin MAX_PROFILES,
        a.initProfiles.profile j = (a.profile j).init ((j.val : Nat) : Int) a.m_settings := by
  obtain ⟨h1, h2, h3⟩ := initProfiles_list (List.finRange MAX_PROFILES)
    (List.nodup_finRange _) a
  refine ⟨h1, h2, ?_⟩
  intro j
  have := h3 j
  rw [if_pos (List.mem_finRange j)] at this
  exact this

theorem profile_init_index (idx : Int) (p : Profile) (s : QSettings) :
    (p.init idx s).index = idx := by
  have h : ∀ (fs : List ProfileField) (q : Profile),
      (fs.foldl (fun q f => q.fieldInit f s) q).index = q.index := by
    intro fs
    induction fs with
    | nil => intro q; rfl
    | cons f rest ih => intro q; rw [List.foldl_cons, ih]; rfl
  exact h _ _

theorem isPlainKey_settingsVersion : IsPlainKey "settings_version" := ⟨by decide, by decide⟩

/-- What `init` leaves in the object: the first-use flag, the store (that of
`convertSettings` with the version marker written by `getset`) and the profiles. -/
theorem init_spec (env : BuildEnv) (g : AppData) (m : List (String × QVariant)) :
    ∃ m3 : List (String × QVariant),
      (∀ k : String,
        (∀ X ∈ ["useWizard", "newModelAction", "warningId"] ++ AppData.deprecatedSettings,
          QSettings.isKeyOrSubKey X k = false) → m3.lookup k = m.lookup k)
      ∧ (AppData.init env { g with m_settings := QSettings.ofStore m }).firstUse
          = !(m.lookup "settings_version").isSome
      ∧ (AppData.init env { g with m_settings := QSettings.ofStore m }).m_settings
          = QSettings.ofStore (QSettings.insert "settings_version"
              (QVariant.qString
                (if ((m3.lookup "settings_version").getD (.qString "220")).canConvert .qString
                 then ((m3.lookup "settings_version").getD (.qString "220")).toQString
                 else ""))
              m3)
      ∧ ∀ j : Fin MAX_PROFILES,
          (AppData.init env { g with m_settings := QSettings.ofStore m }).profile j
            = (g.profile j).init ((j.val : Nat) : Int) (QSettings.ofStore m3) := by
  obtain ⟨v, m3, e, _, _, _, hframe⟩ := convertSettings_spec env
    { g with m_settings := QSettings.ofStore m,
             firstUse := !(QSettings.ofStore m).contains "settings_version" } m rfl
  refine ⟨m3, hframe, ?_, ?_, ?_⟩
  · unfold AppData.init
    simp only [AppData.hasCurrentSettings, AppData.settingsVersionKey]
    rw [(app_fieldInits_keep env _ _).2.2, (initProfileId_keep _).2.2, (initVersion_keep _).2,
      (initJoysticks_keep _).2.2, (initProfiles_spec _).2.1, e,
      contains_plain_ofStore _ isPlainKey_settingsVersion]
  · unfold AppData.init
    simp only [AppData.hasCurrentSettings, AppData.settingsVersionKey]
    rw [(app_fieldInits_keep env _ _).1, (initProfileId_keep _).1]
    simp only [AppData.initVersion, AppData.settingsPath, CompStoreObj.getset,
      AppData.settingsVersionKey, (initJoysticks_keep _).1, (initProfiles_spec _).1, e]
    have hl := load_ofStore "" "settings_version" isGroupPath_empty isPlainKey_settingsVersion
      .qString "" (.qString "220") m3
    have hst := store_ofStore "" "settings_version" isGroupPath_empty
      isPlainKey_settingsVersion .qString
    simp only [empty_append] at hl hst
    rw [hl, hst]
    rfl
  · intro j
    unfold AppData.init
    simp only [AppData.hasCurrentSettings, AppData.settingsVersionKey]
    rw [(app_fieldInits_keep env _ _).2.1, (initProfileId_keep _).2.1, (initVersion_keep _).1,
      (initJoysticks_keep _).2.1, (initProfiles_spec _).2.2 j, e]

theorem untouched_by_convertSettings_settingsVersion :
    ∀ X ∈ ["useWizard", "newModelAction", "warningId"] ++ AppData.deprecatedSettings,
      QSettings.isKeyOrSubKey X "settings_version" = false := by
  decide

/-- The version marker after `init`: what `getset` read as a `QString` from the marker (or
from "220" when there was none), and the empty string when the stored value does not
convert. -/
theorem init_version_entry (env : BuildEnv) (g : AppData) (m : List (String × QVariant)) :
    (AppData.init env { g with m_settings := QSettings.ofStore m }).m_settings.map.lookup
        "settings_version"
      = some (QVariant.qString
          (if ((m.lookup "settings_version").getD (.qString "220")).canConvert .qString
           then ((m.lookup "settings_version").getD (.qString "220")).toQString
           else "")) := by
  obtain ⟨m3, hframe, _, hs, _⟩ := init_spec env g m
  rw [hs, ← hframe "settings_version" untouched_by_convertSettings_settingsVersion]
  exact lookup_insert_self _ _ _

theorem qmap_insert_append (k : Int) (v : String) (acc : List (Int × String))
    (h : ∀ e ∈ acc, e.1 < k) : QMap.insert k v acc = acc ++ [(k, v)] := by
  induction acc with
  | nil => rfl
  | cons e rest ih =>
    have he := h e (by simp)
    have h1 : ¬ e.1 = k := ne_of_lt he
    have h2 : ¬ k < e.1 := not_lt.mpr (le_of_lt he)
    rw [QMap.insert, if_neg h1, if_neg h2, ih (fun x hx => h x (List.mem_cons_of_mem _ hx))]
    rfl

/-- The loop of `getActiveProfiles` over an increasing list of indices collects, in order,
the indices that satisfy the test. -/
theorem active_loop (c : Fin MAX_PROFILES → Bool) (nm : Fin MAX_PROFILES → String)
    (l : List (Fin MAX_PROFILES)) (hl : l.Pairwise (· < ·)) :
    ∀ acc : List (Int × String), (∀ e ∈ acc, ∀ i ∈ l, e.1 < ((i.val : Nat) : Int)) →
    l.foldl (fun active i =>
        if c i = true then QMap.insert ((i.val : Nat) : Int) (nm i) active else active) acc
      = acc ++ l.filterMap (fun i => if c i = true then some (((i.val : Nat) : Int), nm i)
          else none) := by
  induction l with
  | nil => intro acc _; simp
  | cons i rest ih =>
    intro acc hacc
    have hp := List.pairwise_cons.mp hl
    rw [List.foldl_cons]
    by_cases hc : c i = true
    · rw [if_pos hc, qmap_insert_append _ _ _ (fun e he => hacc e he i (by simp))]
      rw [ih hp.2]
      · simp [List.filterMap_cons, hc]
      · intro e he j hj
        rcases List.mem_append.mp he with h | h
        · exact hacc e h j (List.mem_cons_of_mem _ hj)
        · simp only [List.mem_singleton] at h
          subst h
          have := hp.1 j hj
          exact Int.ofNat_lt.mpr this
    · rw [if_neg hc, ih hp.2 acc (fun e he j hj => hacc e he j (List.mem_cons_of_mem _ hj))]
      simp [List.filterMap_cons, hc]

theorem profile_name_key_untouched (idx : Int) :
    (∀ X ∈ ["useWizard", "newModelAction", "warningId"] ++ AppData.deprecatedSettings,
      QSettings.isKeyOrSubKey X ("Profiles/profile" ++ toString idx ++ "/" ++ "Name") = false)
    ∧ "Profiles/profile" ++ toString idx ++ "/" ++ "Name" ≠ "settings_version" := by
  have hk : ∃ rest : List Char,
      "Profiles/profile" ++ toString idx ++ "/" ++ "Name" = String.mk ('P' :: rest) := by
    refine ⟨"rofiles/profile".data ++ (toString idx).data ++ "/".data ++ "Name".data, ?_⟩
    apply String.ext
    simp only [String.data_append]
    rfl
  obtain ⟨rest, hk⟩ := hk
  rw [hk]
  constructor
  · intro X hX
    simp only [AppData.deprecatedSettings, List.cons_append, List.nil_append, List.mem_cons,
      List.mem_singleton, List.not_mem_nil, or_false] at hX
    rcases hX with h | h | h | h | h | h | h | h <;> subst h <;> rfl
  · intro e
    have := congrArg String.data e
    simp at this

/-- After `init`, profile `i` of the array answers `existsOnDisk()` by whether the store
`init` started from holds "Profiles/profile<i>/Name". -/
theorem existsOnDisk_after_init (env : BuildEnv) (g : AppData) (m : List (String × QVariant))
    (i : Fin MAX_PROFILES) :
    ((AppData.init env { g with m_settings := QSettings.ofStore m }).profile i).existsOnDisk
        (AppData.init env { g with m_settings := QSettings.ofStore m }).m_settings
      = (m.lookup ("Profiles/profile" ++ toString ((i.val : Nat) : Int) ++ "/" ++ "Name")).isSome
    ∧ (AppData.init env { g with m_settings := QSettings.ofStore m }).m_settings.contains
        ("Profiles/profile" ++ toString ((i.val : Nat) : Int) ++ "/" ++ "Name")
      = (m.lookup ("Profiles/profile" ++ toString ((i.val : Nat) : Int) ++ "/" ++ "Name")).isSome
    := by
  obtain ⟨m3, hframe, _, hs, hp⟩ := init_spec env g m
  obtain ⟨hu1, hu2⟩ := profile_name_key_untouched ((i.val : Nat) : Int)
  have hidx : ((AppData.init env { g with m_settings := QSettings.ofStore m }).profile i).index
      = ((i.val : Nat) : Int) := by
    rw [hp i]
    exact profile_init_index _ _ _
  generalize AppData.init env { g with m_settings := QSettings.ofStore m } = G at hs hidx ⊢
  have hpath : (G.profile i).settingsPath
      = "Profiles/profile" ++ toString ((i.val : Nat) : Int) ++ "/" := by
    rw [Profile.settingsPath, hidx]
  have hname : ProfileField.key .name = "Name" := rfl
  have hc : ∀ M : List (String × QVariant), (QSettings.ofStore M).contains
      ("Profiles/profile" ++ toString ((i.val : Nat) : Int) ++ "/" ++ "Name")
      = (M.lookup ("Profiles/profile" ++ toString ((i.val : Nat) : Int) ++ "/"
          ++ "Name")).isSome := by
    intro M
    have := contains_ofStore _ _ (profile_path_isGroupPath (G.profile i))
      (profile_key_plain .name) M
    rw [hpath, hname] at this
    exact this
  have hex : ∀ M : List (String × QVariant), (G.profile i).existsOnDisk (QSettings.ofStore M)
      = (M.lookup ("Profiles/profile" ++ toString ((i.val : Nat) : Int) ++ "/"
          ++ "Name")).isSome := by
    intro M
    have := profile_existsOnDisk_ofStore (G.profile i) M
    rw [hpath, hname] at this
    exact this
  rw [hs, hex, hc, lookup_insert_ne _ _ _ _ hu2, hframe _ hu1]
  exact ⟨rfl, rfl⟩

/-- What `getActiveProfiles` returns after `init`, as a list in the order of the indices. -/
theorem getActiveProfiles_init_eq (env : BuildEnv) (g : AppData)
    (m : List (String × QVariant)) :
    (AppData.init env { g with m_settings := QSettings.ofStore m }).getActiveProfiles
      = (List.finRange MAX_PROFILES).filterMap (fun i =>
          if (m.lookup ("Profiles/profile" ++ toString ((i.val : Nat) : Int) ++ "/"
              ++ "Name")).isSome = true
          then some (((i.val : Nat) : Int),
            ((AppData.init env { g with m_settings := QSettings.ofStore m }).profile i).get .name)
          else none) := by
  have hex := fun i => (existsOnDisk_after_init env g m i).1
  generalize AppData.init env { g with m_settings := QSettings.ofStore m } = G at hex ⊢
  have h := active_loop (fun i => (G.profile i).existsOnDisk G.m_settings)
    (fun i => (G.profile i).get .name)
    (List.finRange MAX_PROFILES) (List.pairwise_lt_finRange _) []
    (fun e he => absurd he (List.not_mem_nil _))
  simp only [List.nil_append] at h
  unfold AppData.getActiveProfiles
  rw [h]
  apply congrArg (fun f => List.filterMap f (List.finRange MAX_PROFILES))
  funext i
  rw [hex i]

/-- C17 fails as stated: a version marker that is present but is not a string is rewritten
by `getset`.  With the marker holding the list ("2", "20"), it holds the empty string after
`init`. -/
theorem init_rewrites_version_marker :
    (AppData.init ⟨0, ""⟩
        (AppData.ctor [("settings_version", .qStringList ["2", "20"])])).m_settings.map.lookup
        "settings_version" = some (QVariant.qString "")
    ∧ List.lookup "settings_version" [("settings_version", QVariant.qStringList ["2", "20"])]
        = some (QVariant.qStringList ["2", "20"]) := by
  constructor
  · exact init_version_entry ⟨0, ""⟩ (AppData.ctor [])
      [("settings_version", .qStringList ["2", "20"])]
  · rfl

/-- C17 as amended.  For every in-memory state and every content `m` of the store, after
`init()`: `isFirstUse()` is true if and only if "settings_version" was absent before; if it
was absent the store holds "settings_version" = "220"; if it was present holding a string,
the stored value is unchanged; and for an empty store `getActiveProfiles()` is empty. -/
theorem init_first_use (env : BuildEnv) (g : AppData) (m : List (String × QVariant)) :
    ((AppData.init env { g with m_settings := QSettings.ofStore m }).isFirstUse = true
        ↔ m.lookup "settings_version" = none)
    ∧ (m.lookup "settings_version" = none →
        (AppData.init env { g with m_settings := QSettings.ofStore m }).m_settings.map.lookup
          "settings_version" = some (QVariant.qString "220"))
    ∧ (∀ s : String, m.lookup "settings_version" = some (QVariant.qString s) →
        (AppData.init env { g with m_settings := QSettings.ofStore m }).m_settings.map.lookup
          "settings_version" = some (QVariant.qString s))
    ∧ (m = [] →
        (AppData.init env { g with m_settings := QSettings.ofStore m }).getActiveProfiles
          = []) := by
  obtain ⟨m3, _, hf, _, _⟩ := init_spec env g m
  refine ⟨?_, ?_, ?_, ?_⟩
  · rw [AppData.isFirstUse, hf]
    cases m.lookup "settings_version" <;> simp
  · intro h
    rw [init_version_entry, h]
    rfl
  · intro s h
    rw [init_version_entry, h]
    rfl
  · intro h
    subst h
    rw [getActiveProfiles_init_eq]
    simp [List.lookup]

/-- Witness of C17 as amended: a store that holds the marker "210". -/
theorem init_first_use_witness :
    (AppData.init ⟨0, ""⟩
        (AppData.ctor [("settings_version", .qString "210")])).m_settings.map.lookup "settings_version"
      = some (QVariant.qString "210") :=
  (init_first_use ⟨0, ""⟩ (AppData.ctor []) [("settings_version", .qString "210")]).2.2.1
    "210" (by decide)

/-- C18.  For every in-memory state and every content `m` of the store, after `init()`
`getActiveProfiles()` is exactly the mapping, listed in the order of the indices, of the
indices `i` in `[0, MAX_PROFILES)` whose key "Profiles/profile<i>/Name" is present in the
store (before `init` and equally after it), each with the name of profile `i`; a store whose
only key is Profiles/profile2/Name = "Heli" gives exactly {2: "Heli"}. -/
theorem getActiveProfiles_after_init (env : BuildEnv) (g : AppData)
    (m : List (String × QVariant)) :
    (AppData.init env { g with m_settings := QSettings.ofStore m }).getActiveProfiles
      = (List.finRange MAX_PROFILES).filterMap (fun i =>
          if (m.lookup ("Profiles/profile" ++ toString ((i.val : Nat) : Int) ++ "/"
              ++ "Name")).isSome = true
          then some (((i.val : Nat) : Int),
            ((AppData.init env { g with m_settings := QSettings.ofStore m }).profile i).get .name)
          else none)
    ∧ (∀ i : Fin MAX_PROFILES,
        (AppData.init env { g with m_settings := QSettings.ofStore m }).m_settings.contains
          ("Profiles/profile" ++ toString ((i.val : Nat) : Int) ++ "/" ++ "Name")
        = (m.lookup ("Profiles/profile" ++ toString ((i.val : Nat) : Int) ++ "/"
            ++ "Name")).isSome)
    ∧ (AppData.init ⟨0, ""⟩
        (AppData.ctor [("Profiles/profile2/Name", .qString "Heli")])).getActiveProfiles
      = [(2, "Heli")] := by
  refine ⟨getActiveProfiles_init_eq env g m, fun i => (existsOnDisk_after_init env g m i).2, ?_⟩
  decide

/-! ## C19: `load` and a stored value of another type -/

/-- What `load` does when the value found cannot be converted: the destination keeps its
content, whatever the default is. -/
theorem load_keeps_destination (P K : String) (hP : IsGroupPath P) (hK : IsPlainKey K)
    (t : QMetaType) (cur : t.T) (d v : QVariant) (m : List (String × QVariant))
    (hv : m.lookup (P ++ K) = some v) (hc : v.canConvert t = false) :
    CompStoreObj.load P t cur K d none (QSettings.ofStore m) = cur := by
  rw [load_ofStore P K hP hK, hv]
  simp [hc]

/-- C19 fails on the code: with the list ("a", "b") stored under "volumeGain", `load<int>`
with default 10 leaves a destination that held 0 at 0; and `Profile::init` on a constructed
profile leaves `volumeGain()` at 0 although the declared default is 10. -/
theorem load_ignores_default_on_mismatch :
    (QVariant.qStringList ["a", "b"]).canConvert .int = false
    ∧ CompStoreObj.load "" .int (0 : Int) "volumeGain" (QVariant.fromValue .int (10 : Int)) none
        (QSettings.ofStore [("volumeGain", .qStringList ["a", "b"])]) = (0 : Int)
    ∧ (Profile.init 0 Profile.ctor
        (QSettings.ofStore [("Profiles/profile0/volumeGain", .qStringList ["a", "b"])])).get
          .volumeGain = (0 : Int)
    ∧ ProfileField.dflt .volumeGain = (10 : Int) := by
  decide

/-! ## C20: `FwRevision` -/

/-- After `remove(t)` for a plain key `t`, `get(t)` returns 0. -/
theorem fwRevision_get_after_remove (t : String) (ht : IsPlainKey t)
    (m : List (String × QVariant)) :
    FwRevision.get t (FwRevision.remove t (QSettings.ofStore m)) = 0 := by
  have hP : IsGroupPath FwRevision.settingsPath := by
    refine Or.inr ⟨["FwRevisions".data], by simp, ?_, rfl⟩
    intro s hs
    simp only [List.mem_singleton] at hs
    subst hs
    constructor <;> decide
  unfold FwRevision.get FwRevision.remove
  rw [clear_ofStore _ _ hP ht, load_ofStore _ _ hP ht, lookup_cleared]
  rfl

/-- C20 fails on the code: `set("x9d", 123)` on an empty store writes "123" under the key
"x9d/123" and nothing under "FwRevisions/x9d", and `get("x9d")` returns 0 afterwards; with a
revision stored before under "FwRevisions/x9d", `get` still returns that old revision. -/
theorem fwRevision_set_writes_elsewhere :
    (FwRevision.set "x9d" 123 (QSettings.ofStore [])).map = [("x9d/123", .qString "123")]
    ∧ (FwRevision.set "x9d" 123 (QSettings.ofStore [])).contains "FwRevisions/x9d" = false
    ∧ FwRevision.get "x9d" (FwRevision.set "x9d" 123 (QSettings.ofStore [])) = 0
    ∧ FwRevision.get "x9d"
        (FwRevision.set "x9d" 123 (QSettings.ofStore [("FwRevisions/x9d", .qString "77")]))
        = 77 := by
  decide

/-! ## C21: `JStickData::existsOnDisk` -/

theorem value_ofStore (P K : String) (hP : IsGroupPath P) (hK : IsPlainKey K) (d : QVariant)
    (m : List (String × QVariant)) :
    (QSettings.ofStore m).value (P ++ K) d = (m.lookup (P ++ K)).getD d := by
  unfold QSettings.value
  rw [if_neg (path_append_key_ne_empty P K hK), actualKey_ofStore,
    path_append_key_normalized P K hP hK]
  rfl

/-- `existsOnDisk()` of a joystick reads the axis entry, -1 when there is none, with
`toInt()`. -/
theorem jstick_existsOnDisk_ofStore (j : JStickData) (m : List (String × QVariant)) :
    j.existsOnDisk (QSettings.ofStore m)
      = decide (((m.lookup ("JsCalibration/" ++ ("stick" ++ toString j.index ++ "_axe"))).getD
          (.int (-1))).toInt > -1) := by
  have h := value_ofStore _ _ (jstick_path_isGroupPath j)
    (jstick_key_plain j.index .stick_axe) (.int (-1)) m
  have hk : JStickField.key j.index .stick_axe = "stick" ++ toString j.index ++ "_axe" := rfl
  rw [hk] at h
  unfold JStickData.existsOnDisk
  rw [h]
  rfl

theorem jstick_existsOnDisk_of_index (j q : JStickData) (h : j.index = q.index)
    (s : QSettings) : j.existsOnDisk s = q.existsOnDisk s := by
  simp only [JStickData.existsOnDisk, JStickData.settingsPath, h]

/-- A sequence of Reset calls on a joystick leaves no entry for the properties reset and
brings back no key. -/
theorem jstick_resets (fs : List JStickField) : ∀ (j : JStickData)
    (m : List (String × QVariant)),
    ∃ m2, (fs.foldl (fun st f => st.1.fieldReset f true st.2) (j, QSettings.ofStore m)).2
        = QSettings.ofStore m2
      ∧ (fs.foldl (fun st f => st.1.fieldReset f true st.2) (j, QSettings.ofStore m)).1.index
        = j.index
      ∧ (∀ k : String, m.lookup k = none → m2.lookup k = none)
      ∧ ∀ f ∈ fs, m2.lookup ("JsCalibration/" ++ f.key j.index) = none := by
  induction fs with
  | nil => intro j m; exact ⟨m, rfl, rfl, fun _ h => h, fun f hf => absurd hf (List.not_mem_nil _)⟩
  | cons g rest ih =>
    intro j m
    have hd := setter_default j.settingsPath (g.key j.index) (jstick_path_isGroupPath j)
      (jstick_key_plain j.index g) g.type g.dflt m
    have hstep : j.fieldReset g true (QSettings.ofStore m)
        = ((j.fieldReset g true (QSettings.ofStore m)).1,
           QSettings.ofStore (QSettings.withoutKey (j.settingsPath ++ g.key j.index) m)) := by
      simp only [JStickData.fieldReset, JStickData.set, hd]
      rfl
    have hidx : (j.fieldReset g true (QSettings.ofStore m)).1.index = j.index := rfl
    obtain ⟨m2, h1, h2, h3, h4⟩ := ih (j.fieldReset g true (QSettings.ofStore m)).1
      (QSettings.withoutKey (j.settingsPath ++ g.key j.index) m)
    rw [List.foldl_cons, hstep]
    refine ⟨m2, h1, h2.trans hidx, ?_, ?_⟩
    · intro k hk
      exact h3 k (lookup_withoutKey_none _ _ _ hk)
    · intro f hf
      rcases List.mem_cons.mp hf with h | h
      · subst h
        apply h3
        rw [lookup_withoutKey]
        have : QSettings.isKeyOrSubKey (j.settingsPath ++ f.key j.index)
            ("JsCalibration/" ++ f.key j.index) = true := isKeyOrSubKey_self _
        rw [this]
        rfl
      · have := h4 f h
        rw [hidx] at this
        exact this

/-- C21 fails as stated: `existsOnDisk()` reads the entry with `toInt()`, which gives 0 for
text that is not a number.  With "abc" stored under "JsCalibration/stick0_axe" the entry is
not an integer, yet `existsOnDisk()` is true. -/
theorem jstick_exists_with_text_axis :
    JStickData.existsOnDisk { JStickData.ctor with index := 0 }
        (QSettings.ofStore [("JsCalibration/stick0_axe", .qString "abc")]) = true
    ∧ toLongLong "abc".data = none
    ∧ (QVariant.qString "abc").toInt = 0 := by
  decide

/-- C21 as amended.  For every joystick object (any index `N`) and every content `m` of the
store: `existsOnDisk()` is true if and only if "JsCalibration/stick<N>_axe" is present and
its value read with `toInt()` is greater than -1; for a stored `int` this means a
non-negative value; and `existsOnDisk()` is false immediately after `reset()` and
immediately after the axis is set to its default -1. -/
theorem jstick_existsOnDisk_iff (j : JStickData) (m : List (String × QVariant)) :
    (j.existsOnDisk (QSettings.ofStore m) = true
      ↔ ∃ v : QVariant,
          m.lookup ("JsCalibration/" ++ ("stick" ++ toString j.index ++ "_axe")) = some v
          ∧ v.toInt > -1)
    ∧ (∀ n : Int,
        m.lookup ("JsCalibration/" ++ ("stick" ++ toString j.index ++ "_axe"))
          = some (QVariant.int n) →
        (j.existsOnDisk (QSettings.ofStore m) = true ↔ 0 ≤ n))
    ∧ (j.reset (QSettings.ofStore m)).1.existsOnDisk (j.reset (QSettings.ofStore m)).2 = false
    ∧ (j.set .stick_axe (-1 : Int) true (QSettings.ofStore m)).1.existsOnDisk
        (j.set .stick_axe (-1 : Int) true (QSettings.ofStore m)).2 = false := by
  refine ⟨?_, ?_, ?_, ?_⟩
  · rw [jstick_existsOnDisk_ofStore, decide_eq_true_iff]
    cases hl : m.lookup ("JsCalibration/" ++ ("stick" ++ toString j.index ++ "_axe")) with
    | none =>
      constructor
      · intro h
        exact absurd h (by decide)
      · rintro ⟨v, hv, _⟩
        exact Option.noConfusion hv
    | some v =>
      constructor
      · intro h
        exact ⟨v, rfl, h⟩
      · rintro ⟨w, hw, hw2⟩
        have : v = w := Option.some.inj hw
        subst this
        exact hw2
  · intro n hn
    rw [jstick_existsOnDisk_ofStore, decide_eq_true_iff, hn]
    show n > -1 ↔ 0 ≤ n
    omega
  · obtain ⟨m2, h1, h2, _, h4⟩ := jstick_resets JStickData.fieldOrder j m
    have hr : j.reset (QSettings.ofStore m)
        = JStickData.fieldOrder.foldl (fun st f => st.1.fieldReset f true st.2)
            (j, QSettings.ofStore m) := rfl
    rw [hr, h1, jstick_existsOnDisk_ofStore, h2]
    have := h4 .stick_axe (by decide)
    have hk : JStickField.key j.index .stick_axe = "stick" ++ toString j.index ++ "_axe" := rfl
    rw [hk] at this
    rw [this]
    decide
  · have hd := setter_default j.settingsPath (JStickField.key j.index .stick_axe)
      (jstick_path_isGroupPath j) (jstick_key_plain j.index .stick_axe)
      (JStickField.type .stick_axe) (JStickField.dflt .stick_axe) m
    have hidx : (j.set .stick_axe (-1 : Int) true (QSettings.ofStore m)).1.index = j.index := rfl
    have h2 : (j.set .stick_axe (-1 : Int) true (QSettings.ofStore m)).2
        = QSettings.ofStore (m.filter (fun e => !QSettings.isKeyOrSubKey
            (j.settingsPath ++ JStickField.key j.index .stick_axe) e.1)) := by
      simp only [JStickData.set]
      exact congrArg Prod.snd hd
    rw [jstick_existsOnDisk_of_index _ j hidx, h2, jstick_existsOnDisk_ofStore]
    have : (m.filter (fun e => !QSettings.isKeyOrSubKey
        (j.settingsPath ++ JStickField.key j.index .stick_axe) e.1)).lookup
        ("JsCalibration/" ++ ("stick" ++ toString j.index ++ "_axe")) = none :=
      lookup_cleared _ m
    rw [this]
    decide

/-- Witness of C21 as amended: joystick 3 with axis 2 stored. -/
theorem jstick_existsOnDisk_iff_witness :
    (JStickData.existsOnDisk { JStickData.ctor with index := 3 }
        (QSettings.ofStore [("JsCalibration/stick3_axe", .int 2)]) = true ↔ (0 : Int) ≤ 2) :=
  (jstick_existsOnDisk_iff { JStickData.ctor with index := 3 }
    [("JsCalibration/stick3_axe", .int 2)]).2.1 2 (by decide)

/-! ## C22: `pathForKey` -/

/-- C22 fails as stated: the test is `group.isNull()`, so an empty group that is not null is
used as it is.  For a profile with path "Profiles/profile1/", the key "Name" and the empty
group `QString("")` the result is "Name", not "Profiles/profile1/Name". -/
theorem pathForKey_empty_group :
    CompStoreObj.pathForKey "Profiles/profile1/" "Name" (some "") = "Name"
    ∧ CompStoreObj.pathForKey "Profiles/profile1/" "Name" none = "Profiles/profile1/Name" := by
  decide

/-- C22 as amended.  For every key and group, the path used by `pathForKey` is
`settingsPath()` when the group is null and the given group otherwise, an empty group
included; the result is the key alone when that path is empty, the path followed by the key
when the path ends with '/', and the path, one '/' and the key otherwise. -/
theorem pathForKey_rule (settingsPath key : String) (group : Option String) :
    (group.getD settingsPath = "" →
      CompStoreObj.pathForKey settingsPath key group = key)
    ∧ (group.getD settingsPath ≠ "" → (group.getD settingsPath).data.getLast? = some '/' →
      CompStoreObj.pathForKey settingsPath key group = group.getD settingsPath ++ key)
    ∧ (group.getD settingsPath ≠ "" → (group.getD settingsPath).data.getLast? ≠ some '/' →
      CompStoreObj.pathForKey settingsPath key group
        = group.getD settingsPath ++ "/" ++ key) := by
  have h : CompStoreObj.pathForKey settingsPath key group
      = (if group.getD settingsPath ≠ "" ∧ (group.getD settingsPath).data.getLast? ≠ some '/'
          then group.getD settingsPath ++ "/" else group.getD settingsPath) ++ key := by
    cases group <;> rfl
  refine ⟨?_, ?_, ?_⟩
  · intro h0
    rw [h, h0]
    exact empty_append key
  · intro h0 h1
    rw [h, if_neg (fun hc => hc.2 h1)]
  · intro h0 h1
    rw [h, if_pos ⟨h0, h1⟩]

/-- Witness of C22 as amended: the group "FwRevisions" and the key "x9d". -/
theorem pathForKey_rule_witness :
    CompStoreObj.pathForKey "" "x9d" (some "FwRevisions")
      = (some "FwRevisions").getD "" ++ "/" ++ "x9d" :=
  (pathForKey_rule "" "x9d" (some "FwRevisions")).2.2 (by decide) (by decide)

/-! ## C23: the profile id after `init` -/

/-- C23 fails on the code: with 99 stored under "profileId", `init()` loads 99 into the
persisted id without a range check and `sessionId(99)` is refused, so `id()` is 99 and
`sessionId()` is 0. -/
theorem init_session_id_differs :
    (AppData.init ⟨0, ""⟩ (AppData.ctor [("profileId", .int 99)])).id = 99
    ∧ (AppData.init ⟨0, ""⟩ (AppData.ctor [("profileId", .int 99)])).sessionId = 0 := by
  decide

/-! ## C24: the session id stays a valid index -/

theorem app_fieldInits_ids (env : BuildEnv) (fs : List AppField) : ∀ a : AppData,
    (fs.foldl (fun b f => b.fieldInit env f) a).m_sessionId = a.m_sessionId
    ∧ (fs.foldl (fun b f => b.fieldInit env f) a).m_profileId = a.m_profileId := by
  induction fs with
  | nil => intro a; exact ⟨rfl, rfl⟩
  | cons f rest ih =>
    intro a
    rw [List.foldl_cons]
    exact ih (a.fieldInit env f)

theorem initJoysticks_sessionId (a : AppData) :
    a.initJoysticks.m_sessionId = a.m_sessionId := by
  have h : ∀ (l : List (Fin MAX_JOYSTICKS)) (b : AppData),
      (l.foldl
        (fun a i =>
          let j := (a.joystick i).init ((i.val : Nat) : Int) a.m_settings
          ({ a with joystick := Function.update a.joystick i j } : AppData)) b).m_sessionId
        = b.m_sessionId := by
    intro l
    induction l with
    | nil => intro b; rfl
    | cons i rest ih => intro b; rw [List.foldl_cons, ih]
  exact h _ a

theorem initProfiles_sessionId (a : AppData) :
    a.initProfiles.m_sessionId = a.m_sessionId := by
  have h : ∀ (l : List (Fin MAX_PROFILES)) (b : AppData),
      (l.foldl
        (fun a i =>
          let p := (a.profile i).init ((i.val : Nat) : Int) a.m_settings
          ({ a with profile := Function.update a.profile i p } : AppData)) b).m_sessionId
        = b.m_sessionId := by
    intro l
    induction l with
    | nil => intro b; rfl
    | cons i rest ih => intro b; rw [List.foldl_cons, ih]
  exact h _ a

theorem convertSettings_sessionId (env : BuildEnv) (a : AppData) :
    (a.convertSettings env).m_sessionId = a.m_sessionId := by
  have h1 : (a.convertUseWizard env).m_sessionId = a.m_sessionId := by
    unfold AppData.convertUseWizard
    split_ifs <;> rfl
  have h2 : ∀ b : AppData, (b.convertWarningId env).m_sessionId = b.m_sessionId := by
    intro b
    unfold AppData.convertWarningId
    split_ifs <;> rfl
  have h3 : ∀ (l : List String) (b : AppData),
      (l.foldl (fun b key => ({ b with m_settings := b.m_settings.remove key } : AppData))
        b).m_sessionId = b.m_sessionId := by
    intro l
    induction l with
    | nil => intro b; rfl
    | cons k rest ih => intro b; rw [List.foldl_cons, ih]
  unfold AppData.convertSettings AppData.removeDeprecated
  rw [h3, h2, h1]

theorem sessionIdSet_valid (x : Int) (a : AppData)
    (h : a.m_sessionId > -1 ∧ a.m_sessionId < (MAX_PROFILES : Nat)) :
    (a.sessionIdSet x).m_sessionId > -1 ∧ (a.sessionIdSet x).m_sessionId < (MAX_PROFILES : Nat) := by
  unfold AppData.sessionIdSet
  split_ifs with hx
  · exact hx
  · exact h

/-- The session id after `init()`: the persisted id that was loaded when that is a valid
index, the session id of before otherwise. -/
theorem init_sessionId (env : BuildEnv) (a : AppData) :
    (a.init env).m_sessionId
      = if (a.init env).m_profileId > -1 ∧ (a.init env).m_profileId < (MAX_PROFILES : Nat)
        then (a.init env).m_profileId else a.m_sessionId := by
  have hs : ∀ b : AppData, b.initProfileId.m_sessionId
      = if b.initProfileId.m_profileId > -1 ∧ b.initProfileId.m_profileId < (MAX_PROFILES : Nat)
        then b.initProfileId.m_profileId else b.m_sessionId := by
    intro b
    unfold AppData.initProfileId AppData.sessionIdSet AppData.id
    dsimp only
    split_ifs <;> rfl
  have hv : ∀ b : AppData, b.initVersion.m_sessionId = b.m_sessionId := fun _ => rfl
  unfold AppData.init
  simp only [(app_fieldInits_ids env _ _).1, (app_fieldInits_ids env _ _).2]
  rw [hs, hv, initJoysticks_sessionId, initProfiles_sessionId, convertSettings_sessionId]

theorem appCall_run_valid (env : BuildEnv) (c : AppCall) (a : AppData)
    (h : a.m_sessionId > -1 ∧ a.m_sessionId < (MAX_PROFILES : Nat)) :
    (c.run env a).m_sessionId > -1 ∧ (c.run env a).m_sessionId < (MAX_PROFILES : Nat) := by
  cases c with
  | init =>
    show (a.init env).m_sessionId > -1 ∧ (a.init env).m_sessionId < (MAX_PROFILES : Nat)
    rw [init_sessionId]
    split_ifs with hx
    · exact hx
    · exact h
  | id x =>
    show (a.idSet x).m_sessionId > -1 ∧ (a.idSet x).m_sessionId < (MAX_PROFILES : Nat)
    unfold AppData.idSet
    split_ifs
    · exact h
    · exact sessionIdSet_valid _ _ h
  | sessionId x => exact sessionIdSet_valid x a h
  | importSettings w v files =>
    have : (a.importSettings w v files).2.m_sessionId = a.m_sessionId := by
      unfold AppData.importSettings
      cases AppData.importSource v with
      | none => rfl
      | some cp => rfl
    show (a.importSettings w v files).2.m_sessionId > -1
      ∧ (a.importSettings w v files).2.m_sessionId < (MAX_PROFILES : Nat)
    rw [this]
    exact h
  | set f val store => exact h
  | profileSet i f val store => exact h

theorem runAll_valid (env : BuildEnv) (calls : List AppCall) : ∀ a : AppData,
    (a.m_sessionId > -1 ∧ a.m_sessionId < (MAX_PROFILES : Nat)) →
    (AppCall.runAll env calls a).m_sessionId > -1
    ∧ (AppCall.runAll env calls a).m_sessionId < (MAX_PROFILES : Nat) := by
  induction calls with
  | nil => intro a h; exact h
  | cons c rest ih =>
    intro a h
    unfold AppCall.runAll
    rw [List.foldl_cons]
    exact ih _ (appCall_run_valid env c a h)

/-- C24 (session-id invariant).  For every content `m` of the store and every sequence of
calls of `init()`, `id(x)`, `sessionId(x)`, `importSettings` and property setters made on
the constructed object: `0 ≤ sessionId() < MAX_PROFILES` afterwards, the test of
`getProfile` succeeds for it, and `currentProfile()` is `profile[sessionId()]`. -/
theorem sessionId_invariant (env : BuildEnv) (m : List (String × QVariant))
    (calls : List AppCall) :
    (0 ≤ (AppCall.runAll env calls (AppData.ctor m)).sessionId
      ∧ (AppCall.runAll env calls (AppData.ctor m)).sessionId < (MAX_PROFILES : Nat))
    ∧ ((AppCall.runAll env calls (AppData.ctor m)).sessionId > -1
      ∧ (AppCall.runAll env calls (AppData.ctor m)).sessionId < (MAX_PROFILES : Nat))
    ∧ ∃ h : (AppCall.runAll env calls (AppData.ctor m)).sessionId.toNat < MAX_PROFILES,
        (AppCall.runAll env calls (AppData.ctor m)).currentProfile
          = (AppCall.runAll env calls (AppData.ctor m)).profile
              ⟨(AppCall.runAll env calls (AppData.ctor m)).sessionId.toNat, h⟩ := by
  have hc : (AppData.ctor m).m_sessionId = 0 := rfl
  have hv := runAll_valid env calls (AppData.ctor m) (by rw [hc]; decide)
  generalize AppCall.runAll env calls (AppData.ctor m) = G at hv ⊢
  have h0 : 0 ≤ G.m_sessionId := by have := hv.1; omega
  refine ⟨⟨h0, hv.2⟩, hv, ?_⟩
  have hn : G.m_sessionId.toNat < MAX_PROFILES := by have := hv.2; omega
  refine ⟨hn, ?_⟩
  unfold AppData.currentProfile AppData.getProfile
  rw [dif_pos hv]
  rfl

/-! ## C25: storing, then loading -/

theorem isKeyOrSubKey_sibling (P K K2 : String) (hK2 : IsPlainKey K2) (hne : K2 ≠ K) :
    QSettings.isKeyOrSubKey (P ++ K) (P ++ K2) = false := by
  unfold QSettings.isKeyOrSubKey
  rw [Bool.or_eq_false_iff]
  constructor
  · rw [decide_eq_false_iff_not]
    intro e
    apply hne
    have h := congrArg String.data e
    simp only [String.data_append] at h
    exact String.ext (List.append_cancel_left h)
  · cases hb : (P ++ K ++ "/").data.isPrefixOf (P ++ K2).data with
    | false => rfl
    | true =>
      have hp := List.isPrefixOf_iff_prefix.mp hb
      simp only [String.data_append, List.append_assoc] at hp
      obtain ⟨t, ht⟩ := (List.prefix_append_right_inj P.data).mp hp
      exfalso
      apply hK2.2
      rw [← ht]
      simp

/-- What the setter with `store = true` leaves in the store: nothing under its own key
when the value is the default, the value otherwise; keys that are neither its key nor a
sub-key of it keep their entry. -/
theorem setter_lookup (P K : String) (hP : IsGroupPath P) (hK : IsPlainKey K) (t : QMetaType)
    (D V : t.T) (m : List (String × QVariant)) :
    ∃ m2, PROPERTY4.setter P t K D V true (QSettings.ofStore m) = (V, QSettings.ofStore m2)
      ∧ m2.lookup (P ++ K) = (if V = D then none else some (QVariant.fromValue t V))
      ∧ ∀ k, QSettings.isKeyOrSubKey (P ++ K) k = false → m2.lookup k = m.lookup k := by
  by_cases hV : V = D
  · subst hV
    refine ⟨_, setter_default P K hP hK t V m, ?_, ?_⟩
    · rw [if_pos rfl]
      exact lookup_cleared _ _
    · intro k hk
      rw [lookup_filter_key (fun x => !QSettings.isKeyOrSubKey (P ++ K) x), hk]
      rfl
  · refine ⟨_, setter_other P K hP hK t D V hV m, ?_, ?_⟩
    · rw [if_neg hV]
      exact lookup_insert_self _ _ _
    · intro k hk
      apply lookup_insert_ne
      intro e
      subst e
      rw [isKeyOrSubKey_self] at hk
      exact Bool.noConfusion hk

/-- The member `name_init()` reads back what the setter left in the store. -/
theorem init_of_lookup (P K : String) (hP : IsGroupPath P) (hK : IsPlainKey K) (t : QMetaType)
    (D V cur : t.T) (m : List (String × QVariant))
    (h : m.lookup (P ++ K) = if V = D then none else some (QVariant.fromValue t V)) :
    PROPERTY4.init P t K D cur (QSettings.ofStore m) = V := by
  unfold PROPERTY4.init
  rw [load_ofStore P K hP hK, h]
  by_cases hV : V = D
  · subst hV
    simp [canConvert_fromValue, value_fromValue]
  · simp [hV, canConvert_fromValue, value_fromValue]

theorem init_congr_lookup (P K : String) (hP : IsGroupPath P) (hK : IsPlainKey K)
    (t : QMetaType) (D cur : t.T) (m m2 : List (String × QVariant))
    (h : m2.lookup (P ++ K) = m.lookup (P ++ K)) :
    PROPERTY4.init P t K D cur (QSettings.ofStore m2)
      = PROPERTY4.init P t K D cur (QSettings.ofStore m) := by
  unfold PROPERTY4.init
  rw [load_ofStore P K hP hK, load_ofStore P K hP hK, h]

/-- Running `name_init()` a second time on the same store changes nothing. -/
theorem init_idem (P K : String) (t : QMetaType) (D cur : t.T) (s : QSettings) :
    PROPERTY4.init P t K D (PROPERTY4.init P t K D cur s) s = PROPERTY4.init P t K D cur s := by
  unfold PROPERTY4.init CompStoreObj.load
  dsimp only
  split_ifs <;> rfl

theorem profile_key_injective (f g : ProfileField) (h : f.key = g.key) : f = g := by
  cases f <;> cases g <;> first | rfl | exact absurd h (by decide)

theorem profile_ext (a b : Profile) (h1 : a.index = b.index)
    (h2 : ∀ f, a.value f = b.value f) : a = b := by
  cases a
  cases b
  simp only [Profile.mk.injEq]
  exact ⟨h1, funext h2⟩

/-- The member `name_init()` of `f` leaves the object as it is exactly when it loads the
value the object already holds. -/
theorem profile_fieldInit_eq_self (p : Profile) (f : ProfileField) (s : QSettings) :
    p.fieldInit f s = p
      ↔ PROPERTY4.init p.settingsPath f.type f.key f.dflt (p.value f) s = p.value f := by
  constructor
  · intro h
    have h2 := congrArg (fun x => x.value f) h
    simpa [Profile.fieldInit] using h2
  · intro h
    apply profile_ext
    · rfl
    · intro g
      by_cases hg : g = f
      · subst hg
        simp only [Profile.fieldInit, Function.update_same]
        exact h
      · simp only [Profile.fieldInit, Function.update_noteq hg]

/-- One setter call with `store = true`: the property set is in step with the store
afterwards, and every property that was in step with the store still is. -/
theorem profile_set_stable (p : Profile) (g : ProfileField) (V : g.type.T)
    (m : List (String × QVariant)) :
    ∃ m2, p.set g V true (QSettings.ofStore m)
        = ((p.set g V true (QSettings.ofStore m)).1, QSettings.ofStore m2)
      ∧ (p.set g V true (QSettings.ofStore m)).1.index = p.index
      ∧ ∀ f, (f = g ∨ p.fieldInit f (QSettings.ofStore m) = p) →
          (p.set g V true (QSettings.ofStore m)).1.fieldInit f (QSettings.ofStore m2)
            = (p.set g V true (QSettings.ofStore m)).1 := by
  obtain ⟨m2, h1, h2, h3⟩ := setter_lookup p.settingsPath g.key (profile_path_isGroupPath p)
    (profile_key_plain g) g.type g.dflt V m
  have hset : p.set g V true (QSettings.ofStore m)
      = (({ p with value := Function.update p.value g V } : Profile), QSettings.ofStore m2) := by
    unfold Profile.set
    rw [h1]
  rw [hset]
  refine ⟨m2, rfl, rfl, ?_⟩
  intro f hf
  rw [profile_fieldInit_eq_self]
  by_cases hfg : f = g
  · subst hfg
    simp only [Function.update_same]
    exact init_of_lookup _ _ (profile_path_isGroupPath p) (profile_key_plain f) _ _ _ _ _ h2
  · rcases hf with hf | hf
    · exact absurd hf hfg
    · simp only [Function.update_noteq hfg]
      have hk : f.key ≠ g.key := fun e => hfg (profile_key_injective f g e)
      have hl := h3 (p.settingsPath ++ f.key)
        (isKeyOrSubKey_sibling p.settingsPath g.key f.key (profile_key_plain f) hk)
      have hc := init_congr_lookup p.settingsPath f.key (profile_path_isGroupPath p)
        (profile_key_plain f) f.type f.dflt (p.value f) m m2 hl
      exact hc.trans ((profile_fieldInit_eq_self p f _).mp hf)

/-- A sequence of setter calls with `store = true`: every property set in it, and every
property that was in step with the store, is in step with the store afterwards. -/
theorem profile_setters_stable (ops : List (Σ f : ProfileField, f.type.T)) :
    ∀ (p : Profile) (m : List (String × QVariant)),
    ∃ m2, Profile.setters ops p (QSettings.ofStore m)
        = ((Profile.setters ops p (QSettings.ofStore m)).1, QSettings.ofStore m2)
      ∧ (Profile.setters ops p (QSettings.ofStore m)).1.index = p.index
      ∧ ∀ f, (f ∈ ops.map Sigma.fst ∨ p.fieldInit f (QSettings.ofStore m) = p) →
          (Profile.setters ops p (QSettings.ofStore m)).1.fieldInit f (QSettings.ofStore m2)
            = (Profile.setters ops p (QSettings.ofStore m)).1 := by
  induction ops with
  | nil => intro p m; exact ⟨m, rfl, rfl, fun f hf => hf.resolve_left (by simp)⟩
  | cons o rest ih =>
    intro p m
    obtain ⟨m1, h1, h2, h3⟩ := profile_set_stable p o.1 o.2 m
    have hstep : Profile.setters (o :: rest) p (QSettings.ofStore m)
        = Profile.setters rest (p.set o.1 o.2 true (QSettings.ofStore m)).1
            (QSettings.ofStore m1) := by
      unfold Profile.setters
      rw [List.foldl_cons, ← h1]
    obtain ⟨m2, g1, g2, g3⟩ := ih (p.set o.1 o.2 true (QSettings.ofStore m)).1 m1
    rw [hstep]
    refine ⟨m2, g1, g2.trans h2, ?_⟩
    intro f hf
    apply g3
    rw [List.map_cons, List.mem_cons] at hf
    rcases hf with (hf | hf) | hf
    · exact Or.inr (h3 f (Or.inl hf))
    · exact Or.inl hf
    · exact Or.inr (h3 f (Or.inr hf))

/-- One `name_init()` call: the property loaded is in step with the store afterwards, and
a property that was in step with the store still is and keeps its value. -/
theorem profile_fieldInit_stable (p : Profile) (f g : ProfileField) (s : QSettings)
    (h : f = g ∨ p.fieldInit f s = p) :
    (p.fieldInit g s).fieldInit f s = p.fieldInit g s := by
  by_cases hfg : f = g
  · subst hfg
    rw [profile_fieldInit_eq_self]
    simp only [Profile.fieldInit, Function.update_same]
    exact init_idem _ _ _ _ _ _
  · rcases h with h | h
    · exact absurd h hfg
    · rw [profile_fieldInit_eq_self]
      simp only [Profile.fieldInit, Function.update_noteq hfg]
      exact (profile_fieldInit_eq_self p f s).mp h

theorem profile_fieldInit_value_stable (p : Profile) (f g : ProfileField) (s : QSettings)
    (h : p.fieldInit f s = p) : (p.fieldInit g s).value f = p.value f := by
  by_cases hfg : f = g
  · subst hfg
    rw [h]
  · exact profile_fieldInit_other p f g s hfg

theorem profile_fieldInits_stable (s : QSettings) (f : ProfileField) (fs : List ProfileField) :
    ∀ p : Profile, (f ∈ fs ∨ p.fieldInit f s = p) →
      (fs.foldl (fun q g => q.fieldInit g s) p).fieldInit f s
        = fs.foldl (fun q g => q.fieldInit g s) p := by
  induction fs with
  | nil => intro p h; exact h.resolve_left (by simp)
  | cons g rest ih =>
    intro p h
    rw [List.foldl_cons]
    apply ih
    rw [List.mem_cons] at h
    rcases h with (h | h) | h
    · exact Or.inr (profile_fieldInit_stable p f g s (Or.inl h))
    · exact Or.inl h
    · exact Or.inr (profile_fieldInit_stable p f g s (Or.inr h))

theorem profile_fieldInits_value (s : QSettings) (f : ProfileField) (fs : List ProfileField) :
    ∀ p : Profile, p.fieldInit f s = p →
      (fs.foldl (fun q g => q.fieldInit g s) p).value f = p.value f := by
  induction fs with
  | nil => intro p _; rfl
  | cons g rest ih =>
    intro p h
    rw [List.foldl_cons, ih _ (profile_fieldInit_stable p f g s (Or.inr h))]
    exact profile_fieldInit_value_stable p f g s h

theorem profile_mem_initOrder (f : ProfileField) : f ∈ Profile.initOrder := by
  cases f <;> decide

/-- After `init(N)` every property is in step with the store. -/
theorem profile_init_stable (p : Profile) (N : Int) (s : QSettings) (f : ProfileField) :
    (p.init N s).fieldInit f s = p.init N s :=
  profile_fieldInits_stable s f Profile.initOrder _ (Or.inl (profile_mem_initOrder f))

/-- A property that is in step with the store keeps its value in `init(index)`. -/
theorem profile_init_value (p : Profile) (s : QSettings) (f : ProfileField)
    (h : p.fieldInit f s = p) : (p.init p.index s).value f = p.value f :=
  profile_fieldInits_value s f Profile.initOrder p h

theorem stick_key_suffix (index : Int) (a b : String)
    (h : "stick" ++ toString index ++ a = "stick" ++ toString index ++ b) : a = b := by
  have h2 := congrArg String.data h
  simp only [String.data_append] at h2
  exact String.ext (List.append_cancel_left h2)

theorem jstick_key_injective (index : Int) (f g : JStickField)
    (h : f.key index = g.key index) : f = g := by
  cases f <;> cases g <;>
    first
    | rfl
    | exact absurd (stick_key_suffix index _ _ h) (by decide)

theorem jstick_ext (a b : JStickData) (h1 : a.index = b.index)
    (h2 : ∀ f, a.value f = b.value f) : a = b := by
  cases a
  cases b
  simp only [JStickData.mk.injEq]
  exact ⟨h1, funext h2⟩

theorem jstick_fieldInit_eq_self (j : JStickData) (f : JStickField) (s : QSettings) :
    j.fieldInit f s = j
      ↔ PROPERTY4.init j.settingsPath f.type (f.key j.index) f.dflt (j.value f) s
          = j.value f := by
  constructor
  · intro h
    have h2 := congrArg (fun x => x.value f) h
    simpa [JStickData.fieldInit] using h2
  · intro h
    apply jstick_ext
    · rfl
    · intro g
      by_cases hg : g = f
      · subst hg
        simp only [JStickData.fieldInit, Function.update_same]
        exact h
      · simp only [JStickData.fieldInit, Function.update_noteq hg]

theorem jstick_set_stable (j : JStickData) (g : JStickField) (V : g.type.T)
    (m : List (String × QVariant)) :
    ∃ m2, j.set g V true (QSettings.ofStore m)
        = ((j.set g V true (QSettings.ofStore m)).1, QSettings.ofStore m2)
      ∧ (j.set g V true (QSettings.ofStore m)).1.index = j.index
      ∧ ∀ f, (f = g ∨ j.fieldInit f (QSettings.ofStore m) = j) →
          (j.set g V true (QSettings.ofStore m)).1.fieldInit f (QSettings.ofStore m2)
            = (j.set g V true (QSettings.ofStore m)).1 := by
  obtain ⟨m2, h1, h2, h3⟩ := setter_lookup j.settingsPath (g.key j.index)
    (jstick_path_isGroupPath j) (jstick_key_plain j.index g) g.type g.dflt V m
  have hset : j.set g V true (QSettings.ofStore m)
      = (({ j with value := Function.update j.value g V } : JStickData),
          QSettings.ofStore m2) := by
    unfold JStickData.set
    rw [h1]
  rw [hset]
  refine ⟨m2, rfl, rfl, ?_⟩
  intro f hf
  rw [jstick_fieldInit_eq_self]
  by_cases hfg : f = g
  · subst hfg
    simp only [Function.update_same]
    exact init_of_lookup _ _ (jstick_path_isGroupPath j) (jstick_key_plain j.index f)
      _ _ _ _ _ h2
  · rcases hf with hf | hf
    · exact absurd hf hfg
    · simp only [Function.update_noteq hfg]
      have hk : f.key j.index ≠ g.key j.index :=
        fun e => hfg (jstick_key_injective j.index f g e)
      have hl := h3 (j.settingsPath ++ f.key j.index)
        (isKeyOrSubKey_sibling j.settingsPath (g.key j.index) (f.key j.index)
          (jstick_key_plain j.index f) hk)
      have hc := init_congr_lookup j.settingsPath (f.key j.index) (jstick_path_isGroupPath j)
        (jstick_key_plain j.index f) f.type f.dflt (j.value f) m m2 hl
      exact hc.trans ((jstick_fieldInit_eq_self j f _).mp hf)

theorem jstick_setters_stable (ops : List (Σ f : JStickField, f.type.T)) :
    ∀ (j : JStickData) (m : List (String × QVariant)),
    ∃ m2, JStickData.setters ops j (QSettings.ofStore m)
        = ((JStickData.setters ops j (QSettings.ofStore m)).1, QSettings.ofStore m2)
      ∧ (JStickData.setters ops j (QSettings.ofStore m)).1.index = j.index
      ∧ ∀ f, (f ∈ ops.map Sigma.fst ∨ j.fieldInit f (QSettings.ofStore m) = j) →
          (JStickData.setters ops j (QSettings.ofStore m)).1.fieldInit f (QSettings.ofStore m2)
            = (JStickData.setters ops j (QSettings.ofStore m)).1 := by
  induction ops with
  | nil => intro j m; exact ⟨m, rfl, rfl, fun f hf => hf.resolve_left (by simp)⟩
  | cons o rest ih =>
    intro j m
    obtain ⟨m1, h1, h2, h3⟩ := jstick_set_stable j o.1 o.2 m
    have hstep : JStickData.setters (o :: rest) j (QSettings.ofStore m)
        = JStickData.setters rest (j.set o.1 o.2 true (QSettings.ofStore m)).1
            (QSettings.ofStore m1) := by
      unfold JStickData.setters
      rw [List.foldl_cons, ← h1]
    obtain ⟨m2, g1, g2, g3⟩ := ih (j.set o.1 o.2 true (QSettings.ofStore m)).1 m1
    rw [hstep]
    refine ⟨m2, g1, g2.trans h2, ?_⟩
    intro f hf
    apply g3
    rw [List.map_cons, List.mem_cons] at hf
    rcases hf with (hf | hf) | hf
    · exact Or.inr (h3 f (Or.inl hf))
    · exact Or.inl hf
    · exact Or.inr (h3 f (Or.inr hf))

theorem jstick_fieldInit_stable (j : JStickData) (f g : JStickField) (s : QSettings)
    (h : f = g ∨ j.fieldInit f s = j) :
    (j.fieldInit g s).fieldInit f s = j.fieldInit g s := by
  by_cases hfg : f = g
  · subst hfg
    rw [jstick_fieldInit_eq_self]
    simp only [JStickData.fieldInit, Function.update_same]
    exact init_idem _ _ _ _ _ _
  · rcases h with h | h
    · exact absurd h hfg
    · rw [jstick_fieldInit_eq_self]
      simp only [JStickData.fieldInit, Function.update_noteq hfg]
      exact (jstick_fieldInit_eq_self j f s).mp h

theorem jstick_fieldInit_value_stable (j : JStickData) (f g : JStickField) (s : QSettings)
    (h : j.fieldInit f s = j) : (j.fieldInit g s).value f = j.value f := by
  by_cases hfg : f = g
  · subst hfg
    rw [h]
  · simp only [JStickData.fieldInit, Function.update_noteq hfg]

theorem jstick_fieldInits_stable (s : QSettings) (f : JStickField) (fs : List JStickField) :
    ∀ j : JStickData, (f ∈ fs ∨ j.fieldInit f s = j) →
      (fs.foldl (fun q g => q.fieldInit g s) j).fieldInit f s
        = fs.foldl (fun q g => q.fieldInit g s) j := by
  induction fs with
  | nil => intro j h; exact h.resolve_left (by simp)
  | cons g rest ih =>
    intro j h
    rw [List.foldl_cons]
    apply ih
    rw [List.mem_cons] at h
    rcases h with (h | h) | h
    · exact Or.inr (jstick_fieldInit_stable j f g s (Or.inl h))
    · exact Or.inl h
    · exact Or.inr (jstick_fieldInit_stable j f g s (Or.inr h))

theorem jstick_fieldInits_value (s : QSettings) (f : JStickField) (fs : List JStickField) :
    ∀ j : JStickData, j.fieldInit f s = j →
      (fs.foldl (fun q g => q.fieldInit g s) j).value f = j.value f := by
  induction fs with
  | nil => intro j _; rfl
  | cons g rest ih =>
    intro j h
    rw [List.foldl_cons, ih _ (jstick_fieldInit_stable j f g s (Or.inr h))]
    exact jstick_fieldInit_value_stable j f g s h

theorem jstick_fieldInits_index (s : QSettings) (fs : List JStickField) :
    ∀ j : JStickData, (fs.foldl (fun q g => q.fieldInit g s) j).index = j.index := by
  induction fs with
  | nil => intro j; rfl
  | cons g rest ih => intro j; rw [List.foldl_cons, ih]; rfl

theorem jstick_mem_fieldOrder (f : JStickField) : f ∈ JStickData.fieldOrder := by
  cases f <;> decide

theorem jstick_init_stable (j : JStickData) (N : Int) (s : QSettings) (f : JStickField) :
    (j.init N s).fieldInit f s = j.init N s :=
  jstick_fieldInits_stable s f JStickData.fieldOrder _ (Or.inl (jstick_mem_fieldOrder f))

theorem jstick_init_value (j : JStickData) (s : QSettings) (f : JStickField)
    (h : j.fieldInit f s = j) : (j.init j.index s).value f = j.value f :=
  jstick_fieldInits_value s f JStickData.fieldOrder j h

theorem jstick_init_index (j : JStickData) (N : Int) (s : QSettings) :
    (j.init N s).index = N :=
  jstick_fieldInits_index s JStickData.fieldOrder _

/-- C25 (persist/reload round trip).  For every content `m` of the store and every index
`N`: (1) on a `Profile` initialised with `init(N)`, after any sequence of setter calls with
`store = true` the index is still `N` and `init(N)` gives back the very same object;
(2) on any `Profile` whatever, every property set in such a sequence holds the same value
after `init(index)`, and when every property was set the object is the same; (3), (4) the
same two statements for `JStickData`. -/
theorem persist_reload_round_trip (m : List (String × QVariant)) (N : Int) :
    (∀ (p : Profile) (ops : List (Σ f : ProfileField, f.type.T)),
      (Profile.setters ops (p.init N (QSettings.ofStore m)) (QSettings.ofStore m)).1.index = N
      ∧ (Profile.setters ops (p.init N (QSettings.ofStore m)) (QSettings.ofStore m)).1.init N
          (Profile.setters ops (p.init N (QSettings.ofStore m)) (QSettings.ofStore m)).2
        = (Profile.setters ops (p.init N (QSettings.ofStore m)) (QSettings.ofStore m)).1)
    ∧ (∀ (p : Profile) (ops : List (Σ f : ProfileField, f.type.T)), p.index = N →
      (∀ f ∈ ops.map Sigma.fst,
        ((Profile.setters ops p (QSettings.ofStore m)).1.init N
            (Profile.setters ops p (QSettings.ofStore m)).2).value f
          = (Profile.setters ops p (QSettings.ofStore m)).1.value f)
      ∧ ((∀ f, f ∈ ops.map Sigma.fst) →
        (Profile.setters ops p (QSettings.ofStore m)).1.init N
            (Profile.setters ops p (QSettings.ofStore m)).2
          = (Profile.setters ops p (QSettings.ofStore m)).1))
    ∧ (∀ (j : JStickData) (ops : List (Σ f : JStickField, f.type.T)),
      (JStickData.setters ops (j.init N (QSettings.ofStore m)) (QSettings.ofStore m)).1.index = N
      ∧ (JStickData.setters ops (j.init N (QSettings.ofStore m)) (QSettings.ofStore m)).1.init N
          (JStickData.setters ops (j.init N (QSettings.ofStore m)) (QSettings.ofStore m)).2
        = (JStickData.setters ops (j.init N (QSettings.ofStore m)) (QSettings.ofStore m)).1)
    ∧ (∀ (j : JStickData) (ops : List (Σ f : JStickField, f.type.T)), j.index = N →
      (∀ f ∈ ops.map Sigma.fst,
        ((JStickData.setters ops j (QSettings.ofStore m)).1.init N
            (JStickData.setters ops j (QSettings.ofStore m)).2).value f
          = (JStickData.setters ops j (QSettings.ofStore m)).1.value f)
      ∧ ((∀ f, f ∈ ops.map Sigma.fst) →
        (JStickData.setters ops j (QSettings.ofStore m)).1.init N
            (JStickData.setters ops j (QSettings.ofStore m)).2
          = (JStickData.setters ops j (QSettings.ofStore m)).1)) := by
  refine ⟨?_, ?_, ?_, ?_⟩
  · intro p ops
    obtain ⟨m2, h1, h2, h3⟩ := profile_setters_stable ops (p.init N (QSettings.ofStore m)) m
    rw [h1]
    generalize (Profile.setters ops (p.init N (QSettings.ofStore m)) (QSettings.ofStore m)).1
      = r at h2 h3 ⊢
    have hN : r.index = N := h2.trans (profile_init_index N p _)
    refine ⟨hN, ?_⟩
    subst hN
    apply profile_ext
    · exact profile_init_index _ _ _
    · intro f
      exact profile_init_value r _ f (h3 f (Or.inr (profile_init_stable p _ _ f)))
  · intro p ops hp
    obtain ⟨m2, h1, h2, h3⟩ := profile_setters_stable ops p m
    rw [h1]
    generalize (Profile.setters ops p (QSettings.ofStore m)).1 = r at h2 h3 ⊢
    have hN : r.index = N := h2.trans hp
    subst hN
    have hval : ∀ f ∈ ops.map Sigma.fst,
        (r.init r.index (QSettings.ofStore m2)).value f = r.value f :=
      fun f hf => profile_init_value r _ f (h3 f (Or.inl hf))
    refine ⟨hval, ?_⟩
    intro hall
    apply profile_ext
    · exact profile_init_index _ _ _
    · intro f
      exact hval f (hall f)
  · intro j ops
    obtain ⟨m2, h1, h2, h3⟩ := jstick_setters_stable ops (j.init N (QSettings.ofStore m)) m
    rw [h1]
    generalize (JStickData.setters ops (j.init N (QSettings.ofStore m))
      (QSettings.ofStore m)).1 = r at h2 h3 ⊢
    have hN : r.index = N := h2.trans (jstick_init_index j N _)
    refine ⟨hN, ?_⟩
    subst hN
    apply jstick_ext
    · exact jstick_init_index _ _ _
    · intro f
      exact jstick_init_value r _ f (h3 f (Or.inr (jstick_init_stable j _ _ f)))
  · intro j ops hj
    obtain ⟨m2, h1, h2, h3⟩ := jstick_setters_stable ops j m
    rw [h1]
    generalize (JStickData.setters ops j (QSettings.ofStore m)).1 = r at h2 h3 ⊢
    have hN : r.index = N := h2.trans hj
    subst hN
    have hval : ∀ f ∈ ops.map Sigma.fst,
        (r.init r.index (QSettings.ofStore m2)).value f = r.value f :=
      fun f hf => jstick_init_value r _ f (h3 f (Or.inl hf))
    refine ⟨hval, ?_⟩
    intro hall
    apply jstick_ext
    · exact jstick_init_index _ _ _
    · intro f
      exact hval f (hall f)

/-- Instances of the round trip: profile 3 on a store that holds a name, with the name
set and then set back to the default, and joystick 2 with the axis set to 4. -/
theorem persist_reload_round_trip_witness :
    ((Profile.setters [⟨.name, "Taranis"⟩, ⟨.name, ""⟩] (Profile.ctor.init 3 (QSettings.ofStore [("Profiles/profile3/Name", .qString "Old")]))
      (QSettings.ofStore [("Profiles/profile3/Name", .qString "Old")])).1.init 3
        (Profile.setters [⟨.name, "Taranis"⟩, ⟨.name, ""⟩] (Profile.ctor.init 3 (QSettings.ofStore [("Profiles/profile3/Name", .qString "Old")]))
          (QSettings.ofStore [("Profiles/profile3/Name", .qString "Old")])).2
      = (Profile.setters [⟨.name, "Taranis"⟩, ⟨.name, ""⟩] (Profile.ctor.init 3 (QSettings.ofStore [("Profiles/profile3/Name", .qString "Old")]))
          (QSettings.ofStore [("Profiles/profile3/Name", .qString "Old")])).1)
    ∧ ((⟨3, Profile.ctor.value⟩ : Profile).index = 3
      ∧ ProfileField.name ∈ ([⟨.name, "Taranis"⟩, ⟨.name, ""⟩] :
          List (Σ f : ProfileField, f.type.T)).map Sigma.fst
      ∧ ((Profile.setters [⟨.name, "Taranis"⟩, ⟨.name, ""⟩] ⟨3, Profile.ctor.value⟩
          (QSettings.ofStore [("Profiles/profile3/Name", .qString "Old")])).1.init 3
          (Profile.setters [⟨.name, "Taranis"⟩, ⟨.name, ""⟩] ⟨3, Profile.ctor.value⟩
            (QSettings.ofStore [("Profiles/profile3/Name", .qString "Old")])).2).value .name
        = (Profile.setters [⟨.name, "Taranis"⟩, ⟨.name, ""⟩] ⟨3, Profile.ctor.value⟩
            (QSettings.ofStore [("Profiles/profile3/Name", .qString "Old")])).1.value .name)
    ∧ ((JStickData.setters [⟨.stick_axe, (4 : Int)⟩] (JStickData.ctor.init 2 (QSettings.ofStore [("JsCalibration/stick2_axe", .int 5)]))
      (QSettings.ofStore [("JsCalibration/stick2_axe", .int 5)])).1.init 2
        (JStickData.setters [⟨.stick_axe, (4 : Int)⟩] (JStickData.ctor.init 2 (QSettings.ofStore [("JsCalibration/stick2_axe", .int 5)]))
          (QSettings.ofStore [("JsCalibration/stick2_axe", .int 5)])).2
      = (JStickData.setters [⟨.stick_axe, (4 : Int)⟩] (JStickData.ctor.init 2 (QSettings.ofStore [("JsCalibration/stick2_axe", .int 5)]))
          (QSettings.ofStore [("JsCalibration/stick2_axe", .int 5)])).1)
    ∧ ((⟨2, JStickData.ctor.value⟩ : JStickData).index = 2
      ∧ JStickField.stick_axe ∈ ([⟨.stick_axe, (4 : Int)⟩] :
          List (Σ f : JStickField, f.type.T)).map Sigma.fst
      ∧ ((JStickData.setters [⟨.stick_axe, (4 : Int)⟩] ⟨2, JStickData.ctor.value⟩
          (QSettings.ofStore [("JsCalibration/stick2_axe", .int 5)])).1.init 2
          (JStickData.setters [⟨.stick_axe, (4 : Int)⟩] ⟨2, JStickData.ctor.value⟩
            (QSettings.ofStore [("JsCalibration/stick2_axe", .int 5)])).2).value .stick_axe
        = (JStickData.setters [⟨.stick_axe, (4 : Int)⟩] ⟨2, JStickData.ctor.value⟩
            (QSettings.ofStore [("JsCalibration/stick2_axe", .int 5)])).1.value .stick_axe) :=
  ⟨((persist_reload_round_trip [("Profiles/profile3/Name", .qString "Old")] 3).1 Profile.ctor _).2,
   ⟨rfl, by decide,
    ((persist_reload_round_trip [("Profiles/profile3/Name", .qString "Old")] 3).2.1
      ⟨3, Profile.ctor.value⟩ _ rfl).1 .name (by decide)⟩,
   ((persist_reload_round_trip [("JsCalibration/stick2_axe", .int 5)] 2).2.2.1 JStickData.ctor _).2,
   ⟨rfl, by decide,
    ((persist_reload_round_trip [("JsCalibration/stick2_axe", .int 5)] 2).2.2.2
      ⟨2, JStickData.ctor.value⟩ _ rfl).1 .stick_axe (by decide)⟩⟩

end Companion
